import Mathlib

/-!
# SoapyTCPRemote: text RPC codec, stream setup and receive pump

A shallow embedding of `SoapyRPC.hpp` and of the parts of `SoapyTCPServer.cpp`
that decide the stated properties, followed by the theorems proved about them.

Conventions of the embedding

* a C `char` is a `Char`, a `std::string` is a `List Char` (`Str`);
* a pointer is an `Option` of a handle number, the null pointer is `none`;
* `for (i = 0; i < n; ++i) body` is `forLoop n body`;
* a block returned by `alloca` has a size in bytes, and a state `none` stands
  for the undefined behaviour of an access outside its block;
* `while (true)` loops carry a fuel argument that is set from the length of the
  unread input, and are shown not to depend on it once it is large enough;
* the byte stream behind a `FILE *` is a list of unread characters, a list of
  emitted characters and the number of `fprintf` calls the peer still accepts.
-/

namespace SoapyTCPRemote

/-! ## Control flow helpers -/

/-- The loop `for (i = 0; i < n; ++i) s = body i s`, iterations run in the
order `0, 1, ..., n - 1`. -/
def forLoop {σ : Type} : Nat → (Nat → σ → σ) → σ → σ
  | 0, _, s => s
  | n + 1, body, s => body n (forLoop n body s)

/-! ## Receive pump: interleaving (`dataPump`, SoapyTCPServer.cpp 103-136) -/

/-- A byte buffer addressed from its base pointer. -/
abbrev Mem := Nat → UInt8

/-- Multiplication of two `size_t` values. -/
def sizeMul (a b : Nat) : Nat := (a * b) % 2 ^ 64

/-- The call `memcpy(dst + d, src + s, n)` for two distinct buffers. -/
def memcpy (dst : Mem) (d : Nat) (src : Mem) (s n : Nat) : Mem :=
  fun k => if d ≤ k ∧ k < d + n then src (s + (k - d)) else dst k

/-- What the C implementation fixes for the stack blocks of the pump:
`sizeof(void *)` and the number of bytes that the block returned by
`alloca(n)` holds. An access outside a block is undefined behaviour. -/
structure StackModel where
  ptrSize : Nat
  allocaBytes : Nat → Nat

/-- The usual 64 bit implementation: pointers of 8 bytes, `alloca` rounds the
size up to a multiple of 16. -/
def lp64 : StackModel := { ptrSize := 8, allocaBytes := fun n => (n + 15) / 16 * 16 }

/-- The sizes in bytes of the three blocks `buffs = alloca(numChans)`,
`cbuf = alloca(bufSize)` and `nbuf = alloca(bufSize)`. -/
structure PumpFrame where
  pbytes : Nat
  cbytes : Nat
  nbytes : Nat

/-- The store `buffs[c] = cbuf + off` into the pointer block of `pbytes` bytes.
The state is the pointer held by each slot, as an offset into `cbuf` (`none`:
never stored); the state `none` stands for undefined behaviour, which is what a
store outside the block is. -/
def storeBuff (P : StackModel) (pbytes c off : Nat) (buffs : Option (Nat → Option Nat)) :
    Option (Nat → Option Nat) :=
  match buffs with
  | none => none
  | some slots =>
    if P.ptrSize * (c + 1) ≤ pbytes then some (fun k => if k = c then some off else slots k)
    else none

/-- The loop `for (c = 0; c < numChans; ++c) buffs[c] = cbuf + (c * blkSize)`. -/
def fillBuffs (P : StackModel) (pbytes blkSize numChans : Nat) : Option (Nat → Option Nat) :=
  forLoop numChans (fun c st => storeBuff P pbytes c (sizeMul c blkSize) st)
    (some (fun _ => none))

/-- The network buffer together with the write cursor `pn` (an offset into it). -/
structure NetCursor where
  nbuf : Mem
  pn : Nat

/-- Body of the inner loop: `pc = buffs[c]; memcpy(pn, pc + eoff, fSize);
pn += fSize`. The load has to lie inside the pointer block, the bytes read
inside `cbuf` and the bytes written inside `nbuf`; otherwise the behaviour is
undefined (`none`). -/
def copyFrame (P : StackModel) (B : PumpFrame) (slots : Nat → Option Nat) (cbuf : Mem)
    (fSize eoff : Nat) (c : Nat) (st : Option NetCursor) : Option NetCursor :=
  match st with
  | none => none
  | some s =>
    if P.ptrSize * (c + 1) ≤ B.pbytes then
      match slots c with
      | none => none
      | some pc =>
        if pc + eoff + fSize ≤ B.cbytes ∧ s.pn + fSize ≤ B.nbytes then
          some { nbuf := memcpy s.nbuf s.pn cbuf (pc + eoff) fSize, pn := s.pn + fSize }
        else none
    else none

/-- The two nested loops that interleave `nread` samples of `numChans`
channels, starting with `pn = nbuf`. -/
def interleave (P : StackModel) (B : PumpFrame) (slots : Nat → Option Nat) (cbuf : Mem)
    (fSize numChans nread : Nat) (nbuf : Mem) : Option NetCursor :=
  forLoop nread
    (fun idx st => forLoop numChans (copyFrame P B slots cbuf fSize (sizeMul idx fSize)) st)
    (some { nbuf := nbuf, pn := 0 })

/-- The bytes that `fwrite(ptr, size, nmemb, fp)` hands to the stream:
`nmemb` items of `size` bytes each, read from the start of `ptr`. -/
def fwriteBytes (ptr : Mem) (size nmemb : Nat) : List UInt8 :=
  (List.range (size * nmemb)).map ptr

/-- How one pass of the pump loop ends: with undefined behaviour, by leaving
the loop without a write, or with bytes handed to `fwrite`. -/
inductive PumpPass where
  | undefined
  | stop
  | wrote (bytes : List UInt8)
  deriving DecidableEq

/-- The set-up of the three blocks and of the channel pointers (lines
103-111), followed by one pass of the pump loop after `readStream` has
returned `nread` and left the contents `cbuf` in the channel block: a negative
count leaves the loop without a write, otherwise the samples are interleaved
and handed to `fwrite`. `numElems` is the element count computed from the
rate. -/
def dataPumpBlock (P : StackModel) (fSize numChans numElems : Nat) (cbuf : Mem) (nread : Int)
    (nbuf : Mem) : PumpPass :=
  let blkSize := sizeMul numElems fSize
  let bufSize := sizeMul blkSize numChans
  let B : PumpFrame :=
    { pbytes := P.allocaBytes numChans, cbytes := P.allocaBytes bufSize,
      nbytes := P.allocaBytes bufSize }
  match fillBuffs P B.pbytes blkSize numChans with
  | none => PumpPass.undefined
  | some slots =>
    if nread < 0 then PumpPass.stop
    else
      match interleave P B slots cbuf fSize numChans nread.toNat nbuf with
      | none => PumpPass.undefined
      | some st => PumpPass.wrote (fwriteBytes st.nbuf (sizeMul fSize numChans) nread.toNat)

/-! ## Strings and `size_t` arithmetic -/

/-- A `std::string`: the sequence of its `char`s. -/
abbrev Str := List Char

/-- The terminating NUL of a C string. -/
def NUL : Char := Char.ofNat 0

/-- The line terminator of the wire protocol. -/
def NL : Char := Char.ofNat 10

/-- The value `std::string::npos`, that is `(size_t)-1`. -/
def npos : Nat := 2 ^ 64 - 1

/-- Addition of two `size_t` values. -/
def sizeAdd (a b : Nat) : Nat := (a + b) % 2 ^ 64

/-- Subtraction of two `size_t` values. -/
def sizeSub (a b : Nat) : Nat := (a + 2 ^ 64 - b % 2 ^ 64) % 2 ^ 64

/-- Position of the first occurrence of `c` in `s`, if there is one. -/
def indexOf (c : Char) : Str → Option Nat
  | [] => none
  | x :: xs => if x = c then some 0 else (indexOf c xs).map (· + 1)

/-- The call `s.find(c, pos)`: the first position `≥ pos` holding `c`, or `npos`. -/
def find (s : Str) (c : Char) (pos : Nat) : Nat :=
  match indexOf c (s.drop pos) with
  | some i => pos + i
  | none => npos

/-- The call `s.substr(pos, len)`; at every call site `pos ≤ s.size()`, so no
`out_of_range` is thrown. -/
def substr (s : Str) (pos len : Nat) : Str := (s.drop pos).take len

/-- The characters a `const char *` view of `s` shows: those before the first NUL. -/
def c_str (s : Str) : Str := s.takeWhile (fun c => c != NUL)

/-- The order of `std::less<std::string>`: lexicographic on the character codes. -/
def strLt : Str → Str → Bool
  | [], [] => false
  | [], _ :: _ => true
  | _ :: _, [] => false
  | a :: as, b :: bs =>
    if a.toNat < b.toNat then true
    else if a.toNat = b.toNat then strLt as bs
    else false

/-! ## Number conversions of the C library -/

/-- The C `isspace` in the "C" locale. -/
def isspace (c : Char) : Bool :=
  c.toNat = 32 || (9 ≤ c.toNat && c.toNat ≤ 13)

/-- The C `isdigit`. -/
def isdigit (c : Char) : Bool := 48 ≤ c.toNat && c.toNat ≤ 57

/-- Value of a run of decimal digits, most significant first. -/
def digitsValue (ds : Str) : Nat :=
  ds.foldl (fun acc c => 10 * acc + (c.toNat - 48)) 0

/-- Saturation to the range of `long` (64 bit), as `strtol` does on overflow. -/
def clampLong (v : Int) : Int := max (-(2 ^ 63)) (min v (2 ^ 63 - 1))

/-- Conversion of a `long` to `int` (32 bit two's complement). -/
def wrapInt32 (v : Int) : Int := (v + 2 ^ 31) % 2 ^ 32 - 2 ^ 31

/-- Leading decimal integer of `s` in the manner of `strtol(s, 0, 10)`: blanks
are skipped, one sign is accepted, then at least one digit is needed. -/
def scanLong (s : Str) : Option Int :=
  let t := s.dropWhile isspace
  let neg := t.head? == some '-'
  let u := if t.head? == some '-' || t.head? == some '+' then t.drop 1 else t
  let ds := u.takeWhile isdigit
  if ds.isEmpty then none
  else some (clampLong (if neg then -(digitsValue ds : Int) else (digitsValue ds : Int)))

/-- The conversion `sscanf(s, "%d", &rv)`: `none` when nothing is stored. -/
def scanInt (s : Str) : Option Int := (scanLong s).map wrapInt32

/-- The call `atoi(s)`. -/
def atoi (s : Str) : Int := wrapInt32 ((scanLong s).getD 0)

/-- The text `printf("%d", i)` produces. -/
def fmtInt (i : Int) : Str :=
  if i < 0 then '-' :: Nat.toDigits 10 i.natAbs else Nat.toDigits 10 i.natAbs

/-- A `double`: not-a-number, an infinity, or a finite value given by the
rational it denotes. -/
inductive CDouble where
  | nan
  | inf (neg : Bool)
  | fin (q : ℚ)
  deriving DecidableEq, Repr

/-- The comparison `d == 0` on doubles (false on NaN). -/
def CDouble.isZero : CDouble → Bool
  | CDouble.fin q => q == 0
  | _ => false

/-- The two text conversions of doubles done by the C library: `scan` is
`sscanf(s, "%lf", &rv)` (`none` when nothing is stored) and `fmt` is the text of
`printf("%f", d)`. -/
structure FloatConv where
  scan : Str → Option CDouble
  fmt : CDouble → Str

/-! ## The stdio stream under a codec -/

/-- A `FILE *` opened on a socket: the bytes still to be read, the bytes
emitted so far, and how many further `fprintf` calls succeed (`none`: all). -/
structure FileStream where
  input : Str
  output : Str
  credit : Option Nat
  deriving DecidableEq, Repr

/-- The call `fprintf(handle, "%s\n", text)` and its return value: the number
of bytes written, or a negative value when the stream refuses the write. -/
def fprintfLine (h : FileStream) (text : Str) : Int × FileStream :=
  match h.credit with
  | some 0 => (-1, h)
  | some (k + 1) =>
    ((text.length + 1 : Nat), { h with output := h.output ++ text ++ [NL], credit := some k })
  | none => ((text.length + 1 : Nat), { h with output := h.output ++ text ++ [NL] })

/-- What `fgets` stores from the head of the input: at most `n` characters,
stopping after a newline. -/
def takeLine : Nat → Str → Str
  | 0, _ => []
  | _, [] => []
  | n + 1, c :: cs => if c = NL then [c] else c :: takeLine n cs

/-- The call `fgets(line, size, handle)`: `none` at end of input, otherwise the
stored characters (at most `size - 1`). -/
def fgets (size : Nat) (h : FileStream) : Option Str × FileStream :=
  if h.input.isEmpty then (none, h)
  else
    let line := takeLine (size - 1) h.input
    (some line, { h with input := h.input.drop line.length })

/-! ## The codec (`class SoapyRPC`, SoapyRPC.hpp 159-314) -/

/-- State of a `SoapyRPC` object. -/
structure SoapyRPC where
  handle : FileStream
  hasError : Bool
  deriving DecidableEq, Repr

/-- Shared tail of the three scalar writers: `fprintf` the line, raise the
flag when it fails, return its result. -/
def writeLine (rpc : SoapyRPC) (text : Str) : Int × SoapyRPC :=
  let p := fprintfLine rpc.handle text
  (p.1, { handle := p.2, hasError := if p.1 < 0 then true else rpc.hasError })

/-- The method `writeInteger`. -/
def writeInteger (rpc : SoapyRPC) (i : Int) : Int × SoapyRPC :=
  if rpc.hasError then (-1, rpc) else writeLine rpc (fmtInt i)

/-- The method `writeDouble`. -/
def writeDouble (F : FloatConv) (rpc : SoapyRPC) (d : CDouble) : Int × SoapyRPC :=
  if rpc.hasError then (-1, rpc) else writeLine rpc (F.fmt d)

/-- The method `writeString`. -/
def writeString (rpc : SoapyRPC) (s : Str) : Int × SoapyRPC :=
  if rpc.hasError then (-1, rpc) else writeLine rpc (c_str s)

/-- A `SoapySDR::Kwargs`, that is a `std::map<std::string, std::string>`: the
entries in iteration order. -/
abbrev Kwargs := List (Str × Str)

/-- The keys of a `std::map` are strictly increasing in iteration order. -/
def Kwargs.ordered (m : Kwargs) : Prop :=
  m.Pairwise (fun a b => strLt a.1 b.1 = true)

instance (m : Kwargs) : Decidable (Kwargs.ordered m) := by
  unfold Kwargs.ordered; infer_instance

/-- The assignment `args[k] = v` on a `std::map`. -/
def Kwargs.assign : Kwargs → Str → Str → Kwargs
  | [], k, v => [(k, v)]
  | (k1, v1) :: rest, k, v =>
    if k = k1 then (k1, v) :: rest
    else if strLt k k1 then (k, v) :: (k1, v1) :: rest
    else (k1, v1) :: Kwargs.assign rest k v

/-- The `for` loop of `writeKwargs` over the entries, with the running byte
count `n`; a failed write returns at once. The flag says whether the loop ran
to its end. -/
def writeKwargsLoop : Kwargs → SoapyRPC → Int → Bool × Int × SoapyRPC
  | [], rpc, n => (true, n, rpc)
  | (k, v) :: rest, rpc, n =>
    let w := writeString rpc (k ++ '=' :: v)
    if w.1 < 0 then (false, w.1, w.2)
    else writeKwargsLoop rest w.2 (n + w.1)

/-- The method `writeKwargs`. -/
def writeKwargs (rpc : SoapyRPC) (args : Kwargs) : Int × SoapyRPC :=
  if rpc.hasError then (-1, rpc)
  else
    let l := writeKwargsLoop args rpc 0
    if l.1 then
      let w := writeString l.2.2 ['=']
      if w.1 < 0 then (w.1, w.2) else (l.2.1 + w.1, w.2)
    else (l.2.1, l.2.2)

/-- The `for` loop of `writeStrVector`, as in `writeKwargsLoop`. -/
def writeStrVectorLoop : List Str → SoapyRPC → Int → Bool × Int × SoapyRPC
  | [], rpc, n => (true, n, rpc)
  | s :: rest, rpc, n =>
    let w := writeString rpc s
    if w.1 < 0 then (false, w.1, w.2)
    else writeStrVectorLoop rest w.2 (n + w.1)

/-- The method `writeStrVector`. -/
def writeStrVector (rpc : SoapyRPC) (vec : List Str) : Int × SoapyRPC :=
  if rpc.hasError then (-1, rpc)
  else
    let l := writeStrVectorLoop vec rpc 0
    if l.1 then
      let w := writeString l.2.2 []
      if w.1 < 0 then (w.1, w.2) else (l.2.1 + w.1, w.2)
    else (l.2.1, l.2.2)

/-- The method `readString`: one `fgets` into a 256 byte buffer, the last
stored character is cut off (`line[strlen(line)-1] = 0`); at end of input the
flag is raised and the empty string returned. -/
def readString (rpc : SoapyRPC) : Str × SoapyRPC :=
  if rpc.hasError then ([], rpc)
  else
    match fgets 256 rpc.handle with
    | (some line, h) => ((c_str line).dropLast, { rpc with handle := h })
    | (none, h) => ([], { handle := h, hasError := true })

/-- The method `readInteger`. -/
def readInteger (rpc : SoapyRPC) : Int × SoapyRPC :=
  if rpc.hasError then (-1, rpc)
  else
    let r := readString rpc
    if r.1.length > 0 then ((scanInt r.1).getD (-1), r.2) else (-1, r.2)

/-- The method `readDouble`. -/
def readDouble (F : FloatConv) (rpc : SoapyRPC) : CDouble × SoapyRPC :=
  if rpc.hasError then (CDouble.fin (-1), rpc)
  else
    let r := readString rpc
    if r.1.length > 0 then ((F.scan r.1).getD CDouble.nan, r.2) else (CDouble.nan, r.2)

/-- The `while (true)` loop of `readKwargs`; every pass consumes input or
ends the loop, so `fuel` larger than the unread input is never used up. -/
def readKwargsLoop : Nat → SoapyRPC → Kwargs → Kwargs × SoapyRPC
  | 0, rpc, args => (args, rpc)
  | fuel + 1, rpc, args =>
    let r := readString rpc
    if r.1.length < 2 then (args, r.2)
    else
      let p := find r.1 '=' 0
      if p > 0 then
        readKwargsLoop fuel r.2 (args.assign (substr r.1 0 p) (substr r.1 (sizeAdd p 1) npos))
      else readKwargsLoop fuel r.2 args

/-- The method `readKwargs`. -/
def readKwargs (rpc : SoapyRPC) : Kwargs × SoapyRPC :=
  if rpc.hasError then ([], rpc)
  else readKwargsLoop (rpc.handle.input.length + 1) rpc []

/-- The `while (true)` loop of `readStrVector`, fuelled as `readKwargsLoop`. -/
def readStrVectorLoop : Nat → SoapyRPC → List Str → List Str × SoapyRPC
  | 0, rpc, list => (list, rpc)
  | fuel + 1, rpc, list =>
    let r := readString rpc
    if r.1.length = 0 then (list, r.2)
    else readStrVectorLoop fuel r.2 (list ++ [r.1])

/-- The method `readStrVector`. -/
def readStrVector (rpc : SoapyRPC) : List Str × SoapyRPC :=
  if rpc.hasError then ([], rpc)
  else readStrVectorLoop (rpc.handle.input.length + 1) rpc []

/-! ## Connection table (SoapyTCPServer.cpp 18-32) -/

/-- The record `struct ConnectionInfo`. Pointers are handle numbers, `none`
is the null pointer; the codec object behind `rpc` is passed to the handlers
as a `SoapyRPC` value of its own. -/
structure ConnectionInfo where
  rpc : Option Nat
  dev : Option Nat
  netFp : Option Nat
  direction : Int
  rate : CDouble
  fSize : Nat
  numChans : Nat
  stream : Option Nat
  pid : Nat
  deriving DecidableEq, Repr

/-- The global `s_connections`, a `std::map<int, ConnectionInfo>`. -/
abbrev Table := List (Int × ConnectionInfo)

/-- The lookup `s_connections.find(k)`; `none` stands for `end()`. -/
def Table.find (t : Table) (k : Int) : Option ConnectionInfo := List.lookup k t

/-- A write through the reference `s_connections.at(k)`: the record stored
under `k` is replaced, no key is added or removed. -/
def Table.store (t : Table) (k : Int) (c : ConnectionInfo) : Table :=
  t.map (fun e => if e.1 = k then (e.1, c) else e)

/-- The table `g_frameSizes` (SoapyRPC.hpp 17-19). -/
def g_frameSizes : List (Str × Nat) :=
  [(['C', 'S', '8'], 2), (['C', 'S', '1', '6'], 4), (['C', 'F', '3', '2'], 8)]

/-! ## The device layer seen from the handlers -/

/-- The methods of `SoapySDR::Device` the server calls, besides `setupStream`
and `setSampleRate`; the overloads that take a name carry the suffix `Named`. -/
inductive DevMethod where
  | make | unmake
  | getHardwareKey | getHardwareInfo
  | setFrontendMapping | getFrontendMapping | getNumChannels | getChannelInfo | getFullDuplex
  | getStreamFormats | getNativeStreamFormat
  | closeStream | getStreamMTU
  | listAntennas | setAntenna | getAntenna
  | listGains | hasGainMode | setGainMode | getGainMode
  | setGain | setGainNamed | getGain | getGainNamed | getGainRange | getGainRangeNamed
  | setFrequency | setFrequencyNamed | getFrequency | getFrequencyNamed | listFrequencies
  | getFrequencyRange | getFrequencyRangeNamed
  | getSampleRate | getSampleRateRange
  deriving DecidableEq, Repr

/-- An argument value passed to a device method. -/
inductive DevArg where
  | int (i : Int)
  | size (n : Nat)
  | bool (b : Bool)
  | dbl (d : CDouble)
  | str (s : Str)
  | kwargs (k : Kwargs)
  | ptr (p : Option Nat)
  deriving DecidableEq, Repr

/-- A device operation invoked by a handler, with its arguments. -/
inductive DevCall where
  | setupStream (dev : Option Nat) (direction : Int) (fmt : Str) (channels : List Nat)
      (args : Kwargs)
  | setSampleRate (dev : Option Nat) (dir chn : Int) (rate : CDouble)
  | invoke (method : DevMethod) (dev : Option Nat) (args : List DevArg)
  deriving DecidableEq, Repr

/-- The answers of the device layer: `setupStream` returns a stream pointer,
`none` when no stream was created. -/
structure DeviceLayer where
  setupStream : Option Nat → Int → Str → List Nat → Kwargs → Option Nat

/-- The state the handlers act on besides the caller's codec: the connection
table and the device operations invoked so far. -/
structure Server where
  s_connections : Table
  calls : List DevCall
  deriving DecidableEq, Repr

/-! ## Stream setup (`handleSetupStream`, SoapyTCPServer.cpp 278-329) -/

/-- Conversion of an `int` to `size_t`. -/
def sizeOfInt (i : Int) : Nat := (i % 2 ^ 64).toNat

/-- The `do ... while (nxt != npos)` loop over the channel string; each pass
moves `nxt` forward, so `fuel` larger than the string is never used up. -/
def parseChannelsLoop (chans : Str) : Nat → Nat → List Nat → List Nat
  | 0, _, channels => channels
  | fuel + 1, nxt, channels =>
    let cur := sizeAdd nxt 1
    let nxt1 := find chans ' ' cur
    let channels1 := channels ++ [sizeOfInt (atoi (c_str (substr chans cur (sizeSub nxt1 cur))))]
    if nxt1 != npos then parseChannelsLoop chans fuel nxt1 channels1 else channels1

/-- The channel list parsed from the request (`std::vector<size_t> channels`). -/
def parseChannels (chans : Str) : List Nat :=
  parseChannelsLoop chans (chans.length + 1) npos []

/-- The arguments of a stream setup request, in reading order. -/
structure SetupRequest where
  dataId : Int
  direction : Int
  fmt : Str
  chans : Str
  args : Kwargs
  deriving DecidableEq, Repr

/-- The five reads that open `handleSetupStream`. -/
def readSetupRequest (rpc : SoapyRPC) : SetupRequest × SoapyRPC :=
  let r1 := readInteger rpc
  let r2 := readInteger r1.2
  let r3 := readString r2.2
  let r4 := readString r3.2
  let r5 := readKwargs r4.2
  ({ dataId := r1.1, direction := r2.1, fmt := r3.1, chans := r4.1, args := r5.1 }, r5.2)

/-- The handler `handleSetupStream(conn)`. `conn` is the caller's record and
`rpc` the codec `*conn.rpc`; the handler reads only `conn.dev` and `conn.rate`,
which its own stores leave as they are even when the data id names the
caller's record. Returns the handler's result, the codec and the server state. -/
def handleSetupStream (D : DeviceLayer) (conn : ConnectionInfo) (rpc : SoapyRPC)
    (sv : Server) : Int × SoapyRPC × Server :=
  let q := readSetupRequest rpc
  let req := q.1
  match sv.s_connections.find req.dataId with
  | none => (0, (writeInteger q.2 (-1)).2, sv)
  | some data =>
    match g_frameSizes.lookup req.fmt with
    | none => (0, (writeInteger q.2 (-2)).2, sv)
    | some frameSize =>
      if conn.rate.isZero then (0, (writeInteger q.2 (-3)).2, sv)
      else
        let channels := parseChannels req.chans
        let stream := D.setupStream conn.dev req.direction req.fmt channels req.args
        let bound : ConnectionInfo :=
          { data with
            dev := conn.dev, direction := req.direction, rate := conn.rate,
            fSize := frameSize, numChans := channels.length, stream := stream }
        let w4 := if stream.isNone then (writeInteger q.2 (-4)).2 else q.2
        (0, (writeInteger w4 req.dataId).2,
          { s_connections := sv.s_connections.store req.dataId bound,
            calls := sv.calls ++
              [DevCall.setupStream conn.dev req.direction req.fmt channels req.args] })

/-- The handler `handleSetSampleRate(conn)` (SoapyTCPServer.cpp 629-638): the
rate read from the request is remembered in the caller's record and passed to
the device. Returns the handler's result, the caller's record, the codec and
the device operations invoked so far. -/
def handleSetSampleRate (F : FloatConv) (conn : ConnectionInfo) (rpc : SoapyRPC)
    (calls : List DevCall) : Int × ConnectionInfo × SoapyRPC × List DevCall :=
  let r1 := readInteger rpc
  let r2 := readInteger r1.2
  let r3 := readDouble F r2.2
  (0, { conn with rate := r3.1 }, (writeInteger r3.2 0).2,
    calls ++ [DevCall.setSampleRate conn.dev r1.1 r2.1 r3.1])

/-! ## The whole device interface and the other collaborators of the handlers -/

/-- A `SoapySDR::Range`: what `minimum()`, `maximum()` and `step()` return. -/
structure Range where
  minimum : CDouble
  maximum : CDouble
  step : CDouble
  deriving DecidableEq, Repr

/-- The answers of the device layer to all operations the handlers use. The
first argument is the device pointer the method is called on; a `size_t`
channel is a `Nat`. `setupStream` is inherited from `DeviceLayer`. -/
structure Device extends DeviceLayer where
  getHardwareKey : Option Nat → Str
  getHardwareInfo : Option Nat → Kwargs
  getFrontendMapping : Option Nat → Int → Str
  getNumChannels : Option Nat → Int → Nat
  getChannelInfo : Option Nat → Int → Nat → Kwargs
  getFullDuplex : Option Nat → Int → Nat → Bool
  getStreamFormats : Option Nat → Int → Nat → List Str
  getNativeStreamFormat : Option Nat → Int → Nat → Str × CDouble
  getStreamMTU : Option Nat → Option Nat → Nat
  listAntennas : Option Nat → Int → Nat → List Str
  getAntenna : Option Nat → Int → Nat → Str
  listGains : Option Nat → Int → Nat → List Str
  hasGainMode : Option Nat → Int → Nat → Bool
  getGainMode : Option Nat → Int → Nat → Bool
  getGain : Option Nat → Int → Nat → CDouble
  getGainNamed : Option Nat → Int → Nat → Str → CDouble
  getGainRange : Option Nat → Int → Nat → Range
  getGainRangeNamed : Option Nat → Int → Nat → Str → Range
  getFrequency : Option Nat → Int → Nat → CDouble
  getFrequencyNamed : Option Nat → Int → Nat → Str → CDouble
  listFrequencies : Option Nat → Int → Nat → List Str
  getFrequencyRange : Option Nat → Int → Nat → List Range
  getFrequencyRangeNamed : Option Nat → Int → Nat → Str → List Range
  getSampleRate : Option Nat → Int → Nat → CDouble
  getSampleRateRange : Option Nat → Int → Nat → List Range

/-- The answers of the thread library: `create` is the thread id stored by a
successful `pthread_create` (`none` when it fails), `join pid` tells whether
`pthread_join(pid, nullptr)` returns 0. -/
structure ThreadLayer where
  create : Option Nat
  join : Nat → Bool

/-- The field `revents` of a `struct pollfd`: whether the bits `POLLIN`,
`POLLERR`, `POLLHUP` are set, and whether any other bit is. -/
structure Revents where
  pollin : Bool
  pollerr : Bool
  pollhup : Bool
  other : Bool
  deriving DecidableEq, Repr

/-- The test `pfd.revents != 0`. -/
def Revents.nonzero (r : Revents) : Bool := r.pollin || r.pollerr || r.pollhup || r.other

/-- The test `pfd->revents & (POLLERR|POLLHUP)`. -/
def Revents.errOrHup (r : Revents) : Bool := r.pollerr || r.pollhup

/-- The assignment `s_connections[k] = c`: the record under `k` is replaced, or
a new entry is put at its place in key order. -/
def Table.assign : Table → Int → ConnectionInfo → Table
  | [], k, c => [(k, c)]
  | (k1, c1) :: rest, k, c =>
    if k = k1 then (k1, c) :: rest
    else if k < k1 then (k, c) :: (k1, c1) :: rest
    else (k1, c1) :: Table.assign rest k c

/-- The call `s_connections.erase(k)`. -/
def Table.erase (t : Table) (k : Int) : Table := t.filter (fun e => e.1 != k)

/-! ## Call codes (enumeration in SoapyRPC.hpp 25-153)

An enumerator without initialiser is one more than its predecessor. Only the
enumerators used by the server are listed; 28 to 39 and 61 to 107 are taken by
enumerators that have no `case` label in `handleRPC`. -/

def TCPREMOTE_RPC_LOAD : Int := 0
def TCPREMOTE_LOG_STREAM : Int := 1
def TCPREMOTE_DATA_SEND : Int := 2
def TCPREMOTE_DATA_RECV : Int := 3
def TCPREMOTE_GET_HARDWARE_KEY : Int := 10
def TCPREMOTE_GET_HARDWARE_INFO : Int := 11
def TCPREMOTE_SET_FRONTEND_MAPPING : Int := 12
def TCPREMOTE_GET_FRONTEND_MAPPING : Int := 13
def TCPREMOTE_GET_NUM_CHANNELS : Int := 14
def TCPREMOTE_GET_CHANNEL_INFO : Int := 15
def TCPREMOTE_GET_FULL_DUPLEX : Int := 16
def TCPREMOTE_GET_STREAM_FORMATS : Int := 17
def TCPREMOTE_GET_STREAM_NATIVE_FORMAT : Int := 18
def TCPREMOTE_GET_STREAM_ARGS_INFO : Int := 19
def TCPREMOTE_SETUP_STREAM : Int := 20
def TCPREMOTE_CLOSE_STREAM : Int := 21
def TCPREMOTE_GET_STREAM_MTU : Int := 22
def TCPREMOTE_ACTIVATE_STREAM : Int := 23
def TCPREMOTE_DEACTIVATE_STREAM : Int := 24
def TCPREMOTE_LIST_ANTENNAS : Int := 25
def TCPREMOTE_SET_ANTENNA : Int := 26
def TCPREMOTE_GET_ANTENNA : Int := 27
def TCPREMOTE_LIST_GAINS : Int := 40
def TCPREMOTE_HAS_GAIN_MODE : Int := 41
def TCPREMOTE_SET_GAIN_MODE : Int := 42
def TCPREMOTE_GET_GAIN_MODE : Int := 43
def TCPREMOTE_SET_GAIN : Int := 44
def TCPREMOTE_SET_GAIN_NAMED : Int := 45
def TCPREMOTE_GET_GAIN : Int := 46
def TCPREMOTE_GET_GAIN_NAMED : Int := 47
def TCPREMOTE_GET_GAIN_RANGE : Int := 48
def TCPREMOTE_GET_GAIN_RANGE_NAMED : Int := 49
def TCPREMOTE_SET_FREQUENCY : Int := 50
def TCPREMOTE_SET_FREQUENCY_NAMED : Int := 51
def TCPREMOTE_GET_FREQUENCY : Int := 52
def TCPREMOTE_GET_FREQUENCY_NAMED : Int := 53
def TCPREMOTE_LIST_FREQUENCIES : Int := 54
def TCPREMOTE_GET_FREQUENCY_RANGE : Int := 55
def TCPREMOTE_GET_FREQUENCY_RANGE_NAMED : Int := 56
def TCPREMOTE_GET_FREQUENCY_ARGS_INFO : Int := 57
def TCPREMOTE_SET_SAMPLE_RATE : Int := 58
def TCPREMOTE_GET_SAMPLE_RATE : Int := 59
def TCPREMOTE_GET_SAMPLE_RATE_RANGE : Int := 60
def TCPREMOTE_DROP_RPC : Int := 1000

/-! ## Pass-through handlers (SoapyTCPServer.cpp 182-276, 400-664)

Each handler gets the device answers, the caller's record, the caller's codec
and the device operations invoked so far, and returns its result, the codec
and the extended list of device operations. -/

/-- Conversion of a `bool` to `int`. -/
def intOfBool (b : Bool) : Int := if b then 1 else 0

/-- Conversion of a `size_t` to `int`. -/
def intOfSize (n : Nat) : Int := wrapInt32 (n : Int)

/-- The handler `handleGetHardwareKey`. -/
def handleGetHardwareKey (D : Device) (conn : ConnectionInfo) (rpc : SoapyRPC)
    (calls : List DevCall) : Int × SoapyRPC × List DevCall :=
  (0, (writeString rpc (D.getHardwareKey conn.dev)).2,
    calls ++ [DevCall.invoke DevMethod.getHardwareKey conn.dev []])

/-- The handler `handleGetHardwareInfo`. -/
def handleGetHardwareInfo (D : Device) (conn : ConnectionInfo) (rpc : SoapyRPC)
    (calls : List DevCall) : Int × SoapyRPC × List DevCall :=
  (0, (writeKwargs rpc (D.getHardwareInfo conn.dev)).2,
    calls ++ [DevCall.invoke DevMethod.getHardwareInfo conn.dev []])

/-- The handler `handleSetFrontendMapping`. -/
def handleSetFrontendMapping (conn : ConnectionInfo) (rpc : SoapyRPC)
    (calls : List DevCall) : Int × SoapyRPC × List DevCall :=
  let dir := readInteger rpc
  let cfg := readString dir.2
  (0, (writeInteger cfg.2 0).2,
    calls ++ [DevCall.invoke DevMethod.setFrontendMapping conn.dev
      [DevArg.int dir.1, DevArg.str cfg.1]])

/-- The handler `handleGetFrontendMapping`. -/
def handleGetFrontendMapping (D : Device) (conn : ConnectionInfo) (rpc : SoapyRPC)
    (calls : List DevCall) : Int × SoapyRPC × List DevCall :=
  let dir := readInteger rpc
  (0, (writeString dir.2 (D.getFrontendMapping conn.dev dir.1)).2,
    calls ++ [DevCall.invoke DevMethod.getFrontendMapping conn.dev [DevArg.int dir.1]])

/-- The handler `handleGetNumChannels`. -/
def handleGetNumChannels (D : Device) (conn : ConnectionInfo) (rpc : SoapyRPC)
    (calls : List DevCall) : Int × SoapyRPC × List DevCall :=
  let dir := readInteger rpc
  (0, (writeInteger dir.2 (intOfSize (D.getNumChannels conn.dev dir.1))).2,
    calls ++ [DevCall.invoke DevMethod.getNumChannels conn.dev [DevArg.int dir.1]])

/-- The handler `handleGetChannelInfo`. -/
def handleGetChannelInfo (D : Device) (conn : ConnectionInfo) (rpc : SoapyRPC)
    (calls : List DevCall) : Int × SoapyRPC × List DevCall :=
  let dir := readInteger rpc
  let chn := readInteger dir.2
  (0, (writeKwargs chn.2 (D.getChannelInfo conn.dev dir.1 (sizeOfInt chn.1))).2,
    calls ++ [DevCall.invoke DevMethod.getChannelInfo conn.dev
      [DevArg.int dir.1, DevArg.size (sizeOfInt chn.1)]])

/-- The handler `handleGetFullDuplex`. -/
def handleGetFullDuplex (D : Device) (conn : ConnectionInfo) (rpc : SoapyRPC)
    (calls : List DevCall) : Int × SoapyRPC × List DevCall :=
  let dir := readInteger rpc
  let chn := readInteger dir.2
  (0, (writeInteger chn.2 (intOfBool (D.getFullDuplex conn.dev dir.1 (sizeOfInt chn.1)))).2,
    calls ++ [DevCall.invoke DevMethod.getFullDuplex conn.dev
      [DevArg.int dir.1, DevArg.size (sizeOfInt chn.1)]])

/-- The loop `for (auto &fmt: ...) conn.rpc->writeString(fmt);`. -/
def writeEach (rpc : SoapyRPC) (strs : List Str) : SoapyRPC :=
  strs.foldl (fun r s => (writeString r s).2) rpc

/-- The handler `handleGetStreamFormats`. -/
def handleGetStreamFormats (D : Device) (conn : ConnectionInfo) (rpc : SoapyRPC)
    (calls : List DevCall) : Int × SoapyRPC × List DevCall :=
  let dir := readInteger rpc
  let chn := readInteger dir.2
  let w := writeEach chn.2 (D.getStreamFormats conn.dev dir.1 (sizeOfInt chn.1))
  (0, (writeString w []).2,
    calls ++ [DevCall.invoke DevMethod.getStreamFormats conn.dev
      [DevArg.int dir.1, DevArg.size (sizeOfInt chn.1)]])

/-- The handler `handleGetNativeStreamFormat`; the device answers with the
format and the full scale it stored. -/
def handleGetNativeStreamFormat (D : Device) (F : FloatConv) (conn : ConnectionInfo)
    (rpc : SoapyRPC) (calls : List DevCall) : Int × SoapyRPC × List DevCall :=
  let dir := readInteger rpc
  let chn := readInteger dir.2
  let a := D.getNativeStreamFormat conn.dev dir.1 (sizeOfInt chn.1)
  let w := writeString chn.2 a.1
  (0, (writeDouble F w.2 a.2).2,
    calls ++ [DevCall.invoke DevMethod.getNativeStreamFormat conn.dev
      [DevArg.int dir.1, DevArg.size (sizeOfInt chn.1)]])

/-- The handler `handleGetStreamArgsInfo` (a skeleton: no device call). -/
def handleGetStreamArgsInfo (rpc : SoapyRPC) (calls : List DevCall) :
    Int × SoapyRPC × List DevCall :=
  let dir := readInteger rpc
  let chn := readInteger dir.2
  (0, (writeString chn.2 []).2, calls)

/-- The handler `handleListAntennas`. -/
def handleListAntennas (D : Device) (conn : ConnectionInfo) (rpc : SoapyRPC)
    (calls : List DevCall) : Int × SoapyRPC × List DevCall :=
  let dir := readInteger rpc
  let chn := readInteger dir.2
  (0, (writeStrVector chn.2 (D.listAntennas conn.dev dir.1 (sizeOfInt chn.1))).2,
    calls ++ [DevCall.invoke DevMethod.listAntennas conn.dev
      [DevArg.int dir.1, DevArg.size (sizeOfInt chn.1)]])

/-- The handler `handleSetAntenna`. -/
def handleSetAntenna (conn : ConnectionInfo) (rpc : SoapyRPC) (calls : List DevCall) :
    Int × SoapyRPC × List DevCall :=
  let dir := readInteger rpc
  let chn := readInteger dir.2
  let nam := readString chn.2
  (0, (writeInteger nam.2 0).2,
    calls ++ [DevCall.invoke DevMethod.setAntenna conn.dev
      [DevArg.int dir.1, DevArg.size (sizeOfInt chn.1), DevArg.str nam.1]])

/-- The handler `handleGetAntenna`. -/
def handleGetAntenna (D : Device) (conn : ConnectionInfo) (rpc : SoapyRPC)
    (calls : List DevCall) : Int × SoapyRPC × List DevCall :=
  let dir := readInteger rpc
  let chn := readInteger dir.2
  (0, (writeString chn.2 (D.getAntenna conn.dev dir.1 (sizeOfInt chn.1))).2,
    calls ++ [DevCall.invoke DevMethod.getAntenna conn.dev
      [DevArg.int dir.1, DevArg.size (sizeOfInt chn.1)]])

/-- The handler `handleListGains`. -/
def handleListGains (D : Device) (conn : ConnectionInfo) (rpc : SoapyRPC)
    (calls : List DevCall) : Int × SoapyRPC × List DevCall :=
  let dir := readInteger rpc
  let chn := readInteger dir.2
  (0, (writeStrVector chn.2 (D.listGains conn.dev dir.1 (sizeOfInt chn.1))).2,
    calls ++ [DevCall.invoke DevMethod.listGains conn.dev
      [DevArg.int dir.1, DevArg.size (sizeOfInt chn.1)]])

/-- The handler `handleHasGainMode`. -/
def handleHasGainMode (D : Device) (conn : ConnectionInfo) (rpc : SoapyRPC)
    (calls : List DevCall) : Int × SoapyRPC × List DevCall :=
  let dir := readInteger rpc
  let chn := readInteger dir.2
  (0, (writeInteger chn.2 (intOfBool (D.hasGainMode conn.dev dir.1 (sizeOfInt chn.1)))).2,
    calls ++ [DevCall.invoke DevMethod.hasGainMode conn.dev
      [DevArg.int dir.1, DevArg.size (sizeOfInt chn.1)]])

/-- The handler `handleSetGainMode`. -/
def handleSetGainMode (conn : ConnectionInfo) (rpc : SoapyRPC) (calls : List DevCall) :
    Int × SoapyRPC × List DevCall :=
  let dir := readInteger rpc
  let chn := readInteger dir.2
  let set := readInteger chn.2
  (0, (writeInteger set.2 0).2,
    calls ++ [DevCall.invoke DevMethod.setGainMode conn.dev
      [DevArg.int dir.1, DevArg.size (sizeOfInt chn.1), DevArg.bool (decide (set.1 > 0))]])

/-- The handler `handleGetGainMode`. -/
def handleGetGainMode (D : Device) (conn : ConnectionInfo) (rpc : SoapyRPC)
    (calls : List DevCall) : Int × SoapyRPC × List DevCall :=
  let dir := readInteger rpc
  let chn := readInteger dir.2
  (0, (writeInteger chn.2 (intOfBool (D.getGainMode conn.dev dir.1 (sizeOfInt chn.1)))).2,
    calls ++ [DevCall.invoke DevMethod.getGainMode conn.dev
      [DevArg.int dir.1, DevArg.size (sizeOfInt chn.1)]])

/-- The handler `handleSetGain`. -/
def handleSetGain (F : FloatConv) (conn : ConnectionInfo) (rpc : SoapyRPC)
    (calls : List DevCall) : Int × SoapyRPC × List DevCall :=
  let dir := readInteger rpc
  let chn := readInteger dir.2
  let gain := readDouble F chn.2
  (0, (writeInteger gain.2 0).2,
    calls ++ [DevCall.invoke DevMethod.setGain conn.dev
      [DevArg.int dir.1, DevArg.size (sizeOfInt chn.1), DevArg.dbl gain.1]])

/-- The handler `handleSetGainNamed`. -/
def handleSetGainNamed (F : FloatConv) (conn : ConnectionInfo) (rpc : SoapyRPC)
    (calls : List DevCall) : Int × SoapyRPC × List DevCall :=
  let dir := readInteger rpc
  let chn := readInteger dir.2
  let nam := readString chn.2
  let gain := readDouble F nam.2
  (0, (writeInteger gain.2 0).2,
    calls ++ [DevCall.invoke DevMethod.setGainNamed conn.dev
      [DevArg.int dir.1, DevArg.size (sizeOfInt chn.1), DevArg.str nam.1, DevArg.dbl gain.1]])

/-- The handler `handleGetGain`. -/
def handleGetGain (D : Device) (F : FloatConv) (conn : ConnectionInfo) (rpc : SoapyRPC)
    (calls : List DevCall) : Int × SoapyRPC × List DevCall :=
  let dir := readInteger rpc
  let chn := readInteger dir.2
  (0, (writeDouble F chn.2 (D.getGain conn.dev dir.1 (sizeOfInt chn.1))).2,
    calls ++ [DevCall.invoke DevMethod.getGain conn.dev
      [DevArg.int dir.1, DevArg.size (sizeOfInt chn.1)]])

/-- The handler `handleGetGainNamed`. -/
def handleGetGainNamed (D : Device) (F : FloatConv) (conn : ConnectionInfo) (rpc : SoapyRPC)
    (calls : List DevCall) : Int × SoapyRPC × List DevCall :=
  let dir := readInteger rpc
  let chn := readInteger dir.2
  let nam := readString chn.2
  (0, (writeDouble F nam.2 (D.getGainNamed conn.dev dir.1 (sizeOfInt chn.1) nam.1)).2,
    calls ++ [DevCall.invoke DevMethod.getGainNamed conn.dev
      [DevArg.int dir.1, DevArg.size (sizeOfInt chn.1), DevArg.str nam.1]])

/-- The three writes `writeDouble(r.minimum()); writeDouble(r.maximum());
writeDouble(r.step());`. -/
def writeRange (F : FloatConv) (rpc : SoapyRPC) (r : Range) : SoapyRPC :=
  (writeDouble F (writeDouble F (writeDouble F rpc r.minimum).2 r.maximum).2 r.step).2

/-- The handler `handleGetGainRange` (SoapyTCPServer.cpp 509-519). -/
def handleGetGainRange (D : Device) (F : FloatConv) (conn : ConnectionInfo) (rpc : SoapyRPC)
    (calls : List DevCall) : Int × SoapyRPC × List DevCall :=
  let dir := readInteger rpc
  let chn := readInteger dir.2
  (0, writeRange F chn.2 (D.getGainRange conn.dev dir.1 (sizeOfInt chn.1)),
    calls ++ [DevCall.invoke DevMethod.getGainRange conn.dev
      [DevArg.int dir.1, DevArg.size (sizeOfInt chn.1)]])

/-- The handler `handleGetGainRangeNamed` (SoapyTCPServer.cpp 521-532). -/
def handleGetGainRangeNamed (D : Device) (F : FloatConv) (conn : ConnectionInfo)
    (rpc : SoapyRPC) (calls : List DevCall) : Int × SoapyRPC × List DevCall :=
  let dir := readInteger rpc
  let chn := readInteger dir.2
  let nam := readString chn.2
  (0, writeRange F nam.2 (D.getGainRangeNamed conn.dev dir.1 (sizeOfInt chn.1) nam.1),
    calls ++ [DevCall.invoke DevMethod.getGainRangeNamed conn.dev
      [DevArg.int dir.1, DevArg.size (sizeOfInt chn.1), DevArg.str nam.1]])

/-- The handler `handleSetFrequency`. -/
def handleSetFrequency (F : FloatConv) (conn : ConnectionInfo) (rpc : SoapyRPC)
    (calls : List DevCall) : Int × SoapyRPC × List DevCall :=
  let dir := readInteger rpc
  let chn := readInteger dir.2
  let frq := readDouble F chn.2
  let kwargs := readKwargs frq.2
  (0, (writeInteger kwargs.2 0).2,
    calls ++ [DevCall.invoke DevMethod.setFrequency conn.dev
      [DevArg.int dir.1, DevArg.size (sizeOfInt chn.1), DevArg.dbl frq.1,
        DevArg.kwargs kwargs.1]])

/-- The handler `handleSetFrequencyNamed`. -/
def handleSetFrequencyNamed (F : FloatConv) (conn : ConnectionInfo) (rpc : SoapyRPC)
    (calls : List DevCall) : Int × SoapyRPC × List DevCall :=
  let dir := readInteger rpc
  let chn := readInteger dir.2
  let nam := readString chn.2
  let frq := readDouble F nam.2
  let kwargs := readKwargs frq.2
  (0, (writeInteger kwargs.2 0).2,
    calls ++ [DevCall.invoke DevMethod.setFrequencyNamed conn.dev
      [DevArg.int dir.1, DevArg.size (sizeOfInt chn.1), DevArg.str nam.1, DevArg.dbl frq.1,
        DevArg.kwargs kwargs.1]])

/-- The handler `handleGetFrequency`. -/
def handleGetFrequency (D : Device) (F : FloatConv) (conn : ConnectionInfo) (rpc : SoapyRPC)
    (calls : List DevCall) : Int × SoapyRPC × List DevCall :=
  let dir := readInteger rpc
  let chn := readInteger dir.2
  (0, (writeDouble F chn.2 (D.getFrequency conn.dev dir.1 (sizeOfInt chn.1))).2,
    calls ++ [DevCall.invoke DevMethod.getFrequency conn.dev
      [DevArg.int dir.1, DevArg.size (sizeOfInt chn.1)]])

/-- The handler `handleGetFrequencyNamed`. -/
def handleGetFrequencyNamed (D : Device) (F : FloatConv) (conn : ConnectionInfo)
    (rpc : SoapyRPC) (calls : List DevCall) : Int × SoapyRPC × List DevCall :=
  let dir := readInteger rpc
  let chn := readInteger dir.2
  let nam := readString chn.2
  (0, (writeDouble F nam.2 (D.getFrequencyNamed conn.dev dir.1 (sizeOfInt chn.1) nam.1)).2,
    calls ++ [DevCall.invoke DevMethod.getFrequencyNamed conn.dev
      [DevArg.int dir.1, DevArg.size (sizeOfInt chn.1), DevArg.str nam.1]])

/-- The handler `handleListFrequencies`. -/
def handleListFrequencies (D : Device) (conn : ConnectionInfo) (rpc : SoapyRPC)
    (calls : List DevCall) : Int × SoapyRPC × List DevCall :=
  let dir := readInteger rpc
  let chn := readInteger dir.2
  (0, (writeStrVector chn.2 (D.listFrequencies conn.dev dir.1 (sizeOfInt chn.1))).2,
    calls ++ [DevCall.invoke DevMethod.listFrequencies conn.dev
      [DevArg.int dir.1, DevArg.size (sizeOfInt chn.1)]])

/-- The reply of the range-list handlers: the loop `for (auto r: list)` with
its three writes per range, then `writeDouble(0); writeDouble(0);
writeDouble(-1.0);`. -/
def writeRangeList (F : FloatConv) (rpc : SoapyRPC) (list : List Range) : SoapyRPC :=
  writeRange F (list.foldl (writeRange F) rpc)
    { minimum := CDouble.fin 0, maximum := CDouble.fin 0, step := CDouble.fin (-1) }

/-- The handler `handleGetFrequencyRange` (SoapyTCPServer.cpp 587-602). -/
def handleGetFrequencyRange (D : Device) (F : FloatConv) (conn : ConnectionInfo)
    (rpc : SoapyRPC) (calls : List DevCall) : Int × SoapyRPC × List DevCall :=
  let dir := readInteger rpc
  let chn := readInteger dir.2
  (0, writeRangeList F chn.2 (D.getFrequencyRange conn.dev dir.1 (sizeOfInt chn.1)),
    calls ++ [DevCall.invoke DevMethod.getFrequencyRange conn.dev
      [DevArg.int dir.1, DevArg.size (sizeOfInt chn.1)]])

/-- The handler `handleGetFrequencyRangeNamed` (SoapyTCPServer.cpp 603-619). -/
def handleGetFrequencyRangeNamed (D : Device) (F : FloatConv) (conn : ConnectionInfo)
    (rpc : SoapyRPC) (calls : List DevCall) : Int × SoapyRPC × List DevCall :=
  let dir := readInteger rpc
  let chn := readInteger dir.2
  let nam := readString chn.2
  (0, writeRangeList F nam.2
      (D.getFrequencyRangeNamed conn.dev dir.1 (sizeOfInt chn.1) nam.1),
    calls ++ [DevCall.invoke DevMethod.getFrequencyRangeNamed conn.dev
      [DevArg.int dir.1, DevArg.size (sizeOfInt chn.1), DevArg.str nam.1]])

/-- The handler `handleGetFrequencyArgsInfo` (a skeleton: no device call). -/
def handleGetFrequencyArgsInfo (rpc : SoapyRPC) (calls : List DevCall) :
    Int × SoapyRPC × List DevCall :=
  let dir := readInteger rpc
  let chn := readInteger dir.2
  (0, (writeString chn.2 []).2, calls)

/-- The handler `handleGetSampleRate`: the rate the device reports is
remembered in the caller's record, which is returned as second component. -/
def handleGetSampleRate (D : Device) (F : FloatConv) (conn : ConnectionInfo) (rpc : SoapyRPC)
    (calls : List DevCall) : Int × ConnectionInfo × SoapyRPC × List DevCall :=
  let dir := readInteger rpc
  let chn := readInteger dir.2
  let rate := D.getSampleRate conn.dev dir.1 (sizeOfInt chn.1)
  (0, { conn with rate := rate }, (writeDouble F chn.2 rate).2,
    calls ++ [DevCall.invoke DevMethod.getSampleRate conn.dev
      [DevArg.int dir.1, DevArg.size (sizeOfInt chn.1)]])

/-- The handler `handleGetSampleRateRange` (SoapyTCPServer.cpp 649-664). -/
def handleGetSampleRateRange (D : Device) (F : FloatConv) (conn : ConnectionInfo)
    (rpc : SoapyRPC) (calls : List DevCall) : Int × SoapyRPC × List DevCall :=
  let dir := readInteger rpc
  let chn := readInteger dir.2
  (0, writeRangeList F chn.2 (D.getSampleRateRange conn.dev dir.1 (sizeOfInt chn.1)),
    calls ++ [DevCall.invoke DevMethod.getSampleRateRange conn.dev
      [DevArg.int dir.1, DevArg.size (sizeOfInt chn.1)]])

/-! ## Handlers that look at the connection table (SoapyTCPServer.cpp 331-398) -/

/-- The handler `handleCloseStream`: the device of the data record closes the
stream of the data record; nothing is written, the table is left as it is. -/
def handleCloseStream (rpc : SoapyRPC) (sv : Server) : Int × SoapyRPC × Server :=
  let dataId := readInteger rpc
  match sv.s_connections.find dataId.1 with
  | none => (0, dataId.2, sv)
  | some data =>
    (0, dataId.2,
      { sv with calls := sv.calls ++
          [DevCall.invoke DevMethod.closeStream data.dev [DevArg.ptr data.stream]] })

/-- The handler `handleGetStreamMTU`; on a known id its result is the return
value of `writeInteger`. -/
def handleGetStreamMTU (D : Device) (conn : ConnectionInfo) (rpc : SoapyRPC) (sv : Server) :
    Int × SoapyRPC × Server :=
  let dataId := readInteger rpc
  match sv.s_connections.find dataId.1 with
  | none => (0, (writeInteger dataId.2 (-1)).2, sv)
  | some data =>
    let w := writeInteger dataId.2 (intOfSize (D.getStreamMTU conn.dev data.stream))
    (w.1, w.2,
      { sv with calls := sv.calls ++
          [DevCall.invoke DevMethod.getStreamMTU conn.dev [DevArg.ptr data.stream]] })

/-- The handler `handleActivateStream`: `data.pid = -1` (as `pthread_t`, that
is `2^64 - 1`), then `pthread_create`; on success the thread id is stored. The
pump thread itself is not part of this state. -/
def handleActivateStream (T : ThreadLayer) (rpc : SoapyRPC) (sv : Server) :
    Int × SoapyRPC × Server :=
  let dataId := readInteger rpc
  match sv.s_connections.find dataId.1 with
  | none => (0, (writeInteger dataId.2 (-1)).2, sv)
  | some data =>
    match T.create with
    | none =>
      (0, (writeInteger dataId.2 (-2)).2,
        { sv with s_connections := sv.s_connections.store dataId.1 { data with pid := npos } })
    | some pid =>
      (0, (writeInteger dataId.2 0).2,
        { sv with s_connections := sv.s_connections.store dataId.1 { data with pid := pid } })

/-- The handler `handleDeactivateStream`: the stored thread id is replaced by
0 and the thread joined. -/
def handleDeactivateStream (T : ThreadLayer) (rpc : SoapyRPC) (sv : Server) :
    Int × SoapyRPC × Server :=
  let dataId := readInteger rpc
  match sv.s_connections.find dataId.1 with
  | none => (0, (writeInteger dataId.2 (-1)).2, sv)
  | some data =>
    let sv1 : Server :=
      { sv with s_connections := sv.s_connections.store dataId.1 { data with pid := 0 } }
    if T.join data.pid then (0, (writeInteger dataId.2 0).2, sv1)
    else (0, (writeInteger dataId.2 (-2)).2, sv1)

/-! ## The dispatcher (`handleRPC`, SoapyTCPServer.cpp 666-853) -/

/-- The `case` labels of the `switch (call)` in `handleRPC`. -/
inductive RpcOp where
  | drop
  | getHardwareKey | getHardwareInfo
  | setFrontendMapping | getFrontendMapping | getNumChannels | getChannelInfo | getFullDuplex
  | getStreamFormats | getNativeStreamFormat | getStreamArgsInfo
  | setupStream | closeStream | getStreamMTU | activateStream | deactivateStream
  | listAntennas | setAntenna | getAntenna
  | listGains | hasGainMode | setGainMode | getGainMode
  | setGain | setGainNamed | getGain | getGainNamed | getGainRange | getGainRangeNamed
  | setFrequency | setFrequencyNamed | getFrequency | getFrequencyNamed | listFrequencies
  | getFrequencyRange | getFrequencyRangeNamed | getFrequencyArgsInfo
  | setSampleRate | getSampleRate | getSampleRateRange
  deriving DecidableEq, Repr

/-- The label the `switch` selects for a call code; `none` is `default:`. -/
def opOfCode (call : Int) : Option RpcOp :=
  if call = TCPREMOTE_DROP_RPC then some RpcOp.drop
  else if call = TCPREMOTE_GET_HARDWARE_KEY then some RpcOp.getHardwareKey
  else if call = TCPREMOTE_GET_HARDWARE_INFO then some RpcOp.getHardwareInfo
  else if call = TCPREMOTE_SET_FRONTEND_MAPPING then some RpcOp.setFrontendMapping
  else if call = TCPREMOTE_GET_FRONTEND_MAPPING then some RpcOp.getFrontendMapping
  else if call = TCPREMOTE_GET_NUM_CHANNELS then some RpcOp.getNumChannels
  else if call = TCPREMOTE_GET_CHANNEL_INFO then some RpcOp.getChannelInfo
  else if call = TCPREMOTE_GET_FULL_DUPLEX then some RpcOp.getFullDuplex
  else if call = TCPREMOTE_GET_STREAM_FORMATS then some RpcOp.getStreamFormats
  else if call = TCPREMOTE_GET_STREAM_NATIVE_FORMAT then some RpcOp.getNativeStreamFormat
  else if call = TCPREMOTE_GET_STREAM_ARGS_INFO then some RpcOp.getStreamArgsInfo
  else if call = TCPREMOTE_SETUP_STREAM then some RpcOp.setupStream
  else if call = TCPREMOTE_CLOSE_STREAM then some RpcOp.closeStream
  else if call = TCPREMOTE_GET_STREAM_MTU then some RpcOp.getStreamMTU
  else if call = TCPREMOTE_ACTIVATE_STREAM then some RpcOp.activateStream
  else if call = TCPREMOTE_DEACTIVATE_STREAM then some RpcOp.deactivateStream
  else if call = TCPREMOTE_LIST_ANTENNAS then some RpcOp.listAntennas
  else if call = TCPREMOTE_SET_ANTENNA then some RpcOp.setAntenna
  else if call = TCPREMOTE_GET_ANTENNA then some RpcOp.getAntenna
  else if call = TCPREMOTE_LIST_GAINS then some RpcOp.listGains
  else if call = TCPREMOTE_HAS_GAIN_MODE then some RpcOp.hasGainMode
  else if call = TCPREMOTE_SET_GAIN_MODE then some RpcOp.setGainMode
  else if call = TCPREMOTE_GET_GAIN_MODE then some RpcOp.getGainMode
  else if call = TCPREMOTE_SET_GAIN then some RpcOp.setGain
  else if call = TCPREMOTE_SET_GAIN_NAMED then some RpcOp.setGainNamed
  else if call = TCPREMOTE_GET_GAIN then some RpcOp.getGain
  else if call = TCPREMOTE_GET_GAIN_NAMED then some RpcOp.getGainNamed
  else if call = TCPREMOTE_GET_GAIN_RANGE then some RpcOp.getGainRange
  else if call = TCPREMOTE_GET_GAIN_RANGE_NAMED then some RpcOp.getGainRangeNamed
  else if call = TCPREMOTE_SET_FREQUENCY then some RpcOp.setFrequency
  else if call = TCPREMOTE_SET_FREQUENCY_NAMED then some RpcOp.setFrequencyNamed
  else if call = TCPREMOTE_GET_FREQUENCY then some RpcOp.getFrequency
  else if call = TCPREMOTE_GET_FREQUENCY_NAMED then some RpcOp.getFrequencyNamed
  else if call = TCPREMOTE_LIST_FREQUENCIES then some RpcOp.listFrequencies
  else if call = TCPREMOTE_GET_FREQUENCY_RANGE then some RpcOp.getFrequencyRange
  else if call = TCPREMOTE_GET_FREQUENCY_RANGE_NAMED then some RpcOp.getFrequencyRangeNamed
  else if call = TCPREMOTE_GET_FREQUENCY_ARGS_INFO then some RpcOp.getFrequencyArgsInfo
  else if call = TCPREMOTE_SET_SAMPLE_RATE then some RpcOp.setSampleRate
  else if call = TCPREMOTE_GET_SAMPLE_RATE then some RpcOp.getSampleRate
  else if call = TCPREMOTE_GET_SAMPLE_RATE_RANGE then some RpcOp.getSampleRateRange
  else none

/-- What a call of `handleRPC` leaves behind: its result, the caller's codec,
whether that codec object was deleted, and the server state. -/
structure RpcOutcome where
  ret : Int
  rpc : SoapyRPC
  rpcDeleted : Bool
  server : Server
  deriving DecidableEq, Repr

/-- Outcome of a handler that leaves the table alone. -/
def passThrough (sv : Server) (r : Int × SoapyRPC × List DevCall) : RpcOutcome :=
  { ret := r.1, rpc := r.2.1, rpcDeleted := false, server := { sv with calls := r.2.2 } }

/-- Outcome of a handler that acts on the server state. -/
def onServer (r : Int × SoapyRPC × Server) : RpcOutcome :=
  { ret := r.1, rpc := r.2.1, rpcDeleted := false, server := r.2.2 }

/-- Outcome of a handler that writes to the caller's record `conn`, which is
the record stored under `fd`. -/
def onCaller (sv : Server) (fd : Int) (r : Int × ConnectionInfo × SoapyRPC × List DevCall) :
    RpcOutcome :=
  { ret := r.1, rpc := r.2.2.1, rpcDeleted := false,
    server := { s_connections := sv.s_connections.store fd r.2.1, calls := r.2.2.2 } }

/-- The `switch (call)` of `handleRPC` for the caller's record `conn` stored
under `fd`; `rpc` is the codec after the call code has been read. -/
def dispatch (D : Device) (F : FloatConv) (T : ThreadLayer) (fd : Int) (conn : ConnectionInfo)
    (call : Int) (rpc : SoapyRPC) (sv : Server) : RpcOutcome :=
  match opOfCode call with
  | none =>
    { ret := -1, rpc := (writeInteger rpc (-1000)).2, rpcDeleted := false, server := sv }
  | some RpcOp.drop =>
    { ret := 0, rpc := rpc, rpcDeleted := true,
      server :=
        { s_connections := sv.s_connections.erase fd,
          calls := sv.calls ++ [DevCall.invoke DevMethod.unmake none [DevArg.ptr conn.dev]] } }
  | some RpcOp.getHardwareKey => passThrough sv (handleGetHardwareKey D conn rpc sv.calls)
  | some RpcOp.getHardwareInfo => passThrough sv (handleGetHardwareInfo D conn rpc sv.calls)
  | some RpcOp.setFrontendMapping => passThrough sv (handleSetFrontendMapping conn rpc sv.calls)
  | some RpcOp.getFrontendMapping =>
    passThrough sv (handleGetFrontendMapping D conn rpc sv.calls)
  | some RpcOp.getNumChannels => passThrough sv (handleGetNumChannels D conn rpc sv.calls)
  | some RpcOp.getChannelInfo => passThrough sv (handleGetChannelInfo D conn rpc sv.calls)
  | some RpcOp.getFullDuplex => passThrough sv (handleGetFullDuplex D conn rpc sv.calls)
  | some RpcOp.getStreamFormats => passThrough sv (handleGetStreamFormats D conn rpc sv.calls)
  | some RpcOp.getNativeStreamFormat =>
    passThrough sv (handleGetNativeStreamFormat D F conn rpc sv.calls)
  | some RpcOp.getStreamArgsInfo => passThrough sv (handleGetStreamArgsInfo rpc sv.calls)
  | some RpcOp.setupStream => onServer (handleSetupStream D.toDeviceLayer conn rpc sv)
  | some RpcOp.closeStream => onServer (handleCloseStream rpc sv)
  | some RpcOp.getStreamMTU => onServer (handleGetStreamMTU D conn rpc sv)
  | some RpcOp.activateStream => onServer (handleActivateStream T rpc sv)
  | some RpcOp.deactivateStream => onServer (handleDeactivateStream T rpc sv)
  | some RpcOp.listAntennas => passThrough sv (handleListAntennas D conn rpc sv.calls)
  | some RpcOp.setAntenna => passThrough sv (handleSetAntenna conn rpc sv.calls)
  | some RpcOp.getAntenna => passThrough sv (handleGetAntenna D conn rpc sv.calls)
  | some RpcOp.listGains => passThrough sv (handleListGains D conn rpc sv.calls)
  | some RpcOp.hasGainMode => passThrough sv (handleHasGainMode D conn rpc sv.calls)
  | some RpcOp.setGainMode => passThrough sv (handleSetGainMode conn rpc sv.calls)
  | some RpcOp.getGainMode => passThrough sv (handleGetGainMode D conn rpc sv.calls)
  | some RpcOp.setGain => passThrough sv (handleSetGain F conn rpc sv.calls)
  | some RpcOp.setGainNamed => passThrough sv (handleSetGainNamed F conn rpc sv.calls)
  | some RpcOp.getGain => passThrough sv (handleGetGain D F conn rpc sv.calls)
  | some RpcOp.getGainNamed => passThrough sv (handleGetGainNamed D F conn rpc sv.calls)
  | some RpcOp.getGainRange => passThrough sv (handleGetGainRange D F conn rpc sv.calls)
  | some RpcOp.getGainRangeNamed =>
    passThrough sv (handleGetGainRangeNamed D F conn rpc sv.calls)
  | some RpcOp.setFrequency => passThrough sv (handleSetFrequency F conn rpc sv.calls)
  | some RpcOp.setFrequencyNamed => passThrough sv (handleSetFrequencyNamed F conn rpc sv.calls)
  | some RpcOp.getFrequency => passThrough sv (handleGetFrequency D F conn rpc sv.calls)
  | some RpcOp.getFrequencyNamed =>
    passThrough sv (handleGetFrequencyNamed D F conn rpc sv.calls)
  | some RpcOp.listFrequencies => passThrough sv (handleListFrequencies D conn rpc sv.calls)
  | some RpcOp.getFrequencyRange =>
    passThrough sv (handleGetFrequencyRange D F conn rpc sv.calls)
  | some RpcOp.getFrequencyRangeNamed =>
    passThrough sv (handleGetFrequencyRangeNamed D F conn rpc sv.calls)
  | some RpcOp.getFrequencyArgsInfo => passThrough sv (handleGetFrequencyArgsInfo rpc sv.calls)
  | some RpcOp.setSampleRate => onCaller sv fd (handleSetSampleRate F conn rpc sv.calls)
  | some RpcOp.getSampleRate => onCaller sv fd (handleGetSampleRate D F conn rpc sv.calls)
  | some RpcOp.getSampleRateRange =>
    passThrough sv (handleGetSampleRateRange D F conn rpc sv.calls)

/-- The function `handleRPC(pfd)` for the control socket `fd` with codec `rpc`
(the object behind `conn.rpc`, not null for the sockets `main` polls). The
result is `none` when `s_connections.at(fd)` throws. -/
def handleRPC (D : Device) (F : FloatConv) (T : ThreadLayer) (revents : Revents) (fd : Int)
    (rpc : SoapyRPC) (sv : Server) : Option RpcOutcome :=
  if revents.errOrHup then some { ret := -1, rpc := rpc, rpcDeleted := false, server := sv }
  else
    match sv.s_connections.find fd with
    | none => none
    | some conn =>
      let call := readInteger rpc
      if call.1 < 0 then some { ret := -1, rpc := call.2, rpcDeleted := false, server := sv }
      else some (dispatch D F T fd conn call.1 call.2 sv)

/-! ## Accepting connections (SoapyTCPServer.cpp 34-91, 147-180) -/

/-- What the operating system and the driver layer answer during one call of
`handleListen`: the result of `accept`, the bytes `read(sock, buf, 2)` returns
(none when its result is `≤ 0`), the bytes the peer sends after them and the
writes it accepts, whether `fdopen` succeeds for a codec, the `FILE *` that
`fdopen(sock, mode)` yields for a data socket, the answer of
`SoapySDR::Device::make`, and the indeterminate contents of the local
`ConnectionInfo conn`. -/
structure AcceptEnv where
  sock : Int
  firstRead : Str
  pending : Str
  credit : Option Nat
  fdopenRpc : Bool
  fdopenData : Str → Option Nat
  make : Kwargs → Option Nat
  junk : ConnectionInfo

/-- What a call of `handleListen` leaves behind: its result, the server state,
the codec it created (with its final state) and whether it deleted it again,
the bytes written with `write` to the raw socket, and whether it closed the
socket. -/
structure ListenOutcome where
  ret : Int
  server : Server
  codec : Option SoapyRPC
  codecDeleted : Bool
  rawOut : Str
  sockClosed : Bool
  deriving DecidableEq, Repr

/-- The key `"driver"`. -/
def driverKey : Str := ['d', 'r', 'i', 'v', 'e', 'r']

/-- The body of the argument loop after `arg` has been cut out: `arg` is
split at its first `=` and assigned, or left out when it has none. -/
def assignArg (kwargs : Kwargs) (arg : Str) : Kwargs :=
  let off := find arg '=' 0
  if off != npos then kwargs.assign (substr arg 0 off) (substr arg (sizeAdd off 1) npos)
  else kwargs

/-- The `do ... while (nxt != npos)` loop of `createRpc` over the argument
string; each pass moves `nxt` forward, so `fuel` larger than the string is
never used up. -/
def driverArgsLoop (args : Str) : Nat → Nat → Kwargs → Kwargs
  | 0, _, kwargs => kwargs
  | fuel + 1, nxt, kwargs =>
    let cur := sizeAdd nxt 1
    let nxt1 := find args '/' cur
    let kwargs1 := assignArg kwargs (substr args cur (sizeSub nxt1 cur))
    if nxt1 != npos then driverArgsLoop args fuel nxt1 kwargs1 else kwargs1

/-- The mapping `createRpc` builds from the driver name and the argument
string and passes to `SoapySDR::Device::make`. -/
def driverKwargs (driver args : Str) : Kwargs :=
  driverArgsLoop args (args.length + 1) npos (Kwargs.assign [] driverKey driver)

/-- The constructor `SoapyRPC(int socket)`: when `fdopen` fails the codec
starts with the error flag raised. -/
def newCodec (env : AcceptEnv) : SoapyRPC :=
  { handle := { input := env.pending, output := [], credit := env.credit },
    hasError := !env.fdopenRpc }

/-- The function `createRpc(sock)`. The codec pointer stored in the record is
the socket number. -/
def createRpc (env : AcceptEnv) (sv : Server) : ListenOutcome :=
  let rpc := newCodec env
  let driver := readString rpc
  let args := readString driver.2
  let kwargs := driverKwargs driver.1 args.1
  let calls := sv.calls ++ [DevCall.invoke DevMethod.make none [DevArg.kwargs kwargs]]
  match env.make kwargs with
  | none =>
    { ret := 0, server := { sv with calls := calls },
      codec := some (writeInteger args.2 (-1)).2, codecDeleted := true, rawOut := [],
      sockClosed := env.fdopenRpc }
  | some dev =>
    let conn : ConnectionInfo :=
      { env.junk with rpc := some env.sock.toNat, rate := CDouble.fin 0, dev := some dev }
    { ret := 0,
      server := { s_connections := sv.s_connections.assign env.sock conn, calls := calls },
      codec := some (writeInteger args.2 env.sock).2, codecDeleted := false, rawOut := [],
      sockClosed := false }

/-- The function `createData(sock, type)`; the stream is opened for writing
when `type` is `TCPREMOTE_DATA_SEND` and for reading otherwise. -/
def createData (env : AcceptEnv) (type : Int) (sv : Server) : ListenOutcome :=
  match env.fdopenData (if TCPREMOTE_DATA_SEND = type then ['w'] else ['r']) with
  | none =>
    { ret := -1, server := sv, codec := none, codecDeleted := false, rawOut := [],
      sockClosed := true }
  | some fp =>
    let conn : ConnectionInfo := { env.junk with rpc := none, netFp := some fp }
    { ret := 0, server := { sv with s_connections := sv.s_connections.assign env.sock conn },
      codec := none, codecDeleted := false, rawOut := fmtInt env.sock ++ [NL],
      sockClosed := false }

/-- The value of a `char` as `int` (a signed byte). -/
def intOfChar (c : Char) : Int := if c.toNat < 128 then (c.toNat : Int) else (c.toNat : Int) - 256

/-- The function `handleListen(pfd)` for the listening socket. -/
def handleListen (revents : Revents) (env : AcceptEnv) (sv : Server) : ListenOutcome :=
  if revents.errOrHup then
    { ret := -1, server := sv, codec := none, codecDeleted := false, rawOut := [],
      sockClosed := false }
  else if revents.pollin then
    if env.sock < 0 then
      { ret := -1, server := sv, codec := none, codecDeleted := false, rawOut := [],
        sockClosed := false }
    else
      match env.firstRead with
      | [] =>
        { ret := -1, server := sv, codec := none, codecDeleted := false, rawOut := [],
          sockClosed := true }
      | b :: _ =>
        let type := intOfChar b - intOfChar '0'
        if TCPREMOTE_RPC_LOAD = type then createRpc env sv
        else if TCPREMOTE_DATA_SEND = type ∨ TCPREMOTE_DATA_RECV = type then
          createData env type sv
        else
          { ret := 0, server := sv, codec := none, codecDeleted := false, rawOut := [],
            sockClosed := true }
  else
    { ret := 0, server := sv, codec := none, codecDeleted := false, rawOut := [],
      sockClosed := false }

/-! ## The accept loop (`main`, SoapyTCPServer.cpp 860-919) -/

/-- The server state together with the codec objects of the control
connections, by socket. -/
structure System where
  server : Server
  codecs : List (Int × SoapyRPC)
  deriving DecidableEq, Repr

/-- What the environment answers during one pass of the loop in `main`: the
result of `poll`, the `revents` of the listening socket and of the control
sockets, the answers to `handleListen`, the bytes that arrived on each control
socket, and the answers of device, C library and thread library. -/
structure PassEnv where
  pollRet : Int
  listenRevents : Revents
  accept : AcceptEnv
  revents : Int → Revents
  arrived : Int → Str
  device : Device
  conv : FloatConv
  threads : ThreadLayer

/-- How one pass of the loop ends: the process returns from `main` with a
status, the loop goes on, or an exception ends the process. -/
inductive PassResult where
  | exit (status : Int)
  | next (sys : System)
  | abort
  deriving DecidableEq, Repr

/-- The sockets put into `pfds` after the listening socket: the keys of the
records that have a codec, in key order. -/
def rpcSockets (t : Table) : List Int :=
  (t.filter (fun e => e.2.rpc.isSome)).map (fun e => e.1)

/-- The codec of `fd` after the bytes `more` have arrived on its socket. -/
def receive (rpc : SoapyRPC) (more : Str) : SoapyRPC :=
  { rpc with handle := { rpc.handle with input := rpc.handle.input ++ more } }

/-- The heap of codecs after `handleRPC` on `fd`. -/
def putCodec (codecs : List (Int × SoapyRPC)) (fd : Int) (out : RpcOutcome) :
    List (Int × SoapyRPC) :=
  if out.rpcDeleted then codecs.filter (fun e => e.1 != fd)
  else (fd, out.rpc) :: codecs.filter (fun e => e.1 != fd)

/-- The loop `for (idx = 1; idx < nfds; ++idx) if (pfds[idx].revents &&
handleRPC(pfds+idx) < 0) return 4;` over the sockets `fds`. -/
def rpcPass (env : PassEnv) : List Int → System → PassResult
  | [], sys => PassResult.next sys
  | fd :: fds, sys =>
    if (env.revents fd).nonzero then
      match sys.codecs.lookup fd with
      | none => PassResult.abort
      | some rpc =>
        match handleRPC env.device env.conv env.threads (env.revents fd) fd
            (receive rpc (env.arrived fd)) sys.server with
        | none => PassResult.abort
        | some out =>
          if out.ret < 0 then PassResult.exit 4
          else rpcPass env fds { server := out.server, codecs := putCodec sys.codecs fd out }
    else rpcPass env fds sys

/-- The heap of codecs after `handleListen`. -/
def addCodec (codecs : List (Int × SoapyRPC)) (sock : Int) (l : ListenOutcome) :
    List (Int × SoapyRPC) :=
  match l.codec with
  | some rpc =>
    if l.codecDeleted then codecs else (sock, rpc) :: codecs.filter (fun e => e.1 != sock)
  | none => codecs

/-- One pass of the `while (true)` loop of `main`. Leaving the loop with
`break` runs `s_connections.clear(); close(lsock); return 0;`. -/
def mainPass (env : PassEnv) (sys : System) : PassResult :=
  if env.pollRet ≤ 0 then PassResult.exit 3
  else
    let fds := rpcSockets sys.server.s_connections
    if env.listenRevents.nonzero then
      let l := handleListen env.listenRevents env.accept sys.server
      if l.ret < 0 then PassResult.exit 0
      else rpcPass env fds { server := l.server, codecs := addCodec sys.codecs env.accept.sock l }
    else rpcPass env fds sys

/-- The argument loop of `main`: whether `usage()` is reached. After `-h` or
`-p` the next argument is taken as the value (`skip`) and not looked at. -/
def usageRequested : Bool → List Str → Bool
  | _, [] => false
  | true, _ :: rest => usageRequested false rest
  | false, a :: rest =>
    if (c_str a).take 2 = ['-', '?'] ∨ (c_str a).take 3 = ['-', '-', 'h'] then true
    else if (c_str a).take 2 = ['-', 'h'] ∨ (c_str a).take 2 = ['-', 'p'] then
      usageRequested true rest
    else usageRequested false rest

/-- The answers to the calls that set up the listening socket: the results of
`getaddrinfo`, `socket` and `bind`. -/
structure BootEnv where
  getaddrinfoRet : Int
  lsock : Int
  bindRet : Int
  deriving DecidableEq, Repr

/-- How a run of `main` stands after the passes given: still in the loop,
returned with a status, or ended by an exception. -/
inductive Ending where
  | running (sys : System)
  | exited (status : Int)
  | aborted
  deriving DecidableEq, Repr

/-- The server state of a run that is still in the loop. -/
def Ending.server : Ending → Option Server
  | Ending.running sys => some sys.server
  | _ => none

/-- The loop of `main` over the given passes. -/
def mainLoop : List PassEnv → System → Ending
  | [], sys => Ending.running sys
  | env :: envs, sys =>
    match mainPass env sys with
    | PassResult.exit status => Ending.exited status
    | PassResult.next sys1 => mainLoop envs sys1
    | PassResult.abort => Ending.aborted

/-- The function `main` with arguments `argv[1..]`. -/
def main (argv : List Str) (boot : BootEnv) (passes : List PassEnv) : Ending :=
  if usageRequested false argv then Ending.exited 0
  else if boot.getaddrinfoRet ≠ 0 then Ending.exited 1
  else if boot.lsock < 0 ∨ boot.bindRet ≠ 0 then Ending.exited 2
  else mainLoop passes { server := { s_connections := [], calls := [] }, codecs := [] }

/-! ## The read loops with their line reads counted -/

/-- The `while (true)` loop of `readKwargs` together with the number of
`readString` calls it makes; `none` when `fuel` passes do not reach the
`break`. -/
def readKwargsCount : Nat → SoapyRPC → Kwargs → Option (Kwargs × SoapyRPC × Nat)
  | 0, _, _ => none
  | fuel + 1, rpc, args =>
    let r := readString rpc
    if r.1.length < 2 then some (args, r.2, 1)
    else
      let p := find r.1 '=' 0
      if p > 0 then
        (readKwargsCount fuel r.2
          (args.assign (substr r.1 0 p) (substr r.1 (sizeAdd p 1) npos))).map
          (fun t => (t.1, t.2.1, t.2.2 + 1))
      else (readKwargsCount fuel r.2 args).map (fun t => (t.1, t.2.1, t.2.2 + 1))

/-- The `while (true)` loop of `readStrVector` together with the number of
`readString` calls it makes; `none` when `fuel` passes do not reach the
`break`. -/
def readStrVectorCount : Nat → SoapyRPC → List Str → Option (List Str × SoapyRPC × Nat)
  | 0, _, _ => none
  | fuel + 1, rpc, list =>
    let r := readString rpc
    if r.1.length = 0 then some (list, r.2, 1)
    else (readStrVectorCount fuel r.2 (list ++ [r.1])).map (fun t => (t.1, t.2.1, t.2.2 + 1))

/-! ## Wire text of a sequence of lines -/

/-- The bytes a write call added to the stream: the output of `after` beyond
that of `before`. -/
def emitted (before after : SoapyRPC) : Str :=
  after.handle.output.drop before.handle.output.length

/-- The lines `ls`, each followed by a newline. -/
def wireLines : List Str → Str
  | [] => []
  | l :: ls => l ++ NL :: wireLines ls

/-- The line `key=value` that `writeKwargs` builds for an entry. -/
def kwLine (e : Str × Str) : Str := e.1 ++ '=' :: e.2

/-- A string that survives one line of the wire: it holds no newline and no
NUL, and with its newline it fits the 256 byte read buffer. -/
def fitsLine (s : Str) : Prop := NL ∉ s ∧ NUL ∉ s ∧ s.length ≤ 254

instance (s : Str) : Decidable (fitsLine s) := by
  unfold fitsLine; infer_instance

/-- The codec is free of error and its stream accepts `n` more writes. -/
def creditFor (n : Nat) (rpc : SoapyRPC) : Prop :=
  rpc.hasError = false ∧
    match rpc.handle.credit with
    | none => True
    | some c => n ≤ c

instance (n : Nat) (rpc : SoapyRPC) : Decidable (creditFor n rpc) := by
  unfold creditFor
  cases rpc.handle.credit <;> infer_instance

/-- The three lines of a range: minimum, maximum and step as `%f` prints them. -/
def rangeLines (F : FloatConv) (r : Range) : List Str :=
  [F.fmt r.minimum, F.fmt r.maximum, F.fmt r.step]

/-- The lines of a list of ranges, three per range, in list order. -/
def allRangeLines (F : FloatConv) : List Range → List Str
  | [] => []
  | r :: rs => rangeLines F r ++ allRangeLines F rs

/-- The terminator triple `0, 0, -1` of a range list. -/
def sentinelRange : Range :=
  { minimum := CDouble.fin 0, maximum := CDouble.fin 0, step := CDouble.fin (-1) }

/-! ## The argument merge in the words of the specification -/

/-- First piece and further pieces of `s` cut at every `sep`. -/
def splitPair (sep : Char) : Str → Str × List Str
  | [] => ([], [])
  | c :: cs =>
    if c = sep then ([], (splitPair sep cs).1 :: (splitPair sep cs).2)
    else (c :: (splitPair sep cs).1, (splitPair sep cs).2)

/-- The `sep`-separated segments of `s`, in order; there is always one. -/
def splitOn (sep : Char) (s : Str) : List Str := (splitPair sep s).1 :: (splitPair sep s).2

/-- The entry of a segment that contains `=`: the text before the first `=`
and the text after it. -/
def segmentEntry (seg : Str) : Option (Str × Str) :=
  (indexOf '=' seg).map (fun i => (seg.take i, seg.drop (i + 1)))

/-- The entries of the `/`-separated segments of `a` that contain `=`. -/
def segmentEntries (a : Str) : List (Str × Str) := (splitOn '/' a).filterMap segmentEntry

/-- The merge as the specification words it: `driver = d`, then the entries
of the segments assigned in order. -/
def mergedKwargs (d a : Str) : Kwargs :=
  (segmentEntries a).foldl (fun m e => m.assign e.1 e.2) [(driverKey, d)]

/-! ## The channel list in the words of the specification -/

/-- The element a token contributes: its `atoi` value stored in a `size_t`. -/
def channelOfToken (t : Str) : Nat := sizeOfInt (atoi t)

/-- The channel list as the specification words it: one element for each
space-delimited token of `s`, in order. -/
def channelsOfTokens (s : Str) : List Nat := (splitOn ' ' s).map channelOfToken

/-- The tokens `ts` written with single spaces between them. -/
def joinSpaces : List Str → Str
  | [] => []
  | [t] => t
  | t :: u :: ts => t ++ ' ' :: joinSpaces (u :: ts)

/-! ## Invariants of the connection table -/

/-- The worker-state invariant: every record whose `pid` is not 0 has a
stream handle and a device. -/
def workerInvariant (t : Table) : Prop :=
  ∀ e ∈ t, e.2.pid ≠ 0 → e.2.stream ≠ none ∧ e.2.dev ≠ none

instance (t : Table) : Decidable (workerInvariant t) := by
  unfold workerInvariant; infer_instance

/-- The binding of a record: its device, direction and stream handle. -/
def bindingOf (r : ConnectionInfo) : Option Nat × Int × Option Nat :=
  (r.dev, r.direction, r.stream)

/-- The tables `t0` and `t1` have the same keys, and under every key the two
records have the same device, direction and stream handle. -/
def sameBinding (t0 t1 : Table) : Prop :=
  ∀ k, (t1.find k).map bindingOf = (t0.find k).map bindingOf

/-! ## Sample states used to evaluate the handlers -/

/-- A codec on a fresh stream holding the request text `inp`, whose peer
accepts every write. -/
def rpcOn (inp : Str) : SoapyRPC :=
  { handle := { input := inp, output := [], credit := none }, hasError := false }

/-- A control record as `createRpc` leaves it (socket 5), with remembered
sample rate `r`. -/
def controlRecord (r : CDouble) : ConnectionInfo :=
  { rpc := some 5, dev := some 1, netFp := none, direction := 0, rate := r, fSize := 0,
    numChans := 0, stream := none, pid := 0 }

/-- A data record as `createData` leaves it (socket 6). -/
def dataRecord : ConnectionInfo :=
  { rpc := none, dev := none, netFp := some 6, direction := 0, rate := CDouble.fin 0,
    fSize := 0, numChans := 0, stream := none, pid := 0 }

/-- A server with the control connection 5 and the data connection 6. -/
def sampleServer (r : CDouble) : Server :=
  { s_connections := [(5, controlRecord r), (6, dataRecord)], calls := [] }

/-- A device layer whose stream setup yields the stream 77. -/
def streamingDevice : DeviceLayer := { setupStream := fun _ _ _ _ _ => some 77 }

/-- A device layer whose stream setup yields no stream. -/
def refusingDevice : DeviceLayer := { setupStream := fun _ _ _ _ _ => none }

/-- A `%lf` conversion that knows the one text `-1`; `%f` is not used. -/
def minusOneConv : FloatConv :=
  { scan := fun s => if s = ['-', '1'] then some (CDouble.fin (-1)) else none,
    fmt := fun _ => [] }

/-- A device with fixed answers: stream 77, MTU 1024, gain range 0 to 50 in
steps of 1, two frequency ranges, no sample rate ranges, rate 250000. -/
def sampleDevice : Device :=
  { setupStream := fun _ _ _ _ _ => some 77
    getHardwareKey := fun _ => ['k', 'e', 'y']
    getHardwareInfo := fun _ => []
    getFrontendMapping := fun _ _ => []
    getNumChannels := fun _ _ => 2
    getChannelInfo := fun _ _ _ => []
    getFullDuplex := fun _ _ _ => true
    getStreamFormats := fun _ _ _ => [['C', 'S', '1', '6']]
    getNativeStreamFormat := fun _ _ _ => (['C', 'S', '1', '6'], CDouble.fin 32768)
    getStreamMTU := fun _ _ => 1024
    listAntennas := fun _ _ _ => [['R', 'X']]
    getAntenna := fun _ _ _ => ['R', 'X']
    listGains := fun _ _ _ => []
    hasGainMode := fun _ _ _ => false
    getGainMode := fun _ _ _ => false
    getGain := fun _ _ _ => CDouble.fin 0
    getGainNamed := fun _ _ _ _ => CDouble.fin 0
    getGainRange := fun _ _ _ =>
      { minimum := CDouble.fin 0, maximum := CDouble.fin 50, step := CDouble.fin 1 }
    getGainRangeNamed := fun _ _ _ _ =>
      { minimum := CDouble.fin 0, maximum := CDouble.fin 50, step := CDouble.fin 1 }
    getFrequency := fun _ _ _ => CDouble.fin 0
    getFrequencyNamed := fun _ _ _ _ => CDouble.fin 0
    listFrequencies := fun _ _ _ => []
    getFrequencyRange := fun _ _ _ =>
      [{ minimum := CDouble.fin 1, maximum := CDouble.fin 2, step := CDouble.fin 0 },
       { minimum := CDouble.fin 3, maximum := CDouble.fin 4, step := CDouble.fin 0 }]
    getFrequencyRangeNamed := fun _ _ _ _ => []
    getSampleRate := fun _ _ _ => CDouble.fin 250000
    getSampleRateRange := fun _ _ _ => [] }

/-- The device of `sampleDevice` with a stream setup that yields no stream. -/
def sampleRefusingDevice : Device := { sampleDevice with setupStream := fun _ _ _ _ _ => none }

/-- Conversions of doubles on whole numbers only: `%lf` knows the texts
`1000000.0` and `-1`, `%f` prints a whole number with six zero decimals. -/
def sampleConv : FloatConv :=
  { scan := fun s =>
      if s = ['1', '0', '0', '0', '0', '0', '0', '.', '0'] then some (CDouble.fin 1000000)
      else if s = ['-', '1'] then some (CDouble.fin (-1))
      else none
    fmt := fun d =>
      match d with
      | CDouble.fin q => fmtInt q.num ++ ['.', '0', '0', '0', '0', '0', '0']
      | CDouble.inf neg => if neg then ['-', 'i', 'n', 'f'] else ['i', 'n', 'f']
      | CDouble.nan => ['n', 'a', 'n'] }

/-- A thread library whose `pthread_create` yields thread 9 and whose joins
succeed. -/
def sampleThreads : ThreadLayer := { create := some 9, join := fun _ => true }

/-- The event `POLLIN` alone. -/
def readable : Revents := { pollin := true, pollerr := false, pollhup := false, other := false }

/-- No event. -/
def quiet : Revents := { pollin := false, pollerr := false, pollhup := false, other := false }

/-- A new connection on socket `sock` whose first two bytes are `first` and
whose further bytes are `pending`; every library call succeeds, the device made
is device 1, and the local record starts zeroed. -/
def hello (sock : Int) (first pending : Str) : AcceptEnv :=
  { sock := sock, firstRead := first, pending := pending, credit := none, fdopenRpc := true,
    fdopenData := fun _ => some sock.toNat, make := fun _ => some 1,
    junk :=
      { rpc := none, dev := none, netFp := none, direction := 0, rate := CDouble.fin 0,
        fSize := 0, numChans := 0, stream := none, pid := 0 } }

/-- A pass of the accept loop in which only the listening socket is ready,
with the connection `acc` waiting. -/
def listenPass (acc : AcceptEnv) : PassEnv :=
  { pollRet := 1, listenRevents := readable, accept := acc, revents := fun _ => quiet,
    arrived := fun _ => [], device := sampleDevice, conv := sampleConv,
    threads := sampleThreads }

/-- A pass of the accept loop in which only the control socket `fd` is ready,
with the request text `req` arrived on it. -/
def requestPass (fd : Int) (req : Str) : PassEnv :=
  { pollRet := 1, listenRevents := quiet, accept := hello 0 [] [],
    revents := fun k => if k = fd then readable else quiet,
    arrived := fun k => if k = fd then req else [], device := sampleDevice,
    conv := sampleConv, threads := sampleThreads }

/-- A start of `main` in which the listening socket 3 is set up. -/
def goodBoot : BootEnv := { getaddrinfoRet := 0, lsock := 3, bindRet := 0 }

/-! ## Theorems: receive pump -/

theorem forLoop_succ {σ : Type} (n : Nat) (body : Nat → σ → σ) (s : σ) :
    forLoop (n + 1) body s = body n (forLoop n body s) := rfl

theorem sizeMul_small (a b : Nat) (h : a * b < 2 ^ 64) : sizeMul a b = a * b :=
  Nat.mod_eq_of_lt h

/-- When the pointer block holds `k` pointers, the first `k` stores succeed and
leave slot `ch` pointing at `cbuf + ch * blkSize`. -/
theorem fillBuffs_loop (P : StackModel) (pbytes blkSize : Nat) :
    ∀ k, P.ptrSize * k ≤ pbytes →
      ∃ slots,
        forLoop k (fun c st => storeBuff P pbytes c (sizeMul c blkSize) st)
            (some (fun _ => none)) = some slots ∧
          ∀ ch, ch < k → slots ch = some (sizeMul ch blkSize) := by
  intro k
  induction k with
  | zero =>
    intro _
    exact ⟨fun _ => none, rfl, fun ch h => absurd h (Nat.not_lt_zero ch)⟩
  | succ k ih =>
    intro hk
    have hk0 : P.ptrSize * k ≤ pbytes :=
      Nat.le_trans (Nat.mul_le_mul_left _ (Nat.le_succ k)) hk
    obtain ⟨slots, h1, h2⟩ := ih hk0
    refine ⟨fun j => if j = k then some (sizeMul k blkSize) else slots j, ?_, ?_⟩
    · rw [forLoop_succ, h1]
      simp only [storeBuff]
      rw [if_pos hk]
    · intro ch hch
      by_cases he : ch = k
      · simp [he]
      · simp only [he, if_false]
        exact h2 ch (by omega)

/-- When the pointer block is too small for `numChans` pointers, the last
store of the loop lies outside it. -/
theorem fillBuffs_overrun (P : StackModel) (pbytes blkSize numChans : Nat)
    (h : pbytes < P.ptrSize * numChans) : fillBuffs P pbytes blkSize numChans = none := by
  unfold fillBuffs
  cases numChans with
  | zero => simp at h
  | succ k =>
    rw [forLoop_succ]
    unfold storeBuff
    split
    · rfl
    · rw [if_neg (by omega)]

/-- The inner loop on blocks that are large enough: the cursor advances by one
frame per channel, the bytes below the starting cursor stay, and the frames of
channels `0 .. k - 1` are in place. -/
theorem inner_loop (P : StackModel) (B : PumpFrame) (slots : Nat → Option Nat) (cbuf : Mem)
    (f eoff blkSize : Nat) (s : NetCursor) (heoff : eoff + f ≤ blkSize) :
    ∀ k, P.ptrSize * k ≤ B.pbytes → (∀ ch, ch < k → slots ch = some (ch * blkSize)) →
      k * blkSize ≤ B.cbytes → s.pn + k * f ≤ B.nbytes →
      ∃ s1, forLoop k (copyFrame P B slots cbuf f eoff) (some s) = some s1 ∧
        s1.pn = s.pn + k * f ∧
        (∀ j, j < s.pn → s1.nbuf j = s.nbuf j) ∧
        ∀ ch b, ch < k → b < f →
          s1.nbuf (s.pn + ch * f + b) = cbuf (ch * blkSize + eoff + b) := by
  intro k
  induction k with
  | zero =>
    intro _ _ _ _
    exact ⟨s, rfl, by simp, fun j _ => rfl, fun ch b h => absurd h (Nat.not_lt_zero ch)⟩
  | succ k ih =>
    intro hp hs hc hn
    have e1 : (k + 1) * blkSize = k * blkSize + blkSize := Nat.succ_mul k blkSize
    have e2 : (k + 1) * f = k * f + f := Nat.succ_mul k f
    have hp0 : P.ptrSize * k ≤ B.pbytes :=
      Nat.le_trans (Nat.mul_le_mul_left _ (Nat.le_succ k)) hp
    obtain ⟨s1, h1, h2, h3, h4⟩ :=
      ih hp0 (fun ch hch => hs ch (by omega)) (by omega) (by omega)
    have hslot := hs k (by omega)
    refine ⟨{ nbuf := memcpy s1.nbuf s1.pn cbuf (k * blkSize + eoff) f, pn := s1.pn + f },
      ?_, ?_, ?_, ?_⟩
    · rw [forLoop_succ, h1]
      simp only [copyFrame, hslot]
      rw [if_pos hp, if_pos ⟨by omega, by omega⟩]
    · simp only [h2]
      omega
    · intro j hj
      simp only [memcpy]
      rw [if_neg (by omega)]
      exact h3 j hj
    · intro ch b hch hb
      simp only [memcpy, h2]
      by_cases hk : ch = k
      · subst hk
        rw [if_pos ⟨by omega, by omega⟩]
        congr 1
        omega
      · have hlt : ch < k := by omega
        have hle : (ch + 1) * f ≤ k * f := Nat.mul_le_mul_right _ (by omega)
        have e3 : (ch + 1) * f = ch * f + f := Nat.succ_mul ch f
        rw [if_neg (by omega)]
        exact h4 ch b hlt hb

/-- The interleaving invariant on blocks that are large enough: after `m`
samples the cursor stands at `m * (c * f)` and byte `b` of channel `ch` of
sample `i` sits at offset `(i * c + ch) * f + b`. -/
theorem interleave_loop (P : StackModel) (B : PumpFrame) (slots : Nat → Option Nat)
    (cbuf nbuf : Mem) (f c numElems : Nat)
    (hp : P.ptrSize * c ≤ B.pbytes)
    (hs : ∀ ch, ch < c → slots ch = some (ch * (numElems * f)))
    (hc : c * (numElems * f) ≤ B.cbytes)
    (hblk : numElems * f < 2 ^ 64) :
    ∀ m, m ≤ numElems → m * (c * f) ≤ B.nbytes →
      ∃ s1,
        forLoop m
            (fun idx st => forLoop c (copyFrame P B slots cbuf f (sizeMul idx f)) st)
            (some { nbuf := nbuf, pn := 0 }) = some s1 ∧
          s1.pn = m * (c * f) ∧
          ∀ i ch b, i < m → ch < c → b < f →
            s1.nbuf ((i * c + ch) * f + b) = cbuf (ch * (numElems * f) + i * f + b) := by
  intro m
  induction m with
  | zero =>
    intro _ _
    exact ⟨{ nbuf := nbuf, pn := 0 }, rfl, by simp,
      fun i ch b h => absurd h (Nat.not_lt_zero i)⟩
  | succ m ih =>
    intro hm hn
    have e1 : (m + 1) * (c * f) = m * (c * f) + c * f := Nat.succ_mul m (c * f)
    have e2 : (m + 1) * f = m * f + f := Nat.succ_mul m f
    have hle : (m + 1) * f ≤ numElems * f := Nat.mul_le_mul_right _ hm
    obtain ⟨s0, h1, h2, h3⟩ := ih (by omega) (by omega)
    have hsz : sizeMul m f = m * f := sizeMul_small _ _ (by omega)
    obtain ⟨s1, g1, g2, g3, g4⟩ :=
      inner_loop P B slots cbuf f (m * f) (numElems * f) s0 (by omega) c hp hs hc
        (by rw [h2]; omega)
    refine ⟨s1, ?_, ?_, ?_⟩
    · rw [forLoop_succ, h1, hsz]
      exact g1
    · rw [g2, h2]
      omega
    · intro i ch b hi hch hb
      by_cases hin : i = m
      · subst hin
        have h := g4 ch b hch hb
        rw [h2] at h
        rw [← h]
        congr 1
        ring
      · have hlt : i < m := by omega
        have hb1 : (i * c + ch) * f + b < s0.pn := by
          rw [h2]
          have h5 : (i * c + ch + 1) * f ≤ (m * c) * f := by
            apply Nat.mul_le_mul_right
            have : (i + 1) * c ≤ m * c := Nat.mul_le_mul_right _ (by omega)
            have : (i + 1) * c = i * c + c := Nat.succ_mul i c
            omega
          have h6 : (i * c + ch + 1) * f = (i * c + ch) * f + f := Nat.succ_mul _ f
          have h7 : m * (c * f) = (m * c) * f := by ring
          omega
        rw [g3 _ hb1]
        exact h3 i ch b hlt hch hb

/-- What the pump does when its blocks are large enough: if the pointer block
holds `c` pointers, `alloca(k)` holds at least `k` bytes, the block sizes fit
`size_t` and the device read returns `n ≤ numElems` samples, the pump hands
exactly `n * f * c` bytes to the data channel, and byte `b` of channel `ch` of
sample `i` is found at offset `(i * c + ch) * f + b` of them. -/
theorem dataPump_interleaves (P : StackModel) (f c numElems n : Nat) (cbuf nbuf : Mem)
    (hfit : P.ptrSize * c ≤ P.allocaBytes c)
    (halloc : ∀ k, k ≤ P.allocaBytes k)
    (hn : n ≤ numElems)
    (hblk : numElems * f < 2 ^ 64) (hbuf : numElems * f * c < 2 ^ 64) :
    ∃ out, dataPumpBlock P f c numElems cbuf (n : Int) nbuf = PumpPass.wrote out ∧
      out.length = n * f * c ∧
      ∀ i ch b, i < n → ch < c → b < f →
        out[(i * c + ch) * f + b]? = some (cbuf (ch * (numElems * f) + i * f + b)) := by
  have hblkS : sizeMul numElems f = numElems * f := sizeMul_small _ _ hblk
  have hbufS : sizeMul (numElems * f) c = numElems * f * c := sizeMul_small _ _ hbuf
  obtain ⟨slots, hfill, hslots⟩ :=
    fillBuffs_loop P (P.allocaBytes c) (numElems * f) c hfit
  have hslots1 : ∀ ch, ch < c → slots ch = some (ch * (numElems * f)) := by
    intro ch hch
    rw [hslots ch hch, sizeMul_small]
    have h1 : ch * (numElems * f) ≤ c * (numElems * f) := Nat.mul_le_mul_right _ (by omega)
    have h2 : c * (numElems * f) = numElems * f * c := Nat.mul_comm _ _
    omega
  have hcb : c * (numElems * f) ≤ P.allocaBytes (numElems * f * c) := by
    have := halloc (numElems * f * c)
    have h2 : c * (numElems * f) = numElems * f * c := Nat.mul_comm _ _
    omega
  have hnb : n * (c * f) ≤ P.allocaBytes (numElems * f * c) := by
    have := halloc (numElems * f * c)
    have h1 : n * (c * f) ≤ numElems * (c * f) := Nat.mul_le_mul_right _ hn
    have h2 : numElems * (c * f) = numElems * f * c := by ring
    omega
  obtain ⟨st, hst, hpn, hbytes⟩ :=
    interleave_loop P
      { pbytes := P.allocaBytes c, cbytes := P.allocaBytes (numElems * f * c),
        nbytes := P.allocaBytes (numElems * f * c) }
      slots cbuf nbuf f c numElems hfit hslots1 hcb hblk n hn hnb
  have hrun : dataPumpBlock P f c numElems cbuf (n : Int) nbuf
      = PumpPass.wrote (fwriteBytes st.nbuf (sizeMul f c) n) := by
    unfold dataPumpBlock fillBuffs interleave
    simp only [hblkS, hbufS, hfill, Int.toNat_ofNat, hst]
    rw [if_neg (by omega)]
  refine ⟨_, hrun, ?_, ?_⟩
  · rcases Nat.eq_zero_or_pos n with h0 | hpos
    · subst h0
      simp [fwriteBytes]
    · have hfc : f * c ≤ numElems * f * c := by
        have h1 : 1 * (f * c) ≤ numElems * (f * c) := Nat.mul_le_mul_right _ (by omega)
        have h2 : numElems * (f * c) = numElems * f * c := by ring
        omega
      rw [sizeMul_small f c (by omega)]
      simp [fwriteBytes]
      ring
  · intro i ch b hi hch hb
    have hfc : f * c ≤ numElems * f * c := by
      have h1 : 1 * (f * c) ≤ numElems * (f * c) := Nat.mul_le_mul_right _ (by omega)
      have h2 : numElems * (f * c) = numElems * f * c := by ring
      omega
    rw [sizeMul_small f c (by omega)]
    have hlt : (i * c + ch) * f + b < f * c * n := by
      have h1 : (i * c + ch + 1) * f ≤ (n * c) * f := by
        apply Nat.mul_le_mul_right
        have : (i + 1) * c ≤ n * c := Nat.mul_le_mul_right _ (by omega)
        have : (i + 1) * c = i * c + c := Nat.succ_mul i c
        omega
      have h2 : (i * c + ch + 1) * f = (i * c + ch) * f + f := Nat.succ_mul _ f
      have h3 : f * c * n = (n * c) * f := by ring
      omega
    simp only [fwriteBytes]
    rw [List.getElem?_map, List.getElem?_range hlt]
    simp only [Option.map_some']
    rw [hbytes i ch b hi hch hb]

/-- The pump on the 64 bit implementation with two channels of 2-byte frames
and three samples per read: the last byte of the second channel of the last
sample. -/
theorem dataPump_interleaves_two_channels :
    ∃ out, dataPumpBlock lp64 2 2 3 (fun k => UInt8.ofNat (7 * k)) (3 : Nat) (fun _ => 0)
        = PumpPass.wrote out ∧
      out.length = 3 * 2 * 2 ∧
      out[(2 * 2 + 1) * 2 + 1]? = some (UInt8.ofNat (7 * (1 * (3 * 2) + 2 * 2 + 1))) := by
  obtain ⟨out, h1, h2, h3⟩ :=
    dataPump_interleaves lp64 2 2 3 3 (fun k => UInt8.ofNat (7 * k)) (fun _ => 0)
      (by decide) (fun k => by simp only [lp64]; omega) (by decide) (by decide) (by decide)
  exact ⟨out, h1, h2, h3 2 1 1 (by decide) (by decide) (by decide)⟩


/-- C1 fails on the code: the pointer block `buffs` is `alloca(numChans)`, which
are `numChans` bytes for `numChans` pointers. With pointers of 8 bytes and an
`alloca` that rounds up to 16 bytes the block holds two pointers, so with the
8 channels `0 1 2 3 4 5 6 7`, 4-byte frames and the rate 1000000 (250000
elements per read) the store `buffs[2] = ...` already lies outside it and the
behaviour of the pump is undefined, where the claim has 32 bytes written for a
read of one sample. The same holds for every channel count from 3 on, for all
frame sizes, contents and sample counts. With 2 channels the block is large
enough: three samples of 2-byte frames are written interleaved. -/
theorem dataPump_pointer_block_overrun :
    dataPumpBlock lp64 4 8 250000 (fun k => UInt8.ofNat k) 1 (fun _ => 0)
      = PumpPass.undefined ∧
    (∀ (f c numElems : Nat) (cbuf nbuf : Mem) (n : Int),
      dataPumpBlock lp64 f (c + 3) numElems cbuf n nbuf = PumpPass.undefined) ∧
    dataPumpBlock lp64 2 2 3 (fun k => UInt8.ofNat (7 * k)) 3 (fun _ => 0)
      = PumpPass.wrote [0, 7, 42, 49, 14, 21, 56, 63, 28, 35, 70, 77] := by
  have hgen : ∀ (f c numElems : Nat) (cbuf nbuf : Mem) (n : Int),
      dataPumpBlock lp64 f (c + 3) numElems cbuf n nbuf = PumpPass.undefined := by
    intro f c numElems cbuf nbuf n
    unfold dataPumpBlock
    simp only
    rw [fillBuffs_overrun lp64 _ _ (c + 3) (by simp only [lp64]; omega)]
  exact ⟨hgen 4 5 250000 _ _ 1, hgen, by decide⟩

/-! ## Theorems: reads leave the output side alone -/

theorem fgets_sink (n : Nat) (h : FileStream) :
    (fgets n h).2.output = h.output ∧ (fgets n h).2.credit = h.credit := by
  unfold fgets
  split <;> simp

theorem readString_sink (rpc : SoapyRPC) :
    (readString rpc).2.handle.output = rpc.handle.output ∧
      (readString rpc).2.handle.credit = rpc.handle.credit := by
  unfold readString
  have hf := fgets_sink 256 rpc.handle
  split
  · simp
  · split
    · rename_i line h heq
      rw [heq] at hf
      exact hf
    · rename_i h heq
      rw [heq] at hf
      exact hf

theorem readInteger_sink (rpc : SoapyRPC) :
    (readInteger rpc).2.handle.output = rpc.handle.output ∧
      (readInteger rpc).2.handle.credit = rpc.handle.credit := by
  unfold readInteger
  have hs := readString_sink rpc
  split
  · simp
  · dsimp only
    split <;> exact hs

theorem readKwargsLoop_sink (fuel : Nat) :
    ∀ (rpc : SoapyRPC) (args : Kwargs),
      (readKwargsLoop fuel rpc args).2.handle.output = rpc.handle.output ∧
        (readKwargsLoop fuel rpc args).2.handle.credit = rpc.handle.credit := by
  induction fuel with
  | zero => intro rpc args; simp [readKwargsLoop]
  | succ fuel ih =>
    intro rpc args
    have hs := readString_sink rpc
    unfold readKwargsLoop
    simp only
    split
    · exact hs
    · split
      · rw [(ih _ _).1, (ih _ _).2]; exact hs
      · rw [(ih _ _).1, (ih _ _).2]; exact hs

theorem readKwargs_sink (rpc : SoapyRPC) :
    (readKwargs rpc).2.handle.output = rpc.handle.output ∧
      (readKwargs rpc).2.handle.credit = rpc.handle.credit := by
  unfold readKwargs
  split
  · simp
  · exact readKwargsLoop_sink _ _ _

theorem readSetupRequest_sink (rpc : SoapyRPC) :
    (readSetupRequest rpc).2.handle.output = rpc.handle.output ∧
      (readSetupRequest rpc).2.handle.credit = rpc.handle.credit := by
  unfold readSetupRequest
  simp only
  rw [(readKwargs_sink _).1, (readKwargs_sink _).2, (readString_sink _).1, (readString_sink _).2,
    (readString_sink _).1, (readString_sink _).2, (readInteger_sink _).1, (readInteger_sink _).2,
    (readInteger_sink _).1, (readInteger_sink _).2]
  exact ⟨rfl, rfl⟩

/-! ## Theorems: a write on a healthy codec -/

theorem fprintfLine_ok (h : FileStream) (text : Str) (hc : h.credit ≠ some 0) :
    (fprintfLine h text).1 = ((text.length + 1 : Nat) : Int) ∧
      (fprintfLine h text).2.output = h.output ++ text ++ [NL] ∧
      (fprintfLine h text).2.input = h.input := by
  unfold fprintfLine
  split
  · rename_i heq; exact absurd heq hc
  · simp
  · simp

theorem writeLine_ok (rpc : SoapyRPC) (text : Str) (he : rpc.hasError = false)
    (hc : rpc.handle.credit ≠ some 0) :
    (writeLine rpc text).1 = ((text.length + 1 : Nat) : Int) ∧
      (writeLine rpc text).2.handle.output = rpc.handle.output ++ text ++ [NL] ∧
      (writeLine rpc text).2.handle.input = rpc.handle.input ∧
      (writeLine rpc text).2.hasError = false := by
  obtain ⟨h1, h2, h3⟩ := fprintfLine_ok rpc.handle text hc
  unfold writeLine
  simp only
  refine ⟨h1, h2, h3, ?_⟩
  rw [h1, he]
  have : ¬ (((text.length + 1 : Nat) : Int) < 0) := by omega
  rw [if_neg this]

theorem writeInteger_ok (rpc : SoapyRPC) (i : Int) (he : rpc.hasError = false)
    (hc : rpc.handle.credit ≠ some 0) :
    (writeInteger rpc i).2.handle.output = rpc.handle.output ++ fmtInt i ++ [NL] ∧
      (writeInteger rpc i).2.hasError = false := by
  unfold writeInteger
  rw [he]
  simp only [Bool.false_eq_true, if_false]
  exact ⟨(writeLine_ok rpc _ he hc).2.1, (writeLine_ok rpc _ he hc).2.2.2⟩

/-! ## Theorems: stream setup -/

/-- C2: validation order and codes of stream setup. If the data id read from
the request is no key of the connection table, the server state (table and
device operations) is unchanged and the one reply line is `-1`, whatever the
format and the rate; if the id is a key but the format tag is none of `CS8`,
`CS16`, `CF32`, the state is unchanged and the one reply line is `-2`, whatever
the rate. The reply line is emitted when the request was read without a codec
error and the stream accepts a write. -/
theorem setupStream_rejects_unknown (D : DeviceLayer) (conn : ConnectionInfo) (rpc : SoapyRPC)
    (sv : Server) :
    (sv.s_connections.find (readSetupRequest rpc).1.dataId = none →
      (handleSetupStream D conn rpc sv).2.2 = sv ∧
      ((readSetupRequest rpc).2.hasError = false → rpc.handle.credit ≠ some 0 →
        (handleSetupStream D conn rpc sv).2.1.handle.output
          = rpc.handle.output ++ ['-', '1', NL])) ∧
    (sv.s_connections.find (readSetupRequest rpc).1.dataId ≠ none →
      (readSetupRequest rpc).1.fmt ≠ ['C', 'S', '8'] →
      (readSetupRequest rpc).1.fmt ≠ ['C', 'S', '1', '6'] →
      (readSetupRequest rpc).1.fmt ≠ ['C', 'F', '3', '2'] →
      (handleSetupStream D conn rpc sv).2.2 = sv ∧
      ((readSetupRequest rpc).2.hasError = false → rpc.handle.credit ≠ some 0 →
        (handleSetupStream D conn rpc sv).2.1.handle.output
          = rpc.handle.output ++ ['-', '2', NL])) := by
  have hsink := readSetupRequest_sink rpc
  constructor
  · intro hfind
    unfold handleSetupStream
    simp only [hfind]
    refine ⟨trivial, ?_⟩
    intro he hc
    rw [← hsink.2] at hc
    rw [(writeInteger_ok _ (-1) he hc).1, hsink.1]
    simp [fmtInt, Nat.toDigits, Nat.toDigitsCore, Nat.digitChar]
  · intro hfind h8 h16 h32
    obtain ⟨data, hdata⟩ := Option.ne_none_iff_exists'.mp hfind
    have e8 : ((readSetupRequest rpc).1.fmt == ['C', 'S', '8']) = false := by simpa using h8
    have e16 : ((readSetupRequest rpc).1.fmt == ['C', 'S', '1', '6']) = false := by simpa using h16
    have e32 : ((readSetupRequest rpc).1.fmt == ['C', 'F', '3', '2']) = false := by simpa using h32
    have hfmt : g_frameSizes.lookup (readSetupRequest rpc).1.fmt = none := by
      simp only [g_frameSizes, List.lookup, e8, e16, e32]
    unfold handleSetupStream
    simp only [hdata, hfmt]
    refine ⟨trivial, ?_⟩
    intro he hc
    rw [← hsink.2] at hc
    rw [(writeInteger_ok _ (-2) he hc).1, hsink.1]
    simp [fmtInt, Nat.toDigits, Nat.toDigitsCore, Nat.digitChar]

/-- C2 at two requests on the sample server: data id 7 is not in the table
(reply `-1`), and data id 6 with the tag `CS17` (reply `-2`). -/
theorem setupStream_rejects_unknown_witness :
    ((handleSetupStream streamingDevice (controlRecord (CDouble.fin 1))
          (rpcOn "7\n0\nCS16\n0 1\n=\n".toList) (sampleServer (CDouble.fin 1))).2.2
        = sampleServer (CDouble.fin 1) ∧
      (handleSetupStream streamingDevice (controlRecord (CDouble.fin 1))
          (rpcOn "7\n0\nCS16\n0 1\n=\n".toList) (sampleServer (CDouble.fin 1))).2.1.handle.output
        = [] ++ ['-', '1', NL]) ∧
    ((handleSetupStream streamingDevice (controlRecord (CDouble.fin 1))
          (rpcOn "6\n0\nCS17\n0 1\n=\n".toList) (sampleServer (CDouble.fin 1))).2.2
        = sampleServer (CDouble.fin 1) ∧
      (handleSetupStream streamingDevice (controlRecord (CDouble.fin 1))
          (rpcOn "6\n0\nCS17\n0 1\n=\n".toList) (sampleServer (CDouble.fin 1))).2.1.handle.output
        = [] ++ ['-', '2', NL]) :=
  ⟨⟨((setupStream_rejects_unknown streamingDevice (controlRecord (CDouble.fin 1))
        (rpcOn "7\n0\nCS16\n0 1\n=\n".toList) (sampleServer (CDouble.fin 1))).1 (by decide)).1,
    ((setupStream_rejects_unknown streamingDevice (controlRecord (CDouble.fin 1))
        (rpcOn "7\n0\nCS16\n0 1\n=\n".toList) (sampleServer (CDouble.fin 1))).1 (by decide)).2
      (by decide) (by decide)⟩,
   ⟨((setupStream_rejects_unknown streamingDevice (controlRecord (CDouble.fin 1))
        (rpcOn "6\n0\nCS17\n0 1\n=\n".toList) (sampleServer (CDouble.fin 1))).2
        (by decide) (by decide) (by decide) (by decide)).1,
    ((setupStream_rejects_unknown streamingDevice (controlRecord (CDouble.fin 1))
        (rpcOn "6\n0\nCS17\n0 1\n=\n".toList) (sampleServer (CDouble.fin 1))).2
        (by decide) (by decide) (by decide) (by decide)).2 (by decide) (by decide)⟩⟩

theorem lookup_frameSize (fmt : Str)
    (hfmt : fmt = ['C', 'S', '8'] ∨ fmt = ['C', 'S', '1', '6'] ∨ fmt = ['C', 'F', '3', '2']) :
    ∃ fs, g_frameSizes.lookup fmt = some fs ∧
      (fmt = ['C', 'S', '8'] → fs = 2) ∧ (fmt = ['C', 'S', '1', '6'] → fs = 4) ∧
      (fmt = ['C', 'F', '3', '2'] → fs = 8) := by
  rcases hfmt with h | h | h <;> subst h
  · exact ⟨2, by decide, fun _ => rfl, by decide, by decide⟩
  · exact ⟨4, by decide, by decide, fun _ => rfl, by decide⟩
  · exact ⟨8, by decide, by decide, by decide, fun _ => rfl⟩

/-- C3 (as amended): when the caller's remembered sample rate equals 0, a
stream setup request with an existing data id and a known format tag leaves
the server state unchanged (the data record is not bound, the device is not
called) and its one reply line is `-3`. -/
theorem setupStream_rate_unset (D : DeviceLayer) (conn : ConnectionInfo) (rpc : SoapyRPC)
    (sv : Server)
    (hid : sv.s_connections.find (readSetupRequest rpc).1.dataId ≠ none)
    (hfmt : (readSetupRequest rpc).1.fmt = ['C', 'S', '8'] ∨
      (readSetupRequest rpc).1.fmt = ['C', 'S', '1', '6'] ∨
      (readSetupRequest rpc).1.fmt = ['C', 'F', '3', '2'])
    (hrate : conn.rate = CDouble.fin 0) :
    (handleSetupStream D conn rpc sv).2.2 = sv ∧
    ((readSetupRequest rpc).2.hasError = false → rpc.handle.credit ≠ some 0 →
      (handleSetupStream D conn rpc sv).2.1.handle.output
        = rpc.handle.output ++ ['-', '3', NL]) := by
  have hsink := readSetupRequest_sink rpc
  obtain ⟨data, hdata⟩ := Option.ne_none_iff_exists'.mp hid
  obtain ⟨fs, hfs, -⟩ := lookup_frameSize _ hfmt
  have hz : conn.rate.isZero = true := by rw [hrate]; decide
  unfold handleSetupStream
  simp only [hdata, hfs, hz, if_true]
  refine ⟨trivial, ?_⟩
  intro he hc
  rw [← hsink.2] at hc
  rw [(writeInteger_ok _ (-3) he hc).1, hsink.1]
  simp [fmtInt, Nat.toDigits, Nat.toDigitsCore, Nat.digitChar]

/-- C3 (as amended) on scenario S2: no rate set, request `6, 0, CS16, "0 1", =`. -/
theorem setupStream_rate_unset_witness :
    (handleSetupStream streamingDevice (controlRecord (CDouble.fin 0))
        (rpcOn "6\n0\nCS16\n0 1\n=\n".toList) (sampleServer (CDouble.fin 0))).2.2
      = sampleServer (CDouble.fin 0) ∧
    (handleSetupStream streamingDevice (controlRecord (CDouble.fin 0))
        (rpcOn "6\n0\nCS16\n0 1\n=\n".toList) (sampleServer (CDouble.fin 0))).2.1.handle.output
      = [] ++ ['-', '3', NL] :=
  ⟨(setupStream_rate_unset streamingDevice (controlRecord (CDouble.fin 0))
      (rpcOn "6\n0\nCS16\n0 1\n=\n".toList) (sampleServer (CDouble.fin 0))
      (by decide) (by decide) rfl).1,
   (setupStream_rate_unset streamingDevice (controlRecord (CDouble.fin 0))
      (rpcOn "6\n0\nCS16\n0 1\n=\n".toList) (sampleServer (CDouble.fin 0))
      (by decide) (by decide) rfl).2 (by decide) (by decide)⟩

/-- C3 as stated fails: set-sample-rate with the value `-1` leaves the
remembered rate at `-1`, which is not `> 0`, and the following stream setup
for data id 6 with tag `CS16` replies `6` and binds the data record. -/
theorem setupStream_negative_rate_accepted :
    (handleSetSampleRate minusOneConv (controlRecord (CDouble.fin 0))
        (rpcOn "0\n0\n-1\n".toList) []).2.1 = controlRecord (CDouble.fin (-1)) ∧
    ¬ ((0 : ℚ) < -1) ∧
    (handleSetupStream streamingDevice (controlRecord (CDouble.fin (-1)))
        (rpcOn "6\n0\nCS16\n0 1\n=\n".toList) (sampleServer (CDouble.fin (-1)))).2.1.handle.output
      = ['6', NL] ∧
    (handleSetupStream streamingDevice (controlRecord (CDouble.fin (-1)))
        (rpcOn "6\n0\nCS16\n0 1\n=\n".toList)
        (sampleServer (CDouble.fin (-1)))).2.2.s_connections.find 6
      = some { dataRecord with
          dev := some 1, rate := CDouble.fin (-1), fSize := 4, numChans := 2,
          stream := some 77 } := by
  decide

/-- C4 fails on the code: when the device returns no stream (valid request,
rate set), the handler writes the line `-4` and then also the line `6`. -/
theorem setupStream_null_stream_two_lines :
    (handleSetupStream refusingDevice (controlRecord (CDouble.fin 1000000))
        (rpcOn "6\n0\nCS16\n0 1\n=\n".toList)
        (sampleServer (CDouble.fin 1000000))).2.1.handle.output
      = "-4\n6\n".toList := by
  decide

theorem Table.find_store (t : Table) (k : Int) (c : ConnectionInfo)
    (h : t.find k ≠ none) : (t.store k c).find k = some c := by
  induction t with
  | nil => exact absurd rfl h
  | cons e t ih =>
    obtain ⟨k1, c1⟩ := e
    unfold Table.find Table.store at *
    by_cases hk : k = k1
    · subst hk
      rw [List.map_cons, if_pos rfl]
      simp [List.lookup]
    · have hb : (k == k1) = false := by simpa using hk
      have hne : ¬ k1 = k := fun h => hk h.symm
      rw [List.map_cons, if_neg hne]
      simp only [List.lookup, hb] at h ⊢
      exact ih h

theorem isZero_false_of_ne (d : CDouble) (h : d ≠ CDouble.fin 0) : d.isZero = false := by
  cases d with
  | nan => rfl
  | inf neg => rfl
  | fin q =>
    have hq : q ≠ 0 := fun hq => h (by rw [hq])
    simpa [CDouble.isZero] using hq

/-- C5: binding on success. When the data id read from the request is a key
of the table, the tag is one of `CS8`, `CS16`, `CF32`, the caller's remembered
rate passes the check (it is not 0) and the device returns the stream `h`,
then afterwards the record under the data id has the caller's device, the
requested direction, the caller's rate, frame size 2, 4 or 8 according to the
tag, as channel count the length of the parsed channel list, and stream `h`;
and the one reply line is the data id. -/
theorem setupStream_binds (D : DeviceLayer) (conn : ConnectionInfo) (rpc : SoapyRPC)
    (sv : Server) (h : Nat)
    (hid : sv.s_connections.find (readSetupRequest rpc).1.dataId ≠ none)
    (hfmt : (readSetupRequest rpc).1.fmt = ['C', 'S', '8'] ∨
      (readSetupRequest rpc).1.fmt = ['C', 'S', '1', '6'] ∨
      (readSetupRequest rpc).1.fmt = ['C', 'F', '3', '2'])
    (hrate : conn.rate ≠ CDouble.fin 0)
    (hdev : D.setupStream conn.dev (readSetupRequest rpc).1.direction (readSetupRequest rpc).1.fmt
      (parseChannels (readSetupRequest rpc).1.chans) (readSetupRequest rpc).1.args = some h)
    (he : (readSetupRequest rpc).2.hasError = false) (hc : rpc.handle.credit ≠ some 0) :
    ∃ bound : ConnectionInfo,
      (handleSetupStream D conn rpc sv).2.2.s_connections.find (readSetupRequest rpc).1.dataId
        = some bound ∧
      bound.dev = conn.dev ∧
      bound.direction = (readSetupRequest rpc).1.direction ∧
      bound.rate = conn.rate ∧
      ((readSetupRequest rpc).1.fmt = ['C', 'S', '8'] → bound.fSize = 2) ∧
      ((readSetupRequest rpc).1.fmt = ['C', 'S', '1', '6'] → bound.fSize = 4) ∧
      ((readSetupRequest rpc).1.fmt = ['C', 'F', '3', '2'] → bound.fSize = 8) ∧
      bound.numChans = (parseChannels (readSetupRequest rpc).1.chans).length ∧
      bound.stream = some h ∧
      (handleSetupStream D conn rpc sv).2.1.handle.output
        = rpc.handle.output ++ fmtInt (readSetupRequest rpc).1.dataId ++ [NL] := by
  have hsink := readSetupRequest_sink rpc
  obtain ⟨data, hdata⟩ := Option.ne_none_iff_exists'.mp hid
  obtain ⟨fs, hfs, h8, h16, h32⟩ := lookup_frameSize _ hfmt
  have hz := isZero_false_of_ne conn.rate hrate
  rw [← hsink.2] at hc
  unfold handleSetupStream
  simp only [hdata, hfs, hz, hdev, Bool.false_eq_true, if_false, Option.isNone_some]
  refine ⟨_, Table.find_store _ _ _ hid, rfl, rfl, rfl, h8, h16, h32, rfl, rfl, ?_⟩
  rw [(writeInteger_ok _ _ he hc).1, hsink.1]

/-- C5 on scenario S3: rate 1000000 set, request `6, 0, CS16, "0 1", =`, the
device returns stream 77. -/
theorem setupStream_binds_witness :
    ∃ bound : ConnectionInfo,
      (handleSetupStream streamingDevice (controlRecord (CDouble.fin 1000000))
          (rpcOn "6\n0\nCS16\n0 1\n=\n".toList)
          (sampleServer (CDouble.fin 1000000))).2.2.s_connections.find
          (readSetupRequest (rpcOn "6\n0\nCS16\n0 1\n=\n".toList)).1.dataId = some bound ∧
      bound.dev = (controlRecord (CDouble.fin 1000000)).dev ∧
      bound.direction = (readSetupRequest (rpcOn "6\n0\nCS16\n0 1\n=\n".toList)).1.direction ∧
      bound.rate = (controlRecord (CDouble.fin 1000000)).rate ∧
      ((readSetupRequest (rpcOn "6\n0\nCS16\n0 1\n=\n".toList)).1.fmt = ['C', 'S', '8'] →
        bound.fSize = 2) ∧
      ((readSetupRequest (rpcOn "6\n0\nCS16\n0 1\n=\n".toList)).1.fmt = ['C', 'S', '1', '6'] →
        bound.fSize = 4) ∧
      ((readSetupRequest (rpcOn "6\n0\nCS16\n0 1\n=\n".toList)).1.fmt = ['C', 'F', '3', '2'] →
        bound.fSize = 8) ∧
      bound.numChans
        = (parseChannels (readSetupRequest (rpcOn "6\n0\nCS16\n0 1\n=\n".toList)).1.chans).length ∧
      bound.stream = some 77 ∧
      (handleSetupStream streamingDevice (controlRecord (CDouble.fin 1000000))
          (rpcOn "6\n0\nCS16\n0 1\n=\n".toList)
          (sampleServer (CDouble.fin 1000000))).2.1.handle.output
        = (rpcOn "6\n0\nCS16\n0 1\n=\n".toList).handle.output
          ++ fmtInt (readSetupRequest (rpcOn "6\n0\nCS16\n0 1\n=\n".toList)).1.dataId ++ [NL] :=
  setupStream_binds streamingDevice (controlRecord (CDouble.fin 1000000))
    (rpcOn "6\n0\nCS16\n0 1\n=\n".toList) (sampleServer (CDouble.fin 1000000)) 77
    (by decide) (by decide) (by decide) rfl (by decide) (by decide)

/-! ## Theorems: one line through `fgets` and `readString` -/

theorem NL_ne_NUL : NL ≠ NUL := by decide

theorem takeLine_line (line rest : Str) (hnl : NL ∉ line) :
    ∀ n, line.length < n → takeLine n (line ++ NL :: rest) = line ++ [NL] := by
  induction line with
  | nil =>
    intro n hn
    cases n with
    | zero => omega
    | succ n => simp [takeLine]
  | cons c cs ih =>
    intro n hn
    cases n with
    | zero => omega
    | succ n =>
      have hc : c ≠ NL := fun h => hnl (by simp [h])
      have hcs : NL ∉ cs := fun h => hnl (List.mem_cons_of_mem _ h)
      show (if c = NL then [c] else c :: takeLine n (cs ++ NL :: rest)) = c :: (cs ++ [NL])
      rw [if_neg hc, ih hcs n (by simpa using hn)]

theorem c_str_of_noNul (s : Str) (h : NUL ∉ s) : c_str s = s := by
  unfold c_str
  rw [List.takeWhile_eq_self_iff]
  intro c hc
  have : c ≠ NUL := fun e => h (e ▸ hc)
  simpa using this

theorem readString_line (r : SoapyRPC) (line rest : Str)
    (hr : r.hasError = false) (hnl : NL ∉ line) (hnul : NUL ∉ line) (hlen : line.length ≤ 254)
    (hin : r.handle.input = line ++ NL :: rest) :
    readString r = (line, { r with handle := { r.handle with input := rest } }) := by
  have htake : takeLine (256 - 1) (line ++ NL :: rest) = line ++ [NL] :=
    takeLine_line line rest hnl _ (by omega)
  have hnul2 : NUL ∉ line ++ [NL] := by
    intro h
    rcases List.mem_append.mp h with h | h
    · exact hnul h
    · exact NL_ne_NUL (List.mem_singleton.mp h).symm
  have hne : (line ++ NL :: rest).isEmpty = false := by cases line <;> rfl
  unfold readString fgets
  simp only [hr, hin, hne, htake, Bool.false_eq_true, if_false]
  rw [c_str_of_noNul _ hnul2]
  simp

/-! ## Theorems: successful writes -/

theorem writeLine_success (rpc : SoapyRPC) (text : Str) (h : 0 ≤ (writeLine rpc text).1) :
    (writeLine rpc text).2.handle.output = rpc.handle.output ++ text ++ [NL] ∧
      (writeLine rpc text).2.handle.input = rpc.handle.input ∧
      (writeLine rpc text).2.hasError = rpc.hasError := by
  have hc : rpc.handle.credit ≠ some 0 := by
    intro hc
    simp [writeLine, fprintfLine, hc] at h
  obtain ⟨h1, h2, h3⟩ := fprintfLine_ok rpc.handle text hc
  unfold writeLine
  simp only
  refine ⟨h2, h3, ?_⟩
  rw [h1]
  have : ¬ (((text.length + 1 : Nat) : Int) < 0) := by omega
  rw [if_neg this]

theorem writeString_success (rpc : SoapyRPC) (s : Str) (h : 0 ≤ (writeString rpc s).1) :
    rpc.hasError = false ∧
      (writeString rpc s).2.handle.output = rpc.handle.output ++ c_str s ++ [NL] ∧
      (writeString rpc s).2.handle.input = rpc.handle.input ∧
      (writeString rpc s).2.hasError = false := by
  unfold writeString at h ⊢
  cases he : rpc.hasError with
  | true => simp [he] at h
  | false =>
    simp only [he, Bool.false_eq_true, if_false] at h ⊢
    obtain ⟨h1, h2, h3⟩ := writeLine_success rpc _ h
    exact ⟨trivial, h1, h2, h3.trans he⟩

theorem writeStrVectorLoop_spec (vec : List Str) :
    ∀ (rpc : SoapyRPC) (n : Int), rpc.hasError = false → 0 ≤ n →
      ((writeStrVectorLoop vec rpc n).1 = false → (writeStrVectorLoop vec rpc n).2.1 < 0) ∧
      ((writeStrVectorLoop vec rpc n).1 = true →
        0 ≤ (writeStrVectorLoop vec rpc n).2.1 ∧
        (writeStrVectorLoop vec rpc n).2.2.hasError = false ∧
        (writeStrVectorLoop vec rpc n).2.2.handle.output
          = rpc.handle.output ++ wireLines (vec.map c_str)) := by
  induction vec with
  | nil =>
    intro rpc n he hn
    simp [writeStrVectorLoop, wireLines, he, hn]
  | cons s vec ih =>
    intro rpc n he hn
    unfold writeStrVectorLoop
    simp only
    by_cases hw : (writeString rpc s).1 < 0
    · simp [hw]
    · simp only [hw, if_false]
      have hw0 : 0 ≤ (writeString rpc s).1 := by omega
      obtain ⟨-, hout, -, he2⟩ := writeString_success rpc s hw0
      obtain ⟨ih1, ih2⟩ := ih (writeString rpc s).2 (n + (writeString rpc s).1) he2 (by omega)
      refine ⟨ih1, fun ht => ?_⟩
      obtain ⟨a, b, c⟩ := ih2 ht
      refine ⟨a, b, ?_⟩
      rw [c, hout]
      simp [wireLines]

theorem writeKwargsLoop_eq (args : Kwargs) :
    ∀ (rpc : SoapyRPC) (n : Int),
      writeKwargsLoop args rpc n = writeStrVectorLoop (args.map kwLine) rpc n := by
  induction args with
  | nil => intro rpc n; rfl
  | cons e args ih =>
    intro rpc n
    obtain ⟨k, v⟩ := e
    simp only [writeKwargsLoop, List.map_cons, writeStrVectorLoop, kwLine]
    split
    · rfl
    · exact ih _ _

/-- A successful `writeStrVector` emits the lines of `vec` and an empty line. -/
theorem writeStrVector_success (rpc : SoapyRPC) (vec : List Str)
    (h : 0 ≤ (writeStrVector rpc vec).1) :
    emitted rpc (writeStrVector rpc vec).2 = wireLines (vec.map c_str) ++ [NL] := by
  unfold writeStrVector at h ⊢
  cases he : rpc.hasError with
  | true => simp [he] at h
  | false =>
    simp only [he, Bool.false_eq_true, if_false] at h ⊢
    obtain ⟨l1, l2⟩ := writeStrVectorLoop_spec vec rpc 0 he (le_refl 0)
    cases hl : (writeStrVectorLoop vec rpc 0).1 with
    | false =>
      have := l1 hl
      simp only [hl, Bool.false_eq_true, if_false] at h
      omega
    | true =>
      obtain ⟨a, b, c⟩ := l2 hl
      simp only [hl, if_true] at h ⊢
      by_cases hw : (writeString (writeStrVectorLoop vec rpc 0).2.2 []).1 < 0
      · simp only [hw, if_true] at h
        omega
      · simp only [hw, if_false]
        have hw0 : 0 ≤ (writeString (writeStrVectorLoop vec rpc 0).2.2 []).1 := by omega
        obtain ⟨-, hout, -, -⟩ := writeString_success _ [] hw0
        unfold emitted
        rw [hout, c]
        simp [c_str]

/-- A successful `writeKwargs` emits the `key=value` lines and the line `=`. -/
theorem writeKwargs_success (rpc : SoapyRPC) (args : Kwargs)
    (h : 0 ≤ (writeKwargs rpc args).1) :
    emitted rpc (writeKwargs rpc args).2
      = wireLines ((args.map kwLine).map c_str) ++ ['=', NL] := by
  unfold writeKwargs at h ⊢
  cases he : rpc.hasError with
  | true => simp [he] at h
  | false =>
    simp only [he, Bool.false_eq_true, if_false, writeKwargsLoop_eq] at h ⊢
    obtain ⟨l1, l2⟩ := writeStrVectorLoop_spec (args.map kwLine) rpc 0 he (le_refl 0)
    cases hl : (writeStrVectorLoop (args.map kwLine) rpc 0).1 with
    | false =>
      have := l1 hl
      simp only [hl, Bool.false_eq_true, if_false] at h
      omega
    | true =>
      obtain ⟨a, b, c⟩ := l2 hl
      simp only [hl, if_true] at h ⊢
      by_cases hw : (writeString (writeStrVectorLoop (args.map kwLine) rpc 0).2.2 ['=']).1 < 0
      · simp only [hw, if_true] at h
        omega
      · simp only [hw, if_false]
        have hw0 : 0 ≤ (writeString (writeStrVectorLoop (args.map kwLine) rpc 0).2.2 ['=']).1 := by
          omega
        obtain ⟨-, hout, -, -⟩ := writeString_success _ ['='] hw0
        unfold emitted
        rw [hout, c]
        have : c_str ['='] = ['='] := by decide
        simp [this]

/-! ## Theorems: round trips -/

theorem emitted_of_output (before after : SoapyRPC) (x : Str)
    (h : after.handle.output = before.handle.output ++ x) : emitted before after = x := by
  unfold emitted
  rw [h, List.drop_left]

/-- C9 (as amended): for every string `s` without newline and without NUL of
at most 254 characters, a successful `writeString s` followed by `readString`
on the emitted bytes returns exactly `s` and consumes exactly the line
written: the unread input is what followed it. -/
theorem writeString_readString (s : Str) (w r : SoapyRPC) (rest : Str)
    (hs : fitsLine s)
    (hw : 0 ≤ (writeString w s).1)
    (hr : r.hasError = false)
    (hin : r.handle.input = emitted w (writeString w s).2 ++ rest) :
    readString r = (s, { r with handle := { r.handle with input := rest } }) := by
  obtain ⟨hnl, hnul, hlen⟩ := hs
  obtain ⟨-, hout, -, -⟩ := writeString_success w s hw
  rw [c_str_of_noNul s hnul, List.append_assoc] at hout
  rw [emitted_of_output _ _ _ hout] at hin
  exact readString_line r s rest hr hnl hnul hlen (by simpa using hin)

/-- C9 (as amended) at the string `CS16` followed by further input. -/
theorem writeString_readString_witness :
    readString (rpcOn (['C', 'S', '1', '6', NL] ++ ['0', ' ', '1', NL]))
      = (['C', 'S', '1', '6'],
          { rpcOn (['C', 'S', '1', '6', NL] ++ ['0', ' ', '1', NL]) with
            handle := { (rpcOn (['C', 'S', '1', '6', NL] ++ ['0', ' ', '1', NL])).handle with
              input := ['0', ' ', '1', NL] } }) :=
  writeString_readString ['C', 'S', '1', '6'] (rpcOn []) _ ['0', ' ', '1', NL]
    (by decide) (by decide) rfl (by decide)

set_option maxRecDepth 100000 in
/-- C9 as stated fails. A string of 255 letters holds no newline, the write
succeeds, and `readString` on the emitted bytes returns only 254 letters and
leaves the newline unread, so that the following read does not see the next
value. The one-character string holding a NUL holds no newline either; only
the newline is emitted for it and the empty string is read back. -/
theorem readString_cuts_long_line :
    (NL ∉ List.replicate 255 'a' ∧
      0 ≤ (writeString (rpcOn []) (List.replicate 255 'a')).1 ∧
      readString (rpcOn (emitted (rpcOn []) (writeString (rpcOn []) (List.replicate 255 'a')).2
          ++ ['7', NL]))
        = (List.replicate 254 'a', rpcOn [NL, '7', NL])) ∧
    (NL ∉ [NUL] ∧
      0 ≤ (writeString (rpcOn []) [NUL]).1 ∧
      readString (rpcOn (emitted (rpcOn []) (writeString (rpcOn []) [NUL]).2 ++ ['7', NL]))
        = ([], rpcOn ['7', NL])) := by
  decide

theorem wireLines_length (v : List Str) : v.length ≤ (wireLines v).length := by
  induction v with
  | nil => simp
  | cons s v ih => simp [wireLines]; omega

theorem readStrVectorLoop_wire (v : List Str) :
    ∀ (fuel : Nat) (acc : List Str) (r : SoapyRPC) (rest : Str),
      v.length < fuel → r.hasError = false →
      (∀ s ∈ v, s ≠ [] ∧ fitsLine s) →
      r.handle.input = wireLines v ++ NL :: rest →
      readStrVectorLoop fuel r acc
        = (acc ++ v, { r with handle := { r.handle with input := rest } }) := by
  induction v with
  | nil =>
    intro fuel acc r rest hf hr _ hin
    cases fuel with
    | zero => simp at hf
    | succ fuel =>
      have hrd := readString_line r [] rest hr (by simp) (by simp) (by simp)
        (by simpa [wireLines] using hin)
      unfold readStrVectorLoop
      simp [hrd]
  | cons s v ih =>
    intro fuel acc r rest hf hr hv hin
    cases fuel with
    | zero => simp at hf
    | succ fuel =>
      obtain ⟨hne, hnl, hnul, hlen⟩ := hv s (List.mem_cons_self _ _)
      have hrd := readString_line r s (wireLines v ++ NL :: rest) hr hnl hnul hlen
        (by simpa [wireLines] using hin)
      have hlen0 : ¬ s.length = 0 := by
        intro h0; exact hne (List.length_eq_zero.mp h0)
      unfold readStrVectorLoop
      simp only [hrd, hlen0, if_false]
      refine (ih fuel (acc ++ [s])
        { r with handle := { r.handle with input := wireLines v ++ NL :: rest } } rest
        (by simpa using hf) hr (fun x hx => hv x (List.mem_cons_of_mem _ hx)) rfl).trans ?_
      simp

/-- C8 (as amended): for every sequence `v` of non-empty strings without
newline and without NUL of at most 254 characters each, a successful
`writeStrVector v` followed by `readStrVector` on the emitted bytes returns
exactly `v` and leaves what followed unread. -/
theorem writeStrVector_readStrVector (v : List Str) (w r : SoapyRPC) (rest : Str)
    (hv : ∀ s ∈ v, s ≠ [] ∧ fitsLine s)
    (hw : 0 ≤ (writeStrVector w v).1)
    (hr : r.hasError = false)
    (hin : r.handle.input = emitted w (writeStrVector w v).2 ++ rest) :
    readStrVector r = (v, { r with handle := { r.handle with input := rest } }) := by
  have hmap : v.map c_str = v := by
    have h : v.map c_str = v.map id :=
      List.map_congr_left (fun s hs => c_str_of_noNul s (hv s hs).2.2.1)
    simpa using h
  rw [writeStrVector_success w v hw, hmap, List.append_assoc] at hin
  have hlen : v.length < r.handle.input.length + 1 := by
    have := wireLines_length v
    rw [hin, List.length_append]
    omega
  unfold readStrVector
  rw [if_neg (by simp [hr])]
  rw [readStrVectorLoop_wire v _ [] r rest hlen hr hv (by simpa using hin)]
  simp

/-- C8 (as amended) at the sequence `RX`, `TX`. -/
theorem writeStrVector_readStrVector_witness :
    readStrVector (rpcOn (['R', 'X', NL, 'T', 'X', NL, NL] ++ ['9', NL]))
      = ([['R', 'X'], ['T', 'X']],
          { rpcOn (['R', 'X', NL, 'T', 'X', NL, NL] ++ ['9', NL]) with
            handle := { (rpcOn (['R', 'X', NL, 'T', 'X', NL, NL] ++ ['9', NL])).handle with
              input := ['9', NL] } }) :=
  writeStrVector_readStrVector [['R', 'X'], ['T', 'X']] (rpcOn []) _ ['9', NL]
    (by decide) (by decide) rfl (by decide)

set_option maxRecDepth 100000 in
/-- C8 as stated fails. The one-element sequence holding the empty string
(which has no newline) is written successfully and read back as the empty
sequence, its own terminator line left unread. A sequence holding one string
of 255 letters is read back with 254 letters, and one holding the
one-character string NUL is read back empty. -/
theorem readStrVector_drops_empty_element :
    ((∀ s ∈ [([] : Str)], NL ∉ s) ∧
      0 ≤ (writeStrVector (rpcOn []) [[]]).1 ∧
      readStrVector (rpcOn (emitted (rpcOn []) (writeStrVector (rpcOn []) [[]]).2 ++ ['9', NL]))
        = ([], rpcOn [NL, '9', NL])) ∧
    ((∀ s ∈ [List.replicate 255 'a'], NL ∉ s) ∧
      0 ≤ (writeStrVector (rpcOn []) [List.replicate 255 'a']).1 ∧
      (readStrVector (rpcOn (emitted (rpcOn [])
          (writeStrVector (rpcOn []) [List.replicate 255 'a']).2 ++ ['9', NL]))).1
        = [List.replicate 254 'a']) ∧
    ((∀ s ∈ [[NUL]], NL ∉ s) ∧
      0 ≤ (writeStrVector (rpcOn []) [[NUL]]).1 ∧
      (readStrVector (rpcOn (emitted (rpcOn []) (writeStrVector (rpcOn []) [[NUL]]).2
          ++ ['9', NL]))).1 = []) := by
  decide

/-! ## Theorems: the mapping codec -/

theorem strLt_irrefl (a : Str) : strLt a a = false := by
  induction a with
  | nil => rfl
  | cons c cs ih => simp [strLt, ih]

theorem strLt_asymm (a : Str) : ∀ b : Str, strLt a b = true → strLt b a = false := by
  induction a with
  | nil =>
    intro b _
    cases b <;> rfl
  | cons c cs ih =>
    intro b h
    cases b with
    | nil => simp [strLt] at h
    | cons d ds =>
      unfold strLt at h ⊢
      by_cases h1 : c.toNat < d.toNat
      · have h2 : ¬ d.toNat < c.toNat := by omega
        have h3 : ¬ d.toNat = c.toNat := by omega
        simp [h2, h3]
      · by_cases h4 : c.toNat = d.toNat
        · rw [if_neg h1, if_pos h4] at h
          have h2 : ¬ d.toNat < c.toNat := by omega
          rw [if_neg h2, if_pos h4.symm]
          exact ih ds h
        · simp [h1, h4] at h

/-- Assigning a key above all present keys appends the entry. -/
theorem assign_above (acc : Kwargs) (k v : Str) (h : ∀ e ∈ acc, strLt e.1 k = true) :
    acc.assign k v = acc ++ [(k, v)] := by
  induction acc with
  | nil => rfl
  | cons e acc ih =>
    obtain ⟨k1, v1⟩ := e
    have hlt : strLt k1 k = true := h (k1, v1) (List.mem_cons_self _ _)
    have hne : ¬ k = k1 := by
      intro heq
      rw [heq, strLt_irrefl] at hlt
      exact Bool.false_ne_true hlt
    have hge : ¬ strLt k k1 = true := by
      rw [strLt_asymm k1 k hlt]
      exact Bool.false_ne_true
    unfold Kwargs.assign
    rw [if_neg hne, if_neg hge, ih (fun e he => h e (List.mem_cons_of_mem _ he))]
    rfl

/-- Assigning the entries of a `std::map` in iteration order rebuilds it. -/
theorem foldl_assign_ordered (m : Kwargs) :
    ∀ acc : Kwargs, Kwargs.ordered (acc ++ m) →
      m.foldl (fun a e => a.assign e.1 e.2) acc = acc ++ m := by
  induction m with
  | nil => intro acc _; simp
  | cons e m ih =>
    intro acc hord
    have habove : ∀ x ∈ acc, strLt x.1 e.1 = true := by
      intro x hx
      unfold Kwargs.ordered at hord
      exact (List.pairwise_append.mp hord).2.2 x hx e (List.mem_cons_self _ _)
    rw [List.foldl_cons, assign_above acc e.1 e.2 habove]
    have hord2 : Kwargs.ordered ((acc ++ [(e.1, e.2)]) ++ m) := by
      simpa using hord
    rw [ih _ hord2]
    simp

theorem indexOf_append (c : Char) (k v : Str) (h : c ∉ k) :
    indexOf c (k ++ c :: v) = some k.length := by
  induction k with
  | nil => simp [indexOf]
  | cons x xs ih =>
    have hx : ¬ x = c := fun e => h (by simp [e])
    have hxs : c ∉ xs := fun e => h (List.mem_cons_of_mem _ e)
    simp [indexOf, hx, ih hxs]

/-- What the body of the `readKwargs` loop extracts from a line `key=value`
with a non-empty key free of `=`. -/
theorem kwLine_split (k v : Str) (hk : k ≠ []) (heq : '=' ∉ k)
    (hlen : (kwLine (k, v)).length ≤ 254) :
    ¬ (kwLine (k, v)).length < 2 ∧
      find (kwLine (k, v)) '=' 0 = k.length ∧ k.length > 0 ∧
      substr (kwLine (k, v)) 0 k.length = k ∧
      substr (kwLine (k, v)) (sizeAdd k.length 1) npos = v := by
  have hkl : 0 < k.length := List.length_pos.mpr hk
  simp only [kwLine, List.length_append, List.length_cons] at hlen
  refine ⟨?_, ?_, hkl, ?_, ?_⟩
  · simp only [kwLine, List.length_append, List.length_cons]
    omega
  · simp [find, kwLine, indexOf_append '=' k v heq]
  · simp [substr, kwLine]
  · have h1 : sizeAdd k.length 1 = k.length + 1 := by
      unfold sizeAdd
      exact Nat.mod_eq_of_lt (by omega)
    rw [h1]
    unfold substr kwLine
    have h2 : List.drop (k.length + 1) (k ++ '=' :: v) = v := by
      rw [List.drop_append_eq_append_drop]
      simp
    rw [h2, List.take_of_length_le]
    unfold npos
    omega

theorem readKwargsLoop_wire (m : Kwargs) :
    ∀ (fuel : Nat) (acc : Kwargs) (r : SoapyRPC) (rest : Str),
      m.length < fuel → r.hasError = false →
      (∀ e ∈ m, e.1 ≠ [] ∧ '=' ∉ e.1 ∧ fitsLine (kwLine e)) →
      r.handle.input = wireLines (m.map kwLine) ++ '=' :: NL :: rest →
      readKwargsLoop fuel r acc
        = (m.foldl (fun a e => a.assign e.1 e.2) acc,
            { r with handle := { r.handle with input := rest } }) := by
  induction m with
  | nil =>
    intro fuel acc r rest hf hr _ hin
    cases fuel with
    | zero => simp at hf
    | succ fuel =>
      have hrd := readString_line r ['='] rest hr (by decide) (by decide) (by decide)
        (by simpa [wireLines] using hin)
      unfold readKwargsLoop
      simp [hrd]
  | cons e m ih =>
    intro fuel acc r rest hf hr hm hin
    cases fuel with
    | zero => simp at hf
    | succ fuel =>
      obtain ⟨k, v⟩ := e
      obtain ⟨hk, heq, hnl, hnul, hlen⟩ := hm (k, v) (List.mem_cons_self _ _)
      have hrd := readString_line r (kwLine (k, v))
        (wireLines (m.map kwLine) ++ '=' :: NL :: rest) hr hnl hnul hlen
        (by simpa [wireLines] using hin)
      obtain ⟨s1, s2, s3, s4, s5⟩ := kwLine_split k v hk heq hlen
      unfold readKwargsLoop
      simp only [hrd, s1, s2, s3, s4, s5, if_false, if_true]
      exact ih fuel (acc.assign k v)
        { r with handle :=
            { r.handle with input := wireLines (m.map kwLine) ++ '=' :: NL :: rest } } rest
        (by simpa using hf) hr (fun x hx => hm x (List.mem_cons_of_mem _ hx)) rfl

/-- C6 (as amended): for every mapping `m` (a `std::map`, keys strictly
increasing) whose keys are non-empty and free of `=` and whose lines
`key=value` hold no newline and no NUL and are at most 254 characters long, a
successful `writeKwargs m` followed by `readKwargs` on the emitted bytes
returns exactly `m` and leaves what followed unread. -/
theorem writeKwargs_readKwargs (m : Kwargs) (w r : SoapyRPC) (rest : Str)
    (hord : Kwargs.ordered m)
    (hm : ∀ e ∈ m, e.1 ≠ [] ∧ '=' ∉ e.1 ∧ fitsLine (kwLine e))
    (hw : 0 ≤ (writeKwargs w m).1)
    (hr : r.hasError = false)
    (hin : r.handle.input = emitted w (writeKwargs w m).2 ++ rest) :
    readKwargs r = (m, { r with handle := { r.handle with input := rest } }) := by
  have hmap : (m.map kwLine).map c_str = m.map kwLine := by
    have h : (m.map kwLine).map c_str = (m.map kwLine).map id :=
      List.map_congr_left (fun s hs => by
        obtain ⟨e, he, rfl⟩ := List.mem_map.mp hs
        exact c_str_of_noNul _ (hm e he).2.2.2.1)
    simpa using h
  rw [writeKwargs_success w m hw, hmap, List.append_assoc] at hin
  have hlen : m.length < r.handle.input.length + 1 := by
    have := wireLines_length (m.map kwLine)
    rw [hin, List.length_append]
    simp only [List.length_map] at this
    omega
  unfold readKwargs
  rw [if_neg (by simp [hr])]
  rw [readKwargsLoop_wire m _ [] r rest hlen hr hm (by simpa using hin)]
  rw [foldl_assign_ordered m [] (by simpa using hord)]
  simp

/-- C6 (as amended) at the mapping `k1 -> v1, k2 -> v2`. -/
theorem writeKwargs_readKwargs_witness :
    readKwargs (rpcOn ("k1=v1\nk2=v2\n=\n".toList ++ ['9', NL]))
      = ([(['k', '1'], ['v', '1']), (['k', '2'], ['v', '2'])],
          { rpcOn ("k1=v1\nk2=v2\n=\n".toList ++ ['9', NL]) with
            handle := { (rpcOn ("k1=v1\nk2=v2\n=\n".toList ++ ['9', NL])).handle with
              input := ['9', NL] } }) :=
  writeKwargs_readKwargs [(['k', '1'], ['v', '1']), (['k', '2'], ['v', '2'])] (rpcOn []) _
    ['9', NL] (by decide) (by decide) (by decide) rfl (by decide)

set_option maxRecDepth 100000 in
/-- C6 as stated fails. The mapping with the single entry `"" -> v` has no
`=` in its key and no newline anywhere, it is written successfully and read
back as the empty mapping. The mapping `a -> b...b` (254 letters) is read back
with a value of 252 letters, and the mapping `a -> NUL` with an empty value. -/
theorem readKwargs_drops_empty_key :
    (Kwargs.ordered [([], ['v'])] ∧
      (∀ e ∈ [(([] : Str), ['v'])], '=' ∉ e.1 ∧ NL ∉ e.1 ∧ NL ∉ e.2) ∧
      0 ≤ (writeKwargs (rpcOn []) [([], ['v'])]).1 ∧
      readKwargs (rpcOn (emitted (rpcOn []) (writeKwargs (rpcOn []) [([], ['v'])]).2
          ++ ['9', NL]))
        = ([], rpcOn ['9', NL])) ∧
    ((∀ e ∈ [(['a'], List.replicate 254 'b')], '=' ∉ e.1 ∧ NL ∉ e.1 ∧ NL ∉ e.2) ∧
      0 ≤ (writeKwargs (rpcOn []) [(['a'], List.replicate 254 'b')]).1 ∧
      (readKwargs (rpcOn (emitted (rpcOn [])
          (writeKwargs (rpcOn []) [(['a'], List.replicate 254 'b')]).2 ++ ['9', NL]))).1
        = [(['a'], List.replicate 252 'b')]) ∧
    ((∀ e ∈ [(['a'], [NUL])], '=' ∉ e.1 ∧ NL ∉ e.1 ∧ NL ∉ e.2) ∧
      0 ≤ (writeKwargs (rpcOn []) [(['a'], [NUL])]).1 ∧
      (readKwargs (rpcOn (emitted (rpcOn []) (writeKwargs (rpcOn []) [(['a'], [NUL])]).2
          ++ ['9', NL]))).1 = [(['a'], [])]) := by
  decide

/-- C7 fails on the code: the input lines `noequals`, `offset=0.5`, `=` give
the mapping with two entries, `noequals -> noequals` besides `offset -> 0.5`;
the line without `=` is not skipped. -/
theorem readKwargs_keeps_line_without_equals :
    (readKwargs (rpcOn "noequals\noffset=0.5\n=\n".toList)).1
      = [("noequals".toList, "noequals".toList), ("offset".toList, "0.5".toList)] := by
  decide

/-! ## Theorems: the sticky error flag -/

/-- C10 fails on the code at `readDouble`: on a codec whose error flag is
raised, every operation leaves the codec as it is (flag raised, nothing
consumed, nothing emitted), `readInteger` returns -1, `readString`,
`readKwargs`, `readStrVector` return empty values and every write returns -1,
but `readDouble` returns the number -1, which is not NaN. -/
theorem sticky_error_readDouble (F : FloatConv) (h : FileStream) :
    readInteger { handle := h, hasError := true } = (-1, { handle := h, hasError := true }) ∧
    readString { handle := h, hasError := true } = ([], { handle := h, hasError := true }) ∧
    readKwargs { handle := h, hasError := true } = ([], { handle := h, hasError := true }) ∧
    readStrVector { handle := h, hasError := true } = ([], { handle := h, hasError := true }) ∧
    (∀ i, writeInteger { handle := h, hasError := true } i
      = (-1, { handle := h, hasError := true })) ∧
    (∀ d, writeDouble F { handle := h, hasError := true } d
      = (-1, { handle := h, hasError := true })) ∧
    (∀ s, writeString { handle := h, hasError := true } s
      = (-1, { handle := h, hasError := true })) ∧
    (∀ m, writeKwargs { handle := h, hasError := true } m
      = (-1, { handle := h, hasError := true })) ∧
    (∀ v, writeStrVector { handle := h, hasError := true } v
      = (-1, { handle := h, hasError := true })) ∧
    readDouble F { handle := h, hasError := true }
      = (CDouble.fin (-1), { handle := h, hasError := true }) ∧
    CDouble.fin (-1) ≠ CDouble.nan :=
  ⟨rfl, rfl, rfl, rfl, fun _ => rfl, fun _ => rfl, fun _ => rfl, fun _ => rfl, fun _ => rfl,
    rfl, by decide⟩

/-! ## Theorems: the fuel of the loops is never used up -/

theorem takeLine_pos (n : Nat) (c : Char) (cs : Str) : 0 < (takeLine (n + 1) (c :: cs)).length := by
  unfold takeLine
  split <;> simp

/-- A read that returns a non-empty string has consumed input. -/
theorem readString_consumes (rpc : SoapyRPC) (h : (readString rpc).1 ≠ []) :
    (readString rpc).2.handle.input.length < rpc.handle.input.length := by
  unfold readString at h ⊢
  cases he : rpc.hasError with
  | true => simp [he] at h
  | false =>
    cases hi : rpc.handle.input with
    | nil => simp [he, fgets, hi] at h
    | cons c cs =>
      have hp : 0 < (takeLine (256 - 1) (c :: cs)).length := takeLine_pos 254 c cs
      simp only [he, fgets, hi, List.isEmpty_cons, Bool.false_eq_true, if_false, List.length_drop,
        List.length_cons]
      omega

/-- One more unit of fuel does not change `readKwargsLoop` once the fuel
exceeds the unread input. -/
theorem readKwargsLoop_fuel (fuel : Nat) :
    ∀ (rpc : SoapyRPC) (args : Kwargs), rpc.handle.input.length < fuel →
      readKwargsLoop (fuel + 1) rpc args = readKwargsLoop fuel rpc args := by
  induction fuel with
  | zero => intro rpc args h; omega
  | succ fuel ih =>
    intro rpc args h
    conv_lhs => rw [readKwargsLoop]
    conv_rhs => rw [readKwargsLoop]
    by_cases hs : (readString rpc).1.length < 2
    · simp only [hs, if_true]
    · simp only [hs, if_false]
      have hne : (readString rpc).1 ≠ [] := by
        intro e; rw [e] at hs; simp at hs
      have hlt := readString_consumes rpc hne
      have hf : (readString rpc).2.handle.input.length < fuel := by omega
      rw [ih _ _ hf, ih _ _ hf]

/-- One more unit of fuel does not change `readStrVectorLoop` once the fuel
exceeds the unread input. -/
theorem readStrVectorLoop_fuel (fuel : Nat) :
    ∀ (rpc : SoapyRPC) (list : List Str), rpc.handle.input.length < fuel →
      readStrVectorLoop (fuel + 1) rpc list = readStrVectorLoop fuel rpc list := by
  induction fuel with
  | zero => intro rpc list h; omega
  | succ fuel ih =>
    intro rpc list h
    conv_lhs => rw [readStrVectorLoop]
    conv_rhs => rw [readStrVectorLoop]
    by_cases hs : (readString rpc).1.length = 0
    · simp only [hs, if_true]
    · simp only [hs, if_false]
      have hne : (readString rpc).1 ≠ [] := by
        intro e; rw [e] at hs; simp at hs
      have hlt := readString_consumes rpc hne
      have hf : (readString rpc).2.handle.input.length < fuel := by omega
      rw [ih _ _ hf]

theorem sizeAdd_small (a : Nat) (h : a + 1 < 2 ^ 64) : sizeAdd a 1 = a + 1 := by
  unfold sizeAdd
  exact Nat.mod_eq_of_lt h

theorem indexOf_lt (c : Char) (s : Str) : ∀ i, indexOf c s = some i → i < s.length := by
  induction s with
  | nil => intro i h; simp [indexOf] at h
  | cons x xs ih =>
    intro i h
    unfold indexOf at h
    by_cases hx : x = c
    · simp only [hx, if_true, Option.some.injEq] at h
      simp [← h]
    · simp only [hx, if_false, Option.map_eq_some'] at h
      obtain ⟨j, hj, rfl⟩ := h
      have := ih j hj
      simp only [List.length_cons]
      omega

/-- The result of `find` is `npos` or a position from `pos` on inside the string. -/
theorem find_range (s : Str) (c : Char) (pos : Nat) :
    find s c pos = npos ∨ (pos ≤ find s c pos ∧ find s c pos < s.length) := by
  unfold find
  cases h : indexOf c (s.drop pos) with
  | none => exact Or.inl rfl
  | some i =>
    have hi := indexOf_lt c _ i h
    simp only [List.length_drop] at hi
    dsimp only
    exact Or.inr ⟨by omega, by omega⟩

/-- One more unit of fuel does not change `parseChannelsLoop` once the fuel
exceeds what is left of the string after the cursor. -/
theorem parseChannelsLoop_fuel (chans : Str) (hlen : chans.length < npos) (fuel : Nat) :
    ∀ (nxt : Nat) (channels : List Nat), (nxt = npos ∨ nxt < chans.length) →
      chans.length + 1 ≤ fuel + sizeAdd nxt 1 →
      parseChannelsLoop chans (fuel + 1) nxt channels
        = parseChannelsLoop chans fuel nxt channels := by
  have hnpos : npos = 2 ^ 64 - 1 := rfl
  have hcur : ∀ nxt, (nxt = npos ∨ nxt < chans.length) →
      (nxt = npos ∧ sizeAdd nxt 1 = 0) ∨ (nxt < chans.length ∧ sizeAdd nxt 1 = nxt + 1) := by
    intro nxt h
    rcases h with h | h
    · left; subst h; exact ⟨rfl, by decide⟩
    · right
      exact ⟨h, sizeAdd_small _ (by omega)⟩
  induction fuel with
  | zero =>
    intro nxt channels hn hf
    rcases hcur nxt hn with ⟨-, h⟩ | ⟨h1, h⟩ <;> omega
  | succ fuel ih =>
    intro nxt channels hn hf
    conv_lhs => rw [parseChannelsLoop]
    conv_rhs => rw [parseChannelsLoop]
    by_cases hend : find chans ' ' (sizeAdd nxt 1) = npos
    · simp [hend]
    · have hb : (find chans ' ' (sizeAdd nxt 1) != npos) = true := by simpa using hend
      simp only [hb, if_true]
      rcases find_range chans ' ' (sizeAdd nxt 1) with h | ⟨h1, h2⟩
      · exact absurd h hend
      · apply ih _ _ (Or.inr h2)
        rw [sizeAdd_small _ (by omega)]
        omega

/-- The result of `readKwargs` is that of its loop under any larger fuel. -/
theorem readKwargsLoop_fuel_add (rpc : SoapyRPC) (args : Kwargs) (extra : Nat) :
    readKwargsLoop (rpc.handle.input.length + 1 + extra) rpc args
      = readKwargsLoop (rpc.handle.input.length + 1) rpc args := by
  induction extra with
  | zero => rfl
  | succ extra ih =>
    rw [← ih]
    exact readKwargsLoop_fuel (rpc.handle.input.length + 1 + extra) rpc args (by omega)

/-- The result of `readStrVector` is that of its loop under any larger fuel. -/
theorem readStrVectorLoop_fuel_add (rpc : SoapyRPC) (list : List Str) (extra : Nat) :
    readStrVectorLoop (rpc.handle.input.length + 1 + extra) rpc list
      = readStrVectorLoop (rpc.handle.input.length + 1) rpc list := by
  induction extra with
  | zero => rfl
  | succ extra ih =>
    rw [← ih]
    exact readStrVectorLoop_fuel (rpc.handle.input.length + 1 + extra) rpc list (by omega)

/-- The result of `parseChannels` is that of its loop under any larger fuel. -/
theorem parseChannelsLoop_fuel_add (chans : Str) (hlen : chans.length < npos) (extra : Nat) :
    parseChannelsLoop chans (chans.length + 1 + extra) npos [] = parseChannels chans := by
  induction extra with
  | zero => rfl
  | succ extra ih =>
    rw [← ih]
    exact parseChannelsLoop_fuel chans hlen (chans.length + 1 + extra) npos [] (Or.inl rfl)
      (by omega)

/-! ## Theorems: range replies -/

theorem wireLines_append (a b : List Str) : wireLines (a ++ b) = wireLines a ++ wireLines b := by
  induction a with
  | nil => rfl
  | cons l ls ih => simp [wireLines, ih]

/-- A write on a codec with credit for `n + 1` writes emits its line and
leaves credit for `n`. -/
theorem writeLine_credit (rpc : SoapyRPC) (text : Str) (n : Nat) (h : creditFor (n + 1) rpc) :
    creditFor n (writeLine rpc text).2 ∧
      (writeLine rpc text).2.handle.output = rpc.handle.output ++ text ++ [NL] := by
  obtain ⟨he, hc⟩ := h
  have hne : rpc.handle.credit ≠ some 0 := by
    intro h0
    rw [h0] at hc
    simp at hc
  obtain ⟨-, hout, -, herr⟩ := writeLine_ok rpc text he hne
  refine ⟨⟨herr, ?_⟩, hout⟩
  unfold writeLine fprintfLine
  cases hcr : rpc.handle.credit with
  | none => simp
  | some c =>
    rw [hcr] at hc
    cases c with
    | zero => simp at hc
    | succ c =>
      simp only
      simpa using hc

theorem writeDouble_credit (F : FloatConv) (rpc : SoapyRPC) (d : CDouble) (n : Nat)
    (h : creditFor (n + 1) rpc) :
    creditFor n (writeDouble F rpc d).2 ∧
      (writeDouble F rpc d).2.handle.output = rpc.handle.output ++ F.fmt d ++ [NL] := by
  unfold writeDouble
  rw [if_neg (by simp [h.1])]
  exact writeLine_credit rpc _ n h

theorem writeRange_credit (F : FloatConv) (rpc : SoapyRPC) (r : Range) (n : Nat)
    (h : creditFor (n + 3) rpc) :
    creditFor n (writeRange F rpc r) ∧
      (writeRange F rpc r).handle.output = rpc.handle.output ++ wireLines (rangeLines F r) := by
  obtain ⟨c1, o1⟩ := writeDouble_credit F rpc r.minimum (n + 2) h
  obtain ⟨c2, o2⟩ := writeDouble_credit F _ r.maximum (n + 1) c1
  obtain ⟨c3, o3⟩ := writeDouble_credit F _ r.step n c2
  refine ⟨c3, ?_⟩
  unfold writeRange
  rw [o3, o2, o1]
  simp [rangeLines, wireLines]

theorem foldl_writeRange_credit (F : FloatConv) (list : List Range) :
    ∀ (rpc : SoapyRPC) (n : Nat), creditFor (n + 3 * list.length) rpc →
      creditFor n (list.foldl (writeRange F) rpc) ∧
        (list.foldl (writeRange F) rpc).handle.output
          = rpc.handle.output ++ wireLines (allRangeLines F list) := by
  induction list with
  | nil =>
    intro rpc n h
    exact ⟨by simpa using h, by simp [allRangeLines, wireLines]⟩
  | cons r rs ih =>
    intro rpc n h
    have h1 : creditFor (n + 3 * rs.length + 3) rpc := by
      have e : n + 3 * (r :: rs).length = n + 3 * rs.length + 3 := by
        simp only [List.length_cons]; ring
      rw [e] at h
      exact h
    obtain ⟨c1, o1⟩ := writeRange_credit F rpc r (n + 3 * rs.length) h1
    obtain ⟨c2, o2⟩ := ih (writeRange F rpc r) n c1
    refine ⟨c2, ?_⟩
    rw [List.foldl_cons, o2, o1]
    simp [allRangeLines, wireLines_append]

theorem allRangeLines_length (F : FloatConv) (list : List Range) :
    (allRangeLines F list).length = 3 * list.length := by
  induction list with
  | nil => rfl
  | cons r rs ih =>
    simp only [allRangeLines, List.length_append, ih, rangeLines, List.length_cons,
      List.length_nil]
    ring

/-- The reply of a range-list handler on a codec with enough credit: the
triples of the list, then the terminator triple. -/
theorem writeRangeList_credit (F : FloatConv) (rpc : SoapyRPC) (list : List Range)
    (h : creditFor (3 * (list.length + 1)) rpc) :
    (writeRangeList F rpc list).handle.output
      = rpc.handle.output ++ wireLines (allRangeLines F list ++ rangeLines F sentinelRange) := by
  have h1 : creditFor (3 + 3 * list.length) rpc := by
    have e : 3 * (list.length + 1) = 3 + 3 * list.length := by ring
    rw [e] at h
    exact h
  obtain ⟨c1, o1⟩ := foldl_writeRange_credit F list rpc 3 h1
  obtain ⟨-, o2⟩ := writeRange_credit F _ sentinelRange 0 (by simpa using c1)
  unfold writeRangeList
  rw [← sentinelRange.eq_def] 
  rw [o2, o1, wireLines_append, List.append_assoc]

/-- C11 (as amended): for every range the device returns, the get-gain-range
handler and the get-gain-range-named handler write exactly three double lines,
minimum, maximum and step, and nothing after them (the codec being free of
error after the request was read, with credit for three writes). -/
theorem gainRange_three_lines (D : Device) (F : FloatConv) (conn : ConnectionInfo)
    (rpc : SoapyRPC) (calls : List DevCall) :
    (creditFor 3 (readInteger (readInteger rpc).2).2 →
      (handleGetGainRange D F conn rpc calls).2.1.handle.output
        = rpc.handle.output ++ wireLines (rangeLines F
            (D.getGainRange conn.dev (readInteger rpc).1
              (sizeOfInt (readInteger (readInteger rpc).2).1)))) ∧
    (creditFor 3 (readString (readInteger (readInteger rpc).2).2).2 →
      (handleGetGainRangeNamed D F conn rpc calls).2.1.handle.output
        = rpc.handle.output ++ wireLines (rangeLines F
            (D.getGainRangeNamed conn.dev (readInteger rpc).1
              (sizeOfInt (readInteger (readInteger rpc).2).1)
              (readString (readInteger (readInteger rpc).2).2).1))) := by
  constructor
  · intro h
    unfold handleGetGainRange
    simp only
    rw [(writeRange_credit F _ _ 0 h).2, (readInteger_sink _).1, (readInteger_sink _).1]
  · intro h
    unfold handleGetGainRangeNamed
    simp only
    rw [(writeRange_credit F _ _ 0 h).2, (readString_sink _).1, (readInteger_sink _).1,
      (readInteger_sink _).1]

/-- C11 (as amended) on scenario S4: request `0, 0` and `0, 0, LNA` to the
sample device, whose gain range is 0 to 50 in steps of 1. -/
theorem gainRange_three_lines_witness :
    (handleGetGainRange sampleDevice sampleConv (controlRecord (CDouble.fin 0))
        (rpcOn "0\n0\n".toList) []).2.1.handle.output
      = [] ++ wireLines (rangeLines sampleConv
          (sampleDevice.getGainRange (some 1) (readInteger (rpcOn "0\n0\n".toList)).1
            (sizeOfInt (readInteger (readInteger (rpcOn "0\n0\n".toList)).2).1))) ∧
    (handleGetGainRangeNamed sampleDevice sampleConv (controlRecord (CDouble.fin 0))
        (rpcOn "0\n0\nLNA\n".toList) []).2.1.handle.output
      = [] ++ wireLines (rangeLines sampleConv
          (sampleDevice.getGainRangeNamed (some 1) (readInteger (rpcOn "0\n0\nLNA\n".toList)).1
            (sizeOfInt (readInteger (readInteger (rpcOn "0\n0\nLNA\n".toList)).2).1)
            (readString (readInteger (readInteger (rpcOn "0\n0\nLNA\n".toList)).2).2).1)) :=
  ⟨(gainRange_three_lines sampleDevice sampleConv (controlRecord (CDouble.fin 0))
      (rpcOn "0\n0\n".toList) []).1 (by decide),
   (gainRange_three_lines sampleDevice sampleConv (controlRecord (CDouble.fin 0))
      (rpcOn "0\n0\nLNA\n".toList) []).2 (by decide)⟩

/-- C11 as stated fails: for the gain range 0 to 50 in steps of 1 the
get-gain-range handler (and likewise the named one) writes the three lines
`0.000000`, `50.000000`, `1.000000` and no terminator triple after them. -/
theorem gainRange_no_sentinel :
    (handleGetGainRange sampleDevice sampleConv (controlRecord (CDouble.fin 0))
        (rpcOn "0\n0\n".toList) []).2.1.handle.output
      = "0.000000\n50.000000\n1.000000\n".toList ∧
    (handleGetGainRangeNamed sampleDevice sampleConv (controlRecord (CDouble.fin 0))
        (rpcOn "0\n0\nLNA\n".toList) []).2.1.handle.output
      = "0.000000\n50.000000\n1.000000\n".toList ∧
    "0.000000\n50.000000\n1.000000\n".toList
      ≠ "0.000000\n50.000000\n1.000000\n0.000000\n0.000000\n-1.000000\n".toList := by
  decide

/-- C12: for every list of `k ≥ 0` ranges the device returns, the
frequency-range, frequency-range-named and sample-rate-range handlers write
exactly `3 * (k + 1)` double lines: the `k` triples minimum, maximum, step in
list order, then the triple `0, 0, -1` (the codec being free of error after
the request was read, with credit for these writes). -/
theorem rangeList_sentinel (D : Device) (F : FloatConv) (conn : ConnectionInfo)
    (rpc : SoapyRPC) (calls : List DevCall) :
    (∀ list, list = D.getFrequencyRange conn.dev (readInteger rpc).1
          (sizeOfInt (readInteger (readInteger rpc).2).1) →
      creditFor (3 * (list.length + 1)) (readInteger (readInteger rpc).2).2 →
      (handleGetFrequencyRange D F conn rpc calls).2.1.handle.output
        = rpc.handle.output ++ wireLines (allRangeLines F list ++ rangeLines F sentinelRange) ∧
      (allRangeLines F list ++ rangeLines F sentinelRange).length = 3 * (list.length + 1)) ∧
    (∀ list, list = D.getFrequencyRangeNamed conn.dev (readInteger rpc).1
          (sizeOfInt (readInteger (readInteger rpc).2).1)
          (readString (readInteger (readInteger rpc).2).2).1 →
      creditFor (3 * (list.length + 1)) (readString (readInteger (readInteger rpc).2).2).2 →
      (handleGetFrequencyRangeNamed D F conn rpc calls).2.1.handle.output
        = rpc.handle.output ++ wireLines (allRangeLines F list ++ rangeLines F sentinelRange) ∧
      (allRangeLines F list ++ rangeLines F sentinelRange).length = 3 * (list.length + 1)) ∧
    (∀ list, list = D.getSampleRateRange conn.dev (readInteger rpc).1
          (sizeOfInt (readInteger (readInteger rpc).2).1) →
      creditFor (3 * (list.length + 1)) (readInteger (readInteger rpc).2).2 →
      (handleGetSampleRateRange D F conn rpc calls).2.1.handle.output
        = rpc.handle.output ++ wireLines (allRangeLines F list ++ rangeLines F sentinelRange) ∧
      (allRangeLines F list ++ rangeLines F sentinelRange).length = 3 * (list.length + 1)) := by
  have hlen : ∀ list : List Range,
      (allRangeLines F list ++ rangeLines F sentinelRange).length = 3 * (list.length + 1) := by
    intro list
    rw [List.length_append, allRangeLines_length]
    simp only [rangeLines, List.length_cons, List.length_nil]
    ring
  refine ⟨?_, ?_, ?_⟩
  · intro list hl h
    subst hl
    refine ⟨?_, hlen _⟩
    unfold handleGetFrequencyRange
    simp only
    rw [writeRangeList_credit F _ _ h, (readInteger_sink _).1, (readInteger_sink _).1]
  · intro list hl h
    subst hl
    refine ⟨?_, hlen _⟩
    unfold handleGetFrequencyRangeNamed
    simp only
    rw [writeRangeList_credit F _ _ h, (readString_sink _).1, (readInteger_sink _).1,
      (readInteger_sink _).1]
  · intro list hl h
    subst hl
    refine ⟨?_, hlen _⟩
    unfold handleGetSampleRateRange
    simp only
    rw [writeRangeList_credit F _ _ h, (readInteger_sink _).1, (readInteger_sink _).1]

/-- C12 on the sample device: two frequency ranges give nine lines, the empty
lists of the named frequency ranges and of the sample rate ranges give the
three lines of the terminator. -/
theorem rangeList_sentinel_witness :
    (handleGetFrequencyRange sampleDevice sampleConv (controlRecord (CDouble.fin 0))
        (rpcOn "0\n0\n".toList) []).2.1.handle.output
      = "1.000000\n2.000000\n0.000000\n3.000000\n4.000000\n0.000000\n0.000000\n0.000000\n-1.000000\n".toList ∧
    (handleGetFrequencyRangeNamed sampleDevice sampleConv (controlRecord (CDouble.fin 0))
        (rpcOn "0\n0\nRF\n".toList) []).2.1.handle.output
      = "0.000000\n0.000000\n-1.000000\n".toList ∧
    (handleGetSampleRateRange sampleDevice sampleConv (controlRecord (CDouble.fin 0))
        (rpcOn "0\n0\n".toList) []).2.1.handle.output
      = "0.000000\n0.000000\n-1.000000\n".toList :=
  ⟨((rangeList_sentinel sampleDevice sampleConv (controlRecord (CDouble.fin 0))
      (rpcOn "0\n0\n".toList) []).1 _ rfl (by decide)).1.trans (by decide),
   ((rangeList_sentinel sampleDevice sampleConv (controlRecord (CDouble.fin 0))
      (rpcOn "0\n0\nRF\n".toList) []).2.1 _ rfl (by decide)).1.trans (by decide),
   ((rangeList_sentinel sampleDevice sampleConv (controlRecord (CDouble.fin 0))
      (rpcOn "0\n0\n".toList) []).2.2 _ rfl (by decide)).1.trans (by decide)⟩

/-! ## Theorems: the dispatcher -/

/-- A call code that was read as a non-negative number left the codec free of
error. -/
theorem readInteger_nonneg (rpc : SoapyRPC) (h : 0 ≤ (readInteger rpc).1) :
    (readInteger rpc).2.hasError = false := by
  unfold readInteger at h ⊢
  cases he : rpc.hasError with
  | true => simp [he] at h
  | false =>
    simp only [he, Bool.false_eq_true, if_false] at h ⊢
    have hs : (readString rpc).2.hasError = false ∨ (readString rpc).1 = [] := by
      unfold readString
      simp only [he, Bool.false_eq_true, if_false]
      split
      · left; rfl
      · right; rfl
    rcases hs with hs | hs
    · split <;> exact hs
    · rw [hs] at h
      simp at h

/-- The codes without a `case` label select `default:`. -/
theorem opOfCode_none (call : Int) (hdrop : call ≠ 1000) (hlow : ¬ (10 ≤ call ∧ call ≤ 27))
    (hhigh : ¬ (40 ≤ call ∧ call ≤ 60)) : opOfCode call = none := by
  have key : ∀ c : Int, ((10 ≤ c ∧ c ≤ 27) ∨ (40 ≤ c ∧ c ≤ 60) ∨ c = 1000) → ¬ call = c := by
    intro c hc h
    subst h
    rcases hc with h | h | h
    · exact hlow h
    · exact hhigh h
    · exact hdrop h
  unfold opOfCode
  rw [if_neg (key TCPREMOTE_DROP_RPC (by decide)),
    if_neg (key TCPREMOTE_GET_HARDWARE_KEY (by decide)),
    if_neg (key TCPREMOTE_GET_HARDWARE_INFO (by decide)),
    if_neg (key TCPREMOTE_SET_FRONTEND_MAPPING (by decide)),
    if_neg (key TCPREMOTE_GET_FRONTEND_MAPPING (by decide)),
    if_neg (key TCPREMOTE_GET_NUM_CHANNELS (by decide)),
    if_neg (key TCPREMOTE_GET_CHANNEL_INFO (by decide)),
    if_neg (key TCPREMOTE_GET_FULL_DUPLEX (by decide)),
    if_neg (key TCPREMOTE_GET_STREAM_FORMATS (by decide)),
    if_neg (key TCPREMOTE_GET_STREAM_NATIVE_FORMAT (by decide)),
    if_neg (key TCPREMOTE_GET_STREAM_ARGS_INFO (by decide)),
    if_neg (key TCPREMOTE_SETUP_STREAM (by decide)),
    if_neg (key TCPREMOTE_CLOSE_STREAM (by decide)),
    if_neg (key TCPREMOTE_GET_STREAM_MTU (by decide)),
    if_neg (key TCPREMOTE_ACTIVATE_STREAM (by decide)),
    if_neg (key TCPREMOTE_DEACTIVATE_STREAM (by decide)),
    if_neg (key TCPREMOTE_LIST_ANTENNAS (by decide)),
    if_neg (key TCPREMOTE_SET_ANTENNA (by decide)),
    if_neg (key TCPREMOTE_GET_ANTENNA (by decide)),
    if_neg (key TCPREMOTE_LIST_GAINS (by decide)),
    if_neg (key TCPREMOTE_HAS_GAIN_MODE (by decide)),
    if_neg (key TCPREMOTE_SET_GAIN_MODE (by decide)),
    if_neg (key TCPREMOTE_GET_GAIN_MODE (by decide)),
    if_neg (key TCPREMOTE_SET_GAIN (by decide)),
    if_neg (key TCPREMOTE_SET_GAIN_NAMED (by decide)),
    if_neg (key TCPREMOTE_GET_GAIN (by decide)),
    if_neg (key TCPREMOTE_GET_GAIN_NAMED (by decide)),
    if_neg (key TCPREMOTE_GET_GAIN_RANGE (by decide)),
    if_neg (key TCPREMOTE_GET_GAIN_RANGE_NAMED (by decide)),
    if_neg (key TCPREMOTE_SET_FREQUENCY (by decide)),
    if_neg (key TCPREMOTE_SET_FREQUENCY_NAMED (by decide)),
    if_neg (key TCPREMOTE_GET_FREQUENCY (by decide)),
    if_neg (key TCPREMOTE_GET_FREQUENCY_NAMED (by decide)),
    if_neg (key TCPREMOTE_LIST_FREQUENCIES (by decide)),
    if_neg (key TCPREMOTE_GET_FREQUENCY_RANGE (by decide)),
    if_neg (key TCPREMOTE_GET_FREQUENCY_RANGE_NAMED (by decide)),
    if_neg (key TCPREMOTE_GET_FREQUENCY_ARGS_INFO (by decide)),
    if_neg (key TCPREMOTE_SET_SAMPLE_RATE (by decide)),
    if_neg (key TCPREMOTE_GET_SAMPLE_RATE (by decide)),
    if_neg (key TCPREMOTE_GET_SAMPLE_RATE_RANGE (by decide))]

/-- C13: for every non-negative call code read from a control connection
that is neither 1000 nor in 10-27 nor in 40-60, the dispatcher returns a
negative value, leaves the server state as it is (no device operation is
invoked, the table is unchanged, the codec is kept) and writes the single line
`-1000` (when the stream accepts a write); and a pass of the accept loop that
reaches this request ends the process with exit status 4. -/
theorem handleRPC_unknown_code (D : Device) (F : FloatConv) (T : ThreadLayer)
    (revents : Revents) (fd : Int) (rpc : SoapyRPC) (sv : Server)
    (hrev : revents.errOrHup = false)
    (hfd : sv.s_connections.find fd ≠ none)
    (hcall : 0 ≤ (readInteger rpc).1)
    (hdrop : (readInteger rpc).1 ≠ 1000)
    (hlow : ¬ (10 ≤ (readInteger rpc).1 ∧ (readInteger rpc).1 ≤ 27))
    (hhigh : ¬ (40 ≤ (readInteger rpc).1 ∧ (readInteger rpc).1 ≤ 60)) :
    (∃ out, handleRPC D F T revents fd rpc sv = some out ∧
      out.ret < 0 ∧ out.server = sv ∧ out.rpcDeleted = false ∧
      (rpc.handle.credit ≠ some 0 →
        out.rpc.handle.output = rpc.handle.output ++ ['-', '1', '0', '0', '0', NL])) ∧
    (∀ (env : PassEnv) (fds : List Int) (sys : System) (rpc0 : SoapyRPC),
      env.device = D → env.conv = F → env.threads = T → env.revents fd = revents →
      revents.nonzero = true → sys.server = sv → sys.codecs.lookup fd = some rpc0 →
      receive rpc0 (env.arrived fd) = rpc →
      rpcPass env (fd :: fds) sys = PassResult.exit 4) := by
  obtain ⟨conn, hconn⟩ := Option.ne_none_iff_exists'.mp hfd
  have hop := opOfCode_none _ hdrop hlow hhigh
  have hnn : ¬ (readInteger rpc).1 < 0 := by omega
  have hout : handleRPC D F T revents fd rpc sv
      = some { ret := -1, rpc := (writeInteger (readInteger rpc).2 (-1000)).2,
               rpcDeleted := false, server := sv } := by
    unfold handleRPC
    simp only [hrev, hconn, hnn, Bool.false_eq_true, if_false]
    unfold dispatch
    simp only [hop]
  refine ⟨⟨_, hout, (by show (-1 : Int) < 0; decide), rfl, rfl, ?_⟩, ?_⟩
  · intro hc
    have he := readInteger_nonneg rpc hcall
    rw [← (readInteger_sink rpc).2] at hc
    simp only
    rw [(writeInteger_ok _ (-1000) he hc).1, (readInteger_sink rpc).1]
    simp [fmtInt, Nat.toDigits, Nat.toDigitsCore, Nat.digitChar]
  · intro env fds sys rpc0 hD hF hT hr hnz hs hl hrc
    unfold rpcPass
    rw [hr, hnz, hl, hD, hF, hT, hs]
    simp only [if_true, hrc, hout]
    rw [if_pos (by show (-1 : Int) < 0; decide)]

/-- C13 on scenario S5 and on a code of an undispatched family: the call
codes 99999 and 28 on control socket 5, and the pass of the accept loop in
which the request 99999 arrives. -/
theorem handleRPC_unknown_code_witness :
    (∃ out, handleRPC sampleDevice sampleConv sampleThreads readable 5
        (rpcOn "99999\n".toList) (sampleServer (CDouble.fin 0)) = some out ∧
      out.ret < 0 ∧ out.server = sampleServer (CDouble.fin 0) ∧ out.rpcDeleted = false ∧
      out.rpc.handle.output = [] ++ ['-', '1', '0', '0', '0', NL]) ∧
    (∃ out, handleRPC sampleDevice sampleConv sampleThreads readable 5
        (rpcOn "28\n0\n0\n".toList) (sampleServer (CDouble.fin 0)) = some out ∧
      out.ret < 0 ∧ out.server = sampleServer (CDouble.fin 0) ∧ out.rpcDeleted = false ∧
      out.rpc.handle.output = [] ++ ['-', '1', '0', '0', '0', NL]) ∧
    rpcPass (requestPass 5 "99999\n".toList) [5, 6]
        { server := sampleServer (CDouble.fin 0), codecs := [(5, rpcOn [])] }
      = PassResult.exit 4 := by
  obtain ⟨⟨o1, a1, b1, c1, d1, e1⟩, p1⟩ :=
    handleRPC_unknown_code sampleDevice sampleConv sampleThreads readable 5
      (rpcOn "99999\n".toList) (sampleServer (CDouble.fin 0))
      (by decide) (by decide) (by decide) (by decide) (by decide) (by decide)
  obtain ⟨⟨o2, a2, b2, c2, d2, e2⟩, -⟩ :=
    handleRPC_unknown_code sampleDevice sampleConv sampleThreads readable 5
      (rpcOn "28\n0\n0\n".toList) (sampleServer (CDouble.fin 0))
      (by decide) (by decide) (by decide) (by decide) (by decide) (by decide)
  exact ⟨⟨o1, a1, b1, c1, d1, e1 (by decide)⟩, ⟨o2, a2, b2, c2, d2, e2 (by decide)⟩,
    p1 (requestPass 5 "99999\n".toList) [6]
      { server := sampleServer (CDouble.fin 0), codecs := [(5, rpcOn [])] } (rpcOn [])
      rfl rfl rfl (by decide) (by decide) rfl (by decide) (by decide)⟩

theorem Table.find_erase_self (t : Table) (k : Int) : (t.erase k).find k = none := by
  induction t with
  | nil => rfl
  | cons e t ih =>
    obtain ⟨k1, c1⟩ := e
    unfold Table.find Table.erase at *
    by_cases hk : k1 = k
    · subst hk
      simpa [List.filter] using ih
    · have hb : (k == k1) = false := by simpa using fun h : k = k1 => hk h.symm
      have hf : (k1 != k) = true := by simpa using hk
      simp only [List.filter, hf, List.lookup, hb]
      exact ih

theorem Table.find_erase_ne (t : Table) (k k1 : Int) (h : k1 ≠ k) :
    (t.erase k).find k1 = t.find k1 := by
  induction t with
  | nil => rfl
  | cons e t ih =>
    obtain ⟨k2, c2⟩ := e
    unfold Table.find Table.erase at *
    by_cases hk : k2 = k
    · subst hk
      have hb : (k1 == k2) = false := by simpa using h
      simp only [List.filter, bne_self_eq_false, List.lookup, hb]
      exact ih
    · have hf : (k2 != k) = true := by simpa using hk
      simp only [List.filter, hf, List.lookup]
      split
      · rfl
      · exact ih

/-- C14 (as amended): after the dispatcher handles call code 1000 on control
socket `fd`, the table no longer contains `fd` and holds every other record,
data records bound to the caller's device included, exactly as before; the
device is unmade exactly once (one device operation is added, the `unmake` of
the caller's device), the codec is deleted and no reply is written. -/
theorem handleRPC_drop (D : Device) (F : FloatConv) (T : ThreadLayer) (revents : Revents)
    (fd : Int) (rpc : SoapyRPC) (sv : Server) (conn : ConnectionInfo)
    (hrev : revents.errOrHup = false)
    (hfd : sv.s_connections.find fd = some conn)
    (hcall : (readInteger rpc).1 = 1000) :
    ∃ out, handleRPC D F T revents fd rpc sv = some out ∧
      out.ret = 0 ∧ out.rpcDeleted = true ∧
      out.rpc.handle.output = rpc.handle.output ∧
      out.server.calls = sv.calls ++ [DevCall.invoke DevMethod.unmake none [DevArg.ptr conn.dev]] ∧
      out.server.s_connections.find fd = none ∧
      ∀ k, k ≠ fd → out.server.s_connections.find k = sv.s_connections.find k := by
  have hop : opOfCode 1000 = some RpcOp.drop := by decide
  have hnn : ¬ (readInteger rpc).1 < 0 := by omega
  refine ⟨{ ret := 0, rpc := (readInteger rpc).2, rpcDeleted := true,
            server :=
              { s_connections := sv.s_connections.erase fd,
                calls := sv.calls ++
                  [DevCall.invoke DevMethod.unmake none [DevArg.ptr conn.dev]] } },
    ?_, rfl, rfl, (readInteger_sink rpc).1, rfl, Table.find_erase_self _ _,
    fun k hk => Table.find_erase_ne _ _ _ hk⟩
  unfold handleRPC
  simp only [hrev, hfd, hnn, Bool.false_eq_true, if_false]
  unfold dispatch
  rw [hcall]
  simp only [hop]

/-- C14 (as amended) at the drop of control socket 5 with data socket 6 in
the table. -/
theorem handleRPC_drop_witness :
    ∃ out, handleRPC sampleDevice sampleConv sampleThreads readable 5 (rpcOn "1000\n".toList)
        (sampleServer (CDouble.fin 0)) = some out ∧
      out.ret = 0 ∧ out.rpcDeleted = true ∧
      out.rpc.handle.output = (rpcOn "1000\n".toList).handle.output ∧
      out.server.calls = (sampleServer (CDouble.fin 0)).calls
        ++ [DevCall.invoke DevMethod.unmake none [DevArg.ptr (controlRecord (CDouble.fin 0)).dev]] ∧
      out.server.s_connections.find 5 = none ∧
      ∀ k, k ≠ 5 → out.server.s_connections.find k
        = (sampleServer (CDouble.fin 0)).s_connections.find k :=
  handleRPC_drop sampleDevice sampleConv sampleThreads readable 5 (rpcOn "1000\n".toList)
    (sampleServer (CDouble.fin 0)) (controlRecord (CDouble.fin 0)) (by decide) (by decide)
    (by decide)

/-- C14 as stated fails: a run of `main` in which control socket 5 and data
socket 6 connect, the rate is set, stream setup for data id 6 succeeds (reply
`6`, record 6 bound to device 1 of socket 5) and socket 5 sends the drop code.
Afterwards socket 5 is gone from the table, but data id 6 is still in it,
bound to the unmade device 1. -/
theorem drop_keeps_bound_data_record :
    (main [] goodBoot
        [listenPass (hello 5 "0\n".toList "testdriver\nk1=v1/k2=v2\n".toList),
         listenPass (hello 6 "2\n".toList []),
         requestPass 5 "58\n0\n0\n1000000.0\n".toList,
         requestPass 5 "20\n6\n0\nCS16\n0 1\n=\n".toList,
         requestPass 5 "1000\n".toList]).server.map
      (fun sv => (sv.s_connections.find 5,
        (sv.s_connections.find 6).map (fun r => (r.dev, r.stream)), sv.calls.getLast?))
      = some (none, some (some 1, some 77),
          some (DevCall.invoke DevMethod.unmake none [DevArg.ptr (some 1)])) := by
  decide

/-- C17 (as amended): the dispatcher routes call code 20 to the setup-stream
handler, 58 to the set-sample-rate handler and 48 to the get-gain-range handler
(and 10, 23, 24 to get-hardware-key, activate-stream, deactivate-stream). With
no sample rate set the request lines `20, 6, 0, CS16, "0 1", =` produce the
single reply `-3` and leave the server state as it is; the request lines
`58, 0, 0, 1000000.0` produce the reply `0` and set the remembered rate of the
caller to 1000000 (`%lf` converting the text `1000000.0` to that number). -/
theorem scenario_call_codes (D : Device) (F : FloatConv) (T : ThreadLayer)
    (hscan : F.scan "1000000.0".toList = some (CDouble.fin 1000000)) :
    (∀ fd conn rpc sv,
      dispatch D F T fd conn 20 rpc sv = onServer (handleSetupStream D.toDeviceLayer conn rpc sv) ∧
      dispatch D F T fd conn 58 rpc sv = onCaller sv fd (handleSetSampleRate F conn rpc sv.calls) ∧
      dispatch D F T fd conn 48 rpc sv = passThrough sv (handleGetGainRange D F conn rpc sv.calls) ∧
      dispatch D F T fd conn 10 rpc sv = passThrough sv (handleGetHardwareKey D conn rpc sv.calls) ∧
      dispatch D F T fd conn 23 rpc sv = onServer (handleActivateStream T rpc sv) ∧
      dispatch D F T fd conn 24 rpc sv = onServer (handleDeactivateStream T rpc sv)) ∧
    handleRPC D F T readable 5 (rpcOn "20\n6\n0\nCS16\n0 1\n=\n".toList)
        (sampleServer (CDouble.fin 0))
      = some { ret := 0,
               rpc := { handle := { input := [], output := "-3\n".toList, credit := none },
                        hasError := false },
               rpcDeleted := false, server := sampleServer (CDouble.fin 0) } ∧
    handleRPC D F T readable 5 (rpcOn "58\n0\n0\n1000000.0\n".toList)
        (sampleServer (CDouble.fin 0))
      = some { ret := 0,
               rpc := { handle := { input := [], output := "0\n".toList, credit := none },
                        hasError := false },
               rpcDeleted := false,
               server :=
                 { s_connections := [(5, controlRecord (CDouble.fin 1000000)), (6, dataRecord)],
                   calls := [DevCall.setSampleRate (some 1) 0 0 (CDouble.fin 1000000)] } } := by
  have h20 : opOfCode 20 = some RpcOp.setupStream := by decide
  have h58 : opOfCode 58 = some RpcOp.setSampleRate := by decide
  have h48 : opOfCode 48 = some RpcOp.getGainRange := by decide
  have h10 : opOfCode 10 = some RpcOp.getHardwareKey := by decide
  have h23 : opOfCode 23 = some RpcOp.activateStream := by decide
  have h24 : opOfCode 24 = some RpcOp.deactivateStream := by decide
  refine ⟨?_, ?_, ?_⟩
  · intro fd conn rpc sv
    unfold dispatch
    simp only [h20, h58, h48, h10, h23, h24, and_self]
  · have e1 : readInteger (rpcOn "20\n6\n0\nCS16\n0 1\n=\n".toList)
        = (20, rpcOn "6\n0\nCS16\n0 1\n=\n".toList) := by decide
    have e2 : (sampleServer (CDouble.fin 0)).s_connections.find 5
        = some (controlRecord (CDouble.fin 0)) := by decide
    have e3 : handleSetupStream D.toDeviceLayer (controlRecord (CDouble.fin 0))
        (rpcOn "6\n0\nCS16\n0 1\n=\n".toList) (sampleServer (CDouble.fin 0))
        = (0, { handle := { input := [], output := "-3\n".toList, credit := none },
                hasError := false }, sampleServer (CDouble.fin 0)) := by
      have q : readSetupRequest (rpcOn "6\n0\nCS16\n0 1\n=\n".toList)
          = ({ dataId := 6, direction := 0, fmt := ['C', 'S', '1', '6'],
               chans := ['0', ' ', '1'], args := [] }, rpcOn []) := by decide
      unfold handleSetupStream
      rw [q]
      have f1 : (sampleServer (CDouble.fin 0)).s_connections.find 6 = some dataRecord := by decide
      have f2 : g_frameSizes.lookup ['C', 'S', '1', '6'] = some 4 := by decide
      have f3 : (controlRecord (CDouble.fin 0)).rate.isZero = true := by decide
      have f4 : (writeInteger (rpcOn []) (-3)).2
          = { handle := { input := [], output := "-3\n".toList, credit := none },
              hasError := false } := by decide
      simp only [f1, f2, f3, f4, if_true]
    unfold handleRPC
    simp only [e1, e2, show readable.errOrHup = false from rfl, Bool.false_eq_true, if_false,
      show ¬ ((20 : Int) < 0) by decide]
    unfold dispatch
    simp only [h20, e3, onServer]
  · have e1 : readInteger (rpcOn "58\n0\n0\n1000000.0\n".toList)
        = (58, rpcOn "0\n0\n1000000.0\n".toList) := by decide
    have e2 : (sampleServer (CDouble.fin 0)).s_connections.find 5
        = some (controlRecord (CDouble.fin 0)) := by decide
    have r1 : readInteger (rpcOn "0\n0\n1000000.0\n".toList)
        = (0, rpcOn "0\n1000000.0\n".toList) := by decide
    have r2 : readInteger (rpcOn "0\n1000000.0\n".toList)
        = (0, rpcOn "1000000.0\n".toList) := by decide
    have r3 : readString (rpcOn "1000000.0\n".toList)
        = ("1000000.0".toList, rpcOn []) := by decide
    have r4 : readDouble F (rpcOn "1000000.0\n".toList) = (CDouble.fin 1000000, rpcOn []) := by
      have hs : F.scan ['1', '0', '0', '0', '0', '0', '0', '.', '0']
          = some (CDouble.fin 1000000) := hscan
      unfold readDouble
      rw [r3]
      simp [rpcOn, hs]
    have w : (writeInteger (rpcOn []) 0).2
        = { handle := { input := [], output := "0\n".toList, credit := none },
            hasError := false } := by decide
    have e3 : handleSetSampleRate F (controlRecord (CDouble.fin 0))
        (rpcOn "0\n0\n1000000.0\n".toList) []
        = (0, controlRecord (CDouble.fin 1000000),
            { handle := { input := [], output := "0\n".toList, credit := none },
              hasError := false },
            [DevCall.setSampleRate (some 1) 0 0 (CDouble.fin 1000000)]) := by
      unfold handleSetSampleRate
      simp only [r1, r2, r4, w]
      rfl
    unfold handleRPC
    simp only [e1, e2, show readable.errOrHup = false from rfl, Bool.false_eq_true, if_false,
      show ¬ ((58 : Int) < 0) by decide]
    unfold dispatch
    simp only [h58, onCaller, show (sampleServer (CDouble.fin 0)).calls = [] from rfl, e3]
    rfl

/-- C17 (as amended) with the sample device, conversions and threads. -/
theorem scenario_call_codes_witness :
    handleRPC sampleDevice sampleConv sampleThreads readable 5
        (rpcOn "20\n6\n0\nCS16\n0 1\n=\n".toList) (sampleServer (CDouble.fin 0))
      = some { ret := 0,
               rpc := { handle := { input := [], output := "-3\n".toList, credit := none },
                        hasError := false },
               rpcDeleted := false, server := sampleServer (CDouble.fin 0) } :=
  (scenario_call_codes sampleDevice sampleConv sampleThreads (by decide)).2.1

/-- C17 as stated fails: call code 22 selects get-stream-MTU, 52 get-frequency
and 42 set-gain-mode. The request lines `22, 6, 0, CS16, "0 1", =` are answered
with the MTU line `1024` (the other lines stay unread) and not with `-3`; the
request lines `52, 0, 0, 1000000.0` are answered with the frequency line and
leave the remembered rate of socket 5 at 0. -/
theorem scenario_codes_of_the_spec_misroute :
    opOfCode 22 = some RpcOp.getStreamMTU ∧
    opOfCode 52 = some RpcOp.getFrequency ∧
    opOfCode 42 = some RpcOp.setGainMode ∧
    (handleRPC sampleDevice sampleConv sampleThreads readable 5
        (rpcOn "22\n6\n0\nCS16\n0 1\n=\n".toList) (sampleServer (CDouble.fin 0))).map
        (fun o => (o.rpc.handle.output, o.rpc.handle.input))
      = some ("1024\n".toList, "0\nCS16\n0 1\n=\n".toList) ∧
    "1024\n".toList ≠ "-3\n".toList ∧
    (handleRPC sampleDevice sampleConv sampleThreads readable 5
        (rpcOn "52\n0\n0\n1000000.0\n".toList) (sampleServer (CDouble.fin 0))).map
        (fun o => (o.rpc.handle.output, (o.server.s_connections.find 5).map (fun r => r.rate)))
      = some ("0.000000\n".toList, some (CDouble.fin 0)) := by
  decide

/-! ## Theorems: the listening socket and the exit status -/

theorem Table.find_assign_self (t : Table) (k : Int) (c : ConnectionInfo) :
    (t.assign k c).find k = some c := by
  induction t with
  | nil => simp [Table.assign, Table.find, List.lookup]
  | cons e t ih =>
    obtain ⟨k1, c1⟩ := e
    unfold Table.assign
    by_cases h1 : k = k1
    · subst h1
      simp [Table.find, List.lookup]
    · rw [if_neg h1]
      have hb : (k == k1) = false := by simpa using h1
      by_cases h2 : k < k1
      · rw [if_pos h2]
        simp [Table.find, List.lookup]
      · rw [if_neg h2]
        unfold Table.find at ih ⊢
        simp only [List.lookup, hb]
        exact ih

theorem char_of_toNat (b : Char) (n : Nat) (h : b.toNat = n) : b = Char.ofNat n := by
  rw [← h, Char.ofNat_toNat]

/-- A byte other than `0`, `2`, `3` gives a type other than 0, 2, 3. -/
theorem type_of_other_byte (b : Char) (hbyte : b.toNat < 256) (h0 : b ≠ '0') (h2 : b ≠ '2')
    (h3 : b ≠ '3') :
    intOfChar b - intOfChar '0' ≠ 0 ∧ intOfChar b - intOfChar '0' ≠ 2 ∧
      intOfChar b - intOfChar '0' ≠ 3 := by
  have e0 : intOfChar '0' = 48 := by decide
  have n0 : b.toNat ≠ 48 := fun h => h0 (char_of_toNat b 48 h)
  have n2 : b.toNat ≠ 50 := fun h => h2 (char_of_toNat b 50 h)
  have n3 : b.toNat ≠ 51 := fun h => h3 (char_of_toNat b 51 h)
  rw [e0]
  unfold intOfChar
  split <;> refine ⟨?_, ?_, ?_⟩ <;> omega

/-- C20: classification of a new connection by the first byte `b` read from
it (the listening socket being readable without error, `accept` and the read
having succeeded). `b = '0'` runs the driver load `createRpc`; `b = '2'`
(`b = '3'`) inserts under the socket a record without codec whose stream was
opened for writing (reading) and writes the socket id as a decimal line to the
raw socket, when `fdopen` succeeds; every other byte leaves the table as it
is, inserts nothing, closes the socket and returns 0. -/
theorem handleListen_classifies (revents : Revents) (env : AcceptEnv) (sv : Server) (b : Char)
    (rest : Str)
    (hrev : revents.errOrHup = false) (hin : revents.pollin = true)
    (hsock : 0 ≤ env.sock) (hread : env.firstRead = b :: rest) :
    (b = '0' → handleListen revents env sv = createRpc env sv) ∧
    (b = '2' → ∀ fp, env.fdopenData ['w'] = some fp →
      handleListen revents env sv
        = { ret := 0,
            server := { sv with s_connections :=
              sv.s_connections.assign env.sock { env.junk with rpc := none, netFp := some fp } },
            codec := none, codecDeleted := false, rawOut := fmtInt env.sock ++ [NL],
            sockClosed := false } ∧
      (handleListen revents env sv).server.s_connections.find env.sock
        = some { env.junk with rpc := none, netFp := some fp }) ∧
    (b = '3' → ∀ fp, env.fdopenData ['r'] = some fp →
      handleListen revents env sv
        = { ret := 0,
            server := { sv with s_connections :=
              sv.s_connections.assign env.sock { env.junk with rpc := none, netFp := some fp } },
            codec := none, codecDeleted := false, rawOut := fmtInt env.sock ++ [NL],
            sockClosed := false } ∧
      (handleListen revents env sv).server.s_connections.find env.sock
        = some { env.junk with rpc := none, netFp := some fp }) ∧
    (b.toNat < 256 → b ≠ '0' → b ≠ '2' → b ≠ '3' →
      handleListen revents env sv
        = { ret := 0, server := sv, codec := none, codecDeleted := false, rawOut := [],
            sockClosed := true }) := by
  have hs : ¬ env.sock < 0 := by omega
  have base : handleListen revents env sv
      = (if TCPREMOTE_RPC_LOAD = intOfChar b - intOfChar '0' then createRpc env sv
         else if TCPREMOTE_DATA_SEND = intOfChar b - intOfChar '0'
            ∨ TCPREMOTE_DATA_RECV = intOfChar b - intOfChar '0' then
           createData env (intOfChar b - intOfChar '0') sv
         else
           { ret := 0, server := sv, codec := none, codecDeleted := false, rawOut := [],
             sockClosed := true }) := by
    unfold handleListen
    simp only [hrev, hin, hs, hread, Bool.false_eq_true, if_false, if_true]
  refine ⟨?_, ?_, ?_, ?_⟩
  · intro hb
    subst hb
    rw [base]
    rfl
  · intro hb fp hfp
    subst hb
    have e : handleListen revents env sv
        = { ret := 0,
            server := { sv with s_connections :=
              sv.s_connections.assign env.sock { env.junk with rpc := none, netFp := some fp } },
            codec := none, codecDeleted := false, rawOut := fmtInt env.sock ++ [NL],
            sockClosed := false } := by
      rw [base]
      have t : intOfChar '2' - intOfChar '0' = 2 := by decide
      rw [t]
      have c1 : ¬ TCPREMOTE_RPC_LOAD = 2 := by decide
      have c2 : TCPREMOTE_DATA_SEND = 2 := by decide
      rw [if_neg c1, if_pos (Or.inl c2)]
      unfold createData
      rw [if_pos c2]
      simp only [hfp]
    refine ⟨e, ?_⟩
    rw [e]
    exact Table.find_assign_self _ _ _
  · intro hb fp hfp
    subst hb
    have e : handleListen revents env sv
        = { ret := 0,
            server := { sv with s_connections :=
              sv.s_connections.assign env.sock { env.junk with rpc := none, netFp := some fp } },
            codec := none, codecDeleted := false, rawOut := fmtInt env.sock ++ [NL],
            sockClosed := false } := by
      rw [base]
      have t : intOfChar '3' - intOfChar '0' = 3 := by decide
      rw [t]
      have c1 : ¬ TCPREMOTE_RPC_LOAD = 3 := by decide
      have c2 : TCPREMOTE_DATA_RECV = 3 := by decide
      have c3 : ¬ TCPREMOTE_DATA_SEND = 3 := by decide
      rw [if_neg c1, if_pos (Or.inr c2)]
      unfold createData
      rw [if_neg c3]
      simp only [hfp]
    refine ⟨e, ?_⟩
    rw [e]
    exact Table.find_assign_self _ _ _
  · intro hbyte h0 h2 h3
    obtain ⟨t0, t2, t3⟩ := type_of_other_byte b hbyte h0 h2 h3
    rw [base]
    have c1 : ¬ TCPREMOTE_RPC_LOAD = intOfChar b - intOfChar '0' := fun h => t0 h.symm
    have c2 : ¬ (TCPREMOTE_DATA_SEND = intOfChar b - intOfChar '0'
        ∨ TCPREMOTE_DATA_RECV = intOfChar b - intOfChar '0') := by
      intro h
      rcases h with h | h
      · exact t2 h.symm
      · exact t3 h.symm
    rw [if_neg c1, if_neg c2]

/-- C20 at four new connections on the sample server: first bytes `0`, `2`,
`3` (socket 7) and the unused kind `1`. -/
theorem handleListen_classifies_witness :
    handleListen readable (hello 7 "0\n".toList "testdriver\nk1=v1/k2=v2\n".toList)
        (sampleServer (CDouble.fin 0))
      = createRpc (hello 7 "0\n".toList "testdriver\nk1=v1/k2=v2\n".toList)
          (sampleServer (CDouble.fin 0)) ∧
    (handleListen readable (hello 7 "2\n".toList []) (sampleServer (CDouble.fin 0))).rawOut
      = ['7', NL] ∧
    ((handleListen readable (hello 7 "3\n".toList [])
        (sampleServer (CDouble.fin 0))).server.s_connections.find 7).map (fun r => r.rpc)
      = some none ∧
    handleListen readable (hello 7 "1\n".toList []) (sampleServer (CDouble.fin 0))
      = { ret := 0, server := sampleServer (CDouble.fin 0), codec := none,
          codecDeleted := false, rawOut := [], sockClosed := true } :=
  ⟨(handleListen_classifies readable (hello 7 "0\n".toList "testdriver\nk1=v1/k2=v2\n".toList)
      (sampleServer (CDouble.fin 0)) '0' [NL] rfl rfl (by decide) rfl).1 rfl,
   by
    have h := ((handleListen_classifies readable (hello 7 "2\n".toList [])
      (sampleServer (CDouble.fin 0)) '2' [NL] rfl rfl (by decide) rfl).2.1 rfl 7 rfl).1
    rw [h]
    decide,
   by
    have h := ((handleListen_classifies readable (hello 7 "3\n".toList [])
      (sampleServer (CDouble.fin 0)) '3' [NL] rfl rfl (by decide) rfl).2.2.1 rfl 7 rfl).2
    have h7 : (hello 7 "3\n".toList []).sock = 7 := rfl
    rw [h7] at h
    rw [h]
    rfl,
   (handleListen_classifies readable (hello 7 "1\n".toList [])
      (sampleServer (CDouble.fin 0)) '1' [NL] rfl rfl (by decide) rfl).2.2.2
      (by decide) (by decide) (by decide) (by decide)⟩

/-! ## Theorems: the driver arguments -/

theorem sizeSub_small (a b : Nat) (hb : b ≤ a) (ha : a < 2 ^ 64) : sizeSub a b = a - b := by
  unfold sizeSub
  have h1 : b % 2 ^ 64 = b := Nat.mod_eq_of_lt (by omega)
  rw [h1]
  have h2 : a + 2 ^ 64 - b = (a - b) + 2 ^ 64 := by omega
  rw [h2, Nat.add_mod_right]
  exact Nat.mod_eq_of_lt (by omega)

theorem indexOf_none (c : Char) (s : Str) (h : indexOf c s = none) :
    splitPair c s = (s, []) := by
  induction s with
  | nil => rfl
  | cons x xs ih =>
    unfold indexOf at h
    by_cases hx : x = c
    · simp [hx] at h
    · simp only [hx, if_false, Option.map_eq_none'] at h
      simp [splitPair, hx, ih h]

theorem indexOf_some (c : Char) (s : Str) :
    ∀ i, indexOf c s = some i →
      s.take i ++ c :: s.drop (i + 1) = s ∧
        splitPair c s = (s.take i, splitOn c (s.drop (i + 1))) := by
  induction s with
  | nil => intro i h; simp [indexOf] at h
  | cons x xs ih =>
    intro i h
    unfold indexOf at h
    by_cases hx : x = c
    · simp only [hx, if_true, Option.some.injEq] at h
      subst h
      subst hx
      simp [splitPair, splitOn]
    · simp only [hx, if_false, Option.map_eq_some'] at h
      obtain ⟨j, hj, rfl⟩ := h
      obtain ⟨h1, h2⟩ := ih j hj
      constructor
      · simp only [List.take_succ_cons, List.drop_succ_cons, List.cons_append]
        rw [h1]
      · simp [splitPair, hx, h2]

/-- The body of the loop in the words of the specification. -/
theorem assignArg_eq (kwargs : Kwargs) (arg : Str) (hlen : arg.length < npos) :
    assignArg kwargs arg
      = match segmentEntry arg with
        | some e => kwargs.assign e.1 e.2
        | none => kwargs := by
  have hnpos : npos = 2 ^ 64 - 1 := rfl
  unfold assignArg segmentEntry find
  simp only [List.drop_zero]
  cases h : indexOf '=' arg with
  | none => simp
  | some i =>
    have hi := indexOf_lt '=' arg i h
    have hne : (i != npos) = true := by
      simp only [bne_iff_ne, ne_eq]
      omega
    simp only [Option.map_some', Nat.zero_add]
    rw [if_pos hne, sizeAdd_small i (by omega)]
    have e1 : substr arg 0 i = arg.take i := by simp [substr]
    have e2 : substr arg (i + 1) npos = arg.drop (i + 1) := by
      unfold substr
      rw [List.take_of_length_le]
      simp only [List.length_drop]
      omega
    rw [e1, e2]

/-- The loop of `createRpc` assigns the entries of the segments in order. -/
theorem driverArgsLoop_eq (args : Str) (hlen : args.length < npos) (fuel : Nat) :
    ∀ (pre rest : Str) (nxt : Nat) (kwargs : Kwargs),
      args = pre ++ rest → sizeAdd nxt 1 = pre.length → rest.length < fuel →
      driverArgsLoop args fuel nxt kwargs
        = (splitOn '/' rest).foldl
            (fun m seg => match segmentEntry seg with
              | some e => m.assign e.1 e.2
              | none => m) kwargs := by
  have hnpos : npos = 2 ^ 64 - 1 := rfl
  induction fuel with
  | zero => intro pre rest nxt kwargs _ _ h; omega
  | succ fuel ih =>
    intro pre rest nxt kwargs hargs hcur hfuel
    have hl : args.length = pre.length + rest.length := by rw [hargs, List.length_append]
    have hdrop : args.drop pre.length = rest := by rw [hargs, List.drop_left]
    rw [driverArgsLoop]
    simp only [hcur]
    unfold find
    rw [hdrop]
    cases h : indexOf '/' rest with
    | none =>
      have hs : substr args pre.length (sizeSub npos pre.length) = rest := by
        unfold substr
        rw [hdrop, sizeSub_small _ _ (by omega) (by omega), List.take_of_length_le (by omega)]
      simp only [hs, bne_self_eq_false, Bool.false_eq_true, if_false]
      rw [assignArg_eq _ _ (by omega)]
      simp [splitOn, indexOf_none '/' rest h]
    | some i =>
      have hi := indexOf_lt '/' rest i h
      obtain ⟨h1, h2⟩ := indexOf_some '/' rest i h
      have hs : substr args pre.length (sizeSub (pre.length + i) pre.length) = rest.take i := by
        unfold substr
        rw [hdrop, sizeSub_small _ _ (by omega) (by omega)]
        congr 1
        omega
      have hne : (pre.length + i != npos) = true := by
        simp only [bne_iff_ne, ne_eq]
        omega
      simp only [hs, hne, if_true]
      rw [assignArg_eq _ _ (by rw [List.length_take]; omega)]
      rw [ih (pre ++ rest.take i ++ ['/']) (rest.drop (i + 1)) (pre.length + i) _
        (by rw [hargs, List.append_assoc, List.append_assoc]; congr 1; simpa using h1.symm)
        (by rw [sizeAdd_small _ (by omega)]
            simp only [List.length_append, List.length_take, List.length_singleton]
            omega)
        (by simp only [List.length_drop]; omega)]
      simp [splitOn, h2]

theorem lookup_assign (m : Kwargs) (k v k1 : Str) :
    (m.assign k v).lookup k1 = if k1 = k then some v else m.lookup k1 := by
  induction m with
  | nil =>
    by_cases h : k1 = k
    · simp [Kwargs.assign, List.lookup, h]
    · have hb : (k1 == k) = false := by simpa using h
      simp [Kwargs.assign, List.lookup, h, hb]
  | cons e m ih =>
    obtain ⟨k2, v2⟩ := e
    unfold Kwargs.assign
    by_cases h1 : k = k2
    · subst h1
      rw [if_pos rfl]
      by_cases h : k1 = k
      · simp [List.lookup, h]
      · have hb : (k1 == k) = false := by simpa using h
        simp [List.lookup, h, hb]
    · rw [if_neg h1]
      by_cases h2 : strLt k k2 = true
      · rw [if_pos h2]
        by_cases h : k1 = k
        · simp [List.lookup, h]
        · have hb : (k1 == k) = false := by simpa using h
          simp [List.lookup, h, hb]
      · rw [if_neg h2]
        by_cases h : k1 = k
        · subst h
          have hb : (k1 == k2) = false := by simpa using h1
          simp only [List.lookup, hb, if_true]
          rw [ih, if_pos rfl]
        · by_cases h3 : k1 = k2
          · subst h3
            simp [List.lookup, h]
          · have hb : (k1 == k2) = false := by simpa using h3
            simp only [List.lookup, hb, h, if_false]
            rw [ih, if_neg h]

theorem lookup_snoc (es : List (Str × Str)) (e : Str × Str) (k : Str) :
    (es ++ [e]).lookup k
      = match es.lookup k with
        | some v => some v
        | none => if k = e.1 then some e.2 else none := by
  induction es with
  | nil =>
    obtain ⟨k1, v1⟩ := e
    by_cases h : k = k1
    · simp [List.lookup, h]
    · have hb : (k == k1) = false := by simpa using h
      simp [List.lookup, h, hb]
  | cons x es ih =>
    obtain ⟨k2, v2⟩ := x
    by_cases h : k = k2
    · simp [List.lookup, h]
    · have hb : (k == k2) = false := by simpa using h
      simp only [List.cons_append, List.lookup, hb]
      exact ih

/-- After the entries `es` have been assigned in order, a key has the value
of the last entry with that key, or else the value it had before. -/
theorem lookup_foldl_assign (es : List (Str × Str)) :
    ∀ (m : Kwargs) (k : Str),
      (es.foldl (fun m e => m.assign e.1 e.2) m).lookup k
        = match es.reverse.lookup k with
          | some v => some v
          | none => m.lookup k := by
  induction es with
  | nil => intro m k; simp [List.lookup]
  | cons e es ih =>
    intro m k
    rw [List.foldl_cons, ih, List.reverse_cons, lookup_snoc, lookup_assign]
    cases es.reverse.lookup k with
    | some v => rfl
    | none => by_cases hk : k = e.1 <;> simp [hk]

theorem foldl_filterMap_entries (segs : List Str) :
    ∀ m : Kwargs,
      segs.foldl (fun m seg => match segmentEntry seg with
          | some e => m.assign e.1 e.2
          | none => m) m
        = (segs.filterMap segmentEntry).foldl (fun m e => m.assign e.1 e.2) m := by
  induction segs with
  | nil => intro m; rfl
  | cons s segs ih =>
    intro m
    rw [List.foldl_cons, ih]
    cases h : segmentEntry s with
    | none => simp [List.filterMap_cons, h]
    | some e => simp [List.filterMap_cons, h]

/-- C19 (as amended): for every driver name `d` and arguments string `a`, the
mapping passed to device construction is `driver = d` followed by the
assignments `key = value` of the `/`-separated segments of `a` that contain
`=`, in order (key: text before the first `=`, value: text after it); segments
without `=` contribute nothing. So a key has the value of the last segment with
that key, and `driver` has the value `d` unless a segment has the key
`driver`. -/
theorem driverKwargs_merge (d a : Str) (hlen : a.length < npos) :
    driverKwargs d a = mergedKwargs d a ∧
    ∀ k, (driverKwargs d a).lookup k
      = match (segmentEntries a).reverse.lookup k with
        | some v => some v
        | none => if k = driverKey then some d else none := by
  have h1 : driverKwargs d a = mergedKwargs d a := by
    unfold driverKwargs mergedKwargs segmentEntries
    rw [driverArgsLoop_eq a hlen _ [] a npos _ rfl (by decide) (by omega),
      foldl_filterMap_entries]
    rfl
  refine ⟨h1, fun k => ?_⟩
  rw [h1]
  unfold mergedKwargs
  rw [lookup_foldl_assign]
  by_cases hk : k = driverKey
  · subst hk
    simp [List.lookup]
  · have hb : (k == driverKey) = false := by simpa using hk
    simp [List.lookup, hk, hb]

/-- C19 (as amended) on scenario S1: `testdriver` with `k1=v1/k2=v2` gives
exactly `driver -> testdriver, k1 -> v1, k2 -> v2`. -/
theorem driverKwargs_merge_witness :
    driverKwargs "testdriver".toList "k1=v1/k2=v2".toList
      = [("driver".toList, "testdriver".toList), ("k1".toList, "v1".toList),
         ("k2".toList, "v2".toList)] :=
  (driverKwargs_merge "testdriver".toList "k1=v1/k2=v2".toList (by decide)).1.trans (by decide)

/-- C19 as stated fails: with the arguments `driver=other` the mapping passed
to device construction maps `driver` to `other` and not to the driver name
`testdriver`; with the arguments `k=1/k=2` it holds `k -> 2` and no entry
`k -> 1`. -/
theorem driverKwargs_later_segment_wins :
    (driverKwargs "testdriver".toList "driver=other".toList).lookup "driver".toList
      = some "other".toList ∧
    "other".toList ≠ "testdriver".toList ∧
    driverKwargs "testdriver".toList "k=1/k=2".toList
      = [("driver".toList, "testdriver".toList), ("k".toList, "2".toList)] ∧
    ("k".toList, "1".toList) ∉ driverKwargs "testdriver".toList "k=1/k=2".toList := by
  decide

/-! ## Theorems: the worker-state invariant -/

theorem Table.mem_store (t : Table) (k : Int) (c : ConnectionInfo) (e : Int × ConnectionInfo)
    (h : e ∈ t.store k c) : e ∈ t ∨ e.2 = c := by
  unfold Table.store at h
  obtain ⟨x, hx, rfl⟩ := List.mem_map.mp h
  by_cases hk : x.1 = k
  · right; simp [hk]
  · left; simpa [hk] using hx

theorem Table.mem_assign (t : Table) (k : Int) (c : ConnectionInfo) (e : Int × ConnectionInfo)
    (h : e ∈ t.assign k c) : e ∈ t ∨ e.2 = c := by
  induction t with
  | nil =>
    simp only [Table.assign, List.mem_singleton] at h
    right; rw [h]
  | cons x t ih =>
    obtain ⟨k1, c1⟩ := x
    unfold Table.assign at h
    by_cases h1 : k = k1
    · rw [if_pos h1] at h
      rcases List.mem_cons.mp h with h | h
      · right; rw [h]
      · left; exact List.mem_cons_of_mem _ h
    · rw [if_neg h1] at h
      by_cases h2 : k < k1
      · rw [if_pos h2] at h
        rcases List.mem_cons.mp h with h | h
        · right; rw [h]
        · left; exact h
      · rw [if_neg h2] at h
        rcases List.mem_cons.mp h with h | h
        · left; rw [h]; exact List.mem_cons_self _ _
        · rcases ih h with h | h
          · left; exact List.mem_cons_of_mem _ h
          · right; exact h

theorem Table.mem_erase (t : Table) (k : Int) (e : Int × ConnectionInfo) (h : e ∈ t.erase k) :
    e ∈ t := by
  unfold Table.erase at h
  exact (List.mem_filter.mp h).1

/-- Replacing a record keeps the invariant when the new record satisfies it. -/
theorem workerInvariant_store (t : Table) (k : Int) (c : ConnectionInfo)
    (hinv : workerInvariant t) (hc : c.pid ≠ 0 → c.stream ≠ none ∧ c.dev ≠ none) :
    workerInvariant (t.store k c) := by
  intro e he
  rcases Table.mem_store t k c e he with h | h
  · exact hinv e h
  · rw [h]; exact hc

/-- C15 (as amended): the steps that keep the worker-state invariant (every
record whose `pid` is not 0 has a stream handle and a device). Starting from a
table that satisfies it, the table still satisfies it after a data-connection
setup whose new record starts with `pid` 0; after a stream setup for which the
device returns a stream to a caller with a device, or which names an idle
record; after an activate-stream that names a record with a stream handle and
a device; and after every deactivate-stream, close-stream and drop.
Activate-stream itself does not look at the stream handle or the device. -/
theorem workerInvariant_steps (Dv : Device) (F : FloatConv) (T : ThreadLayer)
    (env : AcceptEnv) (type : Int) (conn : ConnectionInfo) (fd : Int) (rpc : SoapyRPC)
    (sv : Server) (hinv : workerInvariant sv.s_connections) :
    (env.junk.pid = 0 → workerInvariant (createData env type sv).server.s_connections) ∧
    ((∀ data, sv.s_connections.find (readSetupRequest rpc).1.dataId = some data →
        data.pid = 0 ∨
        (conn.dev ≠ none ∧
          Dv.setupStream conn.dev (readSetupRequest rpc).1.direction (readSetupRequest rpc).1.fmt
            (parseChannels (readSetupRequest rpc).1.chans) (readSetupRequest rpc).1.args
            ≠ none)) →
      workerInvariant (handleSetupStream Dv.toDeviceLayer conn rpc sv).2.2.s_connections) ∧
    ((∀ data, sv.s_connections.find (readInteger rpc).1 = some data →
        data.stream ≠ none ∧ data.dev ≠ none) →
      workerInvariant (handleActivateStream T rpc sv).2.2.s_connections) ∧
    workerInvariant (handleDeactivateStream T rpc sv).2.2.s_connections ∧
    workerInvariant (handleCloseStream rpc sv).2.2.s_connections ∧
    workerInvariant (dispatch Dv F T fd conn TCPREMOTE_DROP_RPC rpc sv).server.s_connections := by
  refine ⟨?_, ?_, ?_, ?_, ?_, ?_⟩
  · intro hj
    unfold createData
    split
    · exact hinv
    · intro e he
      rcases Table.mem_assign _ _ _ e he with h | h
      · exact hinv e h
      · rw [h]
        intro hp
        exact absurd hj hp
  · intro hc
    unfold handleSetupStream
    simp only
    split
    · exact hinv
    · rename_i data hdata
      split
      · exact hinv
      · split
        · exact hinv
        · apply workerInvariant_store _ _ _ hinv
          intro hp
          rcases hc data hdata with h | ⟨h1, h2⟩
          · exact absurd h hp
          · exact ⟨h2, h1⟩
  · intro hc
    unfold handleActivateStream
    simp only
    split
    · exact hinv
    · rename_i data hdata
      split
      · exact workerInvariant_store _ _ _ hinv (fun _ => hc data hdata)
      · exact workerInvariant_store _ _ _ hinv (fun _ => hc data hdata)
  · unfold handleDeactivateStream
    simp only
    split
    · exact hinv
    · split
      · exact workerInvariant_store _ _ _ hinv (fun hp => absurd rfl hp)
      · exact workerInvariant_store _ _ _ hinv (fun hp => absurd rfl hp)
  · unfold handleCloseStream
    simp only
    split
    · exact hinv
    · exact hinv
  · have hop : opOfCode TCPREMOTE_DROP_RPC = some RpcOp.drop := by decide
    unfold dispatch
    simp only [hop]
    intro e he
    exact hinv e (Table.mem_erase _ _ e he)

/-- C15 (as amended) on scenario S3: after a successful stream setup for data
id 6 the activate-stream for 6 keeps the invariant. -/
theorem workerInvariant_steps_witness :
    workerInvariant (handleActivateStream sampleThreads (rpcOn "6\n".toList)
      (handleSetupStream sampleDevice.toDeviceLayer (controlRecord (CDouble.fin 1000000))
        (rpcOn "6\n0\nCS16\n0 1\n=\n".toList)
        (sampleServer (CDouble.fin 1000000))).2.2).2.2.s_connections :=
  (workerInvariant_steps sampleDevice sampleConv sampleThreads (hello 6 [] []) 2
    (controlRecord (CDouble.fin 1000000)) 5 (rpcOn "6\n".toList)
    (handleSetupStream sampleDevice.toDeviceLayer (controlRecord (CDouble.fin 1000000))
      (rpcOn "6\n0\nCS16\n0 1\n=\n".toList) (sampleServer (CDouble.fin 1000000))).2.2
    (by decide)).2.2.1 (by decide)

/-- C15 as stated fails. In the first run of `main` control socket 5 and data
socket 6 connect and socket 5 sends activate-stream for 6 without any stream
setup: the reply is `0` and record 6 has `pid` 9 with no stream handle and no
device. In the second run the stream is set up and activated, then a second
stream setup for 6 gets no stream from the device: record 6 keeps `pid` 9 and
has no stream handle. -/
theorem activate_without_setup_runs :
    ((main [] goodBoot
        [listenPass (hello 5 "0\n".toList "testdriver\nk1=v1/k2=v2\n".toList),
         listenPass (hello 6 "2\n".toList []),
         requestPass 5 "23\n6\n".toList]).server.map
      (fun sv => (sv.s_connections.find 6).map (fun r => (r.pid, r.stream, r.dev)))
      = some (some (9, none, none))) ∧
    ((main [] goodBoot
        [listenPass (hello 5 "0\n".toList "testdriver\nk1=v1/k2=v2\n".toList),
         listenPass (hello 6 "2\n".toList []),
         requestPass 5 "23\n6\n".toList]).server.map
      (fun sv => decide (workerInvariant sv.s_connections)) = some false) ∧
    ((main [] goodBoot
        [listenPass (hello 5 "0\n".toList "testdriver\nk1=v1/k2=v2\n".toList),
         listenPass (hello 6 "2\n".toList []),
         requestPass 5 "58\n0\n0\n1000000.0\n".toList,
         requestPass 5 "20\n6\n0\nCS16\n0 1\n=\n".toList,
         requestPass 5 "23\n6\n".toList,
         { requestPass 5 "20\n6\n0\nCS16\n0 1\n=\n".toList with
           device := sampleRefusingDevice }]).server.map
      (fun sv => (sv.s_connections.find 6).map (fun r => (r.pid, r.stream, r.dev)))
      = some (some (9, none, some 1))) ∧
    ((main [] goodBoot
        [listenPass (hello 5 "0\n".toList "testdriver\nk1=v1/k2=v2\n".toList),
         listenPass (hello 6 "2\n".toList []),
         requestPass 5 "58\n0\n0\n1000000.0\n".toList,
         requestPass 5 "20\n6\n0\nCS16\n0 1\n=\n".toList,
         requestPass 5 "23\n6\n".toList,
         { requestPass 5 "20\n6\n0\nCS16\n0 1\n=\n".toList with
           device := sampleRefusingDevice }]).server.map
      (fun sv => decide (workerInvariant sv.s_connections)) = some false) := by
  decide

/-! ## Theorems: which steps bind a data record -/

theorem digitChar_ne_minus (n : Nat) (h : n < 10) : Nat.digitChar n ≠ '-' := by
  interval_cases n <;> decide

theorem toDigitsCore_no_minus (fuel : Nat) :
    ∀ (n : Nat) (acc : List Char), (∀ c ∈ acc, c ≠ '-') →
      ∀ c ∈ Nat.toDigitsCore 10 fuel n acc, c ≠ '-' := by
  induction fuel with
  | zero => intro n acc hacc; simpa [Nat.toDigitsCore] using hacc
  | succ fuel ih =>
    intro n acc hacc
    have hd : Nat.digitChar (n % 10) ≠ '-' := digitChar_ne_minus _ (Nat.mod_lt _ (by decide))
    have hacc1 : ∀ c ∈ Nat.digitChar (n % 10) :: acc, c ≠ '-' := by
      intro c hc
      rcases List.mem_cons.mp hc with h | h
      · rw [h]; exact hd
      · exact hacc c h
    unfold Nat.toDigitsCore
    simp only
    split
    · exact hacc1
    · exact ih _ _ hacc1

theorem fmtInt_nonneg_no_minus (i : Int) (h : 0 ≤ i) : ∀ c ∈ fmtInt i, c ≠ '-' := by
  unfold fmtInt
  rw [if_neg (by omega)]
  exact toDigitsCore_no_minus _ _ _ (by simp)

theorem fmtInt_neg_head (i : Int) (h : i < 0) : ∃ ds, fmtInt i = '-' :: ds := by
  unfold fmtInt
  rw [if_pos h]
  exact ⟨_, rfl⟩

theorem writeInteger_output (rpc : SoapyRPC) (i : Int) :
    (writeInteger rpc i).2.handle.output = rpc.handle.output ∨
      (writeInteger rpc i).2.handle.output = rpc.handle.output ++ (fmtInt i ++ [NL]) := by
  unfold writeInteger
  split
  · exact Or.inl rfl
  · unfold writeLine fprintfLine
    simp only
    split
    · exact Or.inl rfl
    · right; simp
    · right; simp

theorem Table.find_mem (t : Table) (k : Int) (r : ConnectionInfo) (h : t.find k = some r) :
    (k, r) ∈ t := by
  induction t with
  | nil => simp [Table.find, List.lookup] at h
  | cons e t ih =>
    obtain ⟨k1, c1⟩ := e
    unfold Table.find at h ih
    by_cases hk : k = k1
    · subst hk
      simp [List.lookup] at h
      simp [h]
    · have hb : (k == k1) = false := by simpa using hk
      simp only [List.lookup, hb] at h
      exact List.mem_cons_of_mem _ (ih h)

theorem Table.find_store_ne (t : Table) (k k1 : Int) (c : ConnectionInfo) (h : k1 ≠ k) :
    (t.store k c).find k1 = t.find k1 := by
  induction t with
  | nil => rfl
  | cons e t ih =>
    obtain ⟨k2, c2⟩ := e
    unfold Table.find Table.store at *
    rw [List.map_cons]
    by_cases hk : k2 = k
    · rw [if_pos hk]
      have hb : (k1 == k2) = false := by simpa [hk] using h
      simp only [List.lookup, hb]
      exact ih
    · rw [if_neg hk]
      simp only [List.lookup]
      split
      · rfl
      · exact ih

theorem sameBinding_refl (t : Table) : sameBinding t t :=
  fun _ => rfl

theorem sameBinding_store (t : Table) (k : Int) (r0 c : ConnectionInfo)
    (h0 : t.find k = some r0) (hb : bindingOf c = bindingOf r0) :
    sameBinding t (t.store k c) := by
  intro k1
  by_cases hk : k1 = k
  · subst hk
    rw [Table.find_store t k1 c (by rw [h0]; simp), h0]
    simp [hb]
  · rw [Table.find_store_ne t k k1 c hk]

theorem handleActivateStream_frame (T : ThreadLayer) (rpc : SoapyRPC) (sv : Server) :
    sameBinding sv.s_connections (handleActivateStream T rpc sv).2.2.s_connections := by
  unfold handleActivateStream
  simp only
  split
  · exact sameBinding_refl _
  · rename_i data hdata
    split
    · exact sameBinding_store _ _ data _ hdata rfl
    · exact sameBinding_store _ _ data _ hdata rfl

theorem handleDeactivateStream_frame (T : ThreadLayer) (rpc : SoapyRPC) (sv : Server) :
    sameBinding sv.s_connections (handleDeactivateStream T rpc sv).2.2.s_connections := by
  unfold handleDeactivateStream
  simp only
  split
  · exact sameBinding_refl _
  · rename_i data hdata
    split
    · exact sameBinding_store _ _ data _ hdata rfl
    · exact sameBinding_store _ _ data _ hdata rfl

theorem handleCloseStream_frame (rpc : SoapyRPC) (sv : Server) :
    sameBinding sv.s_connections (handleCloseStream rpc sv).2.2.s_connections := by
  unfold handleCloseStream
  simp only
  split <;> exact sameBinding_refl _

theorem handleGetStreamMTU_frame (D : Device) (conn : ConnectionInfo) (rpc : SoapyRPC)
    (sv : Server) :
    sameBinding sv.s_connections (handleGetStreamMTU D conn rpc sv).2.2.s_connections := by
  unfold handleGetStreamMTU
  simp only
  split <;> exact sameBinding_refl _

/-- Every request other than stream setup and drop keeps the keys of the
table and the binding of every record. -/
theorem dispatch_frame (D : Device) (F : FloatConv) (T : ThreadLayer) (fd : Int)
    (conn : ConnectionInfo) (call : Int) (rpc : SoapyRPC) (sv : Server)
    (hconn : sv.s_connections.find fd = some conn)
    (hop : opOfCode call ≠ some RpcOp.setupStream)
    (hdrop : opOfCode call ≠ some RpcOp.drop) :
    sameBinding sv.s_connections (dispatch D F T fd conn call rpc sv).server.s_connections := by
  unfold dispatch
  split
  all_goals first
    | exact sameBinding_refl _
    | exact absurd (by assumption) hop
    | exact absurd (by assumption) hdrop
    | exact handleActivateStream_frame _ _ _
    | exact handleDeactivateStream_frame _ _ _
    | exact handleCloseStream_frame _ _
    | exact handleGetStreamMTU_frame _ _ _ _
    | exact sameBinding_store _ _ conn _ hconn rfl

/-- The drop leaves every record but the caller's own as it was. -/
theorem dispatch_drop_frame (D : Device) (F : FloatConv) (T : ThreadLayer) (fd : Int)
    (conn : ConnectionInfo) (call : Int) (rpc : SoapyRPC) (sv : Server)
    (hdrop : opOfCode call = some RpcOp.drop) (k : Int) (hk : k ≠ fd) :
    (dispatch D F T fd conn call rpc sv).server.s_connections.find k
      = sv.s_connections.find k := by
  unfold dispatch
  simp only [hdrop]
  exact Table.find_erase_ne _ _ _ hk

/-- A stream setup writes to no record but the one its data id names. -/
theorem handleSetupStream_others (D : DeviceLayer) (conn : ConnectionInfo) (rpc : SoapyRPC)
    (sv : Server) (k : Int) (hk : k ≠ (readSetupRequest rpc).1.dataId) :
    (handleSetupStream D conn rpc sv).2.2.s_connections.find k = sv.s_connections.find k := by
  unfold handleSetupStream
  simp only
  split
  · rfl
  · split
    · rfl
    · split
      · rfl
      · exact Table.find_store_ne _ _ _ _ hk

/-- A stream setup adds no key to the table and removes none. -/
theorem handleSetupStream_keys (D : DeviceLayer) (conn : ConnectionInfo) (rpc : SoapyRPC)
    (sv : Server) (k : Int) :
    ((handleSetupStream D conn rpc sv).2.2.s_connections.find k).isSome
      = (sv.s_connections.find k).isSome := by
  unfold handleSetupStream
  simp only
  split
  · rfl
  · rename_i data hdata
    split
    · rfl
    · split
      · rfl
      · by_cases hk : k = (readSetupRequest rpc).1.dataId
        · subst hk
          rw [Table.find_store _ _ _ (by rw [hdata]; simp), hdata]
          rfl
        · rw [Table.find_store_ne _ _ _ _ hk]

theorem handleSetupStream_reply_cases (D : DeviceLayer) (conn : ConnectionInfo) (rpc : SoapyRPC)
    (sv : Server) (hkeys : ∀ e ∈ sv.s_connections, 0 ≤ e.1) :
    (handleSetupStream D conn rpc sv).2.2 = sv ∨
      emitted rpc (handleSetupStream D conn rpc sv).2.1 = [] ∨
      (∃ d : Int, 0 ≤ d ∧
        emitted rpc (handleSetupStream D conn rpc sv).2.1 = fmtInt d ++ [NL]) ∨
      (∃ rest, emitted rpc (handleSetupStream D conn rpc sv).2.1 = '-' :: '4' :: rest) := by
  have hq := (readSetupRequest_sink rpc).1
  have h4 : fmtInt (-4) = ['-', '4'] := by decide
  unfold handleSetupStream
  simp only
  split
  · exact Or.inl rfl
  · rename_i data hdata
    have hd : 0 ≤ (readSetupRequest rpc).1.dataId := hkeys _ (Table.find_mem _ _ _ hdata)
    split
    · exact Or.inl rfl
    · split
      · exact Or.inl rfl
      · right
        generalize D.setupStream conn.dev (readSetupRequest rpc).1.direction
          (readSetupRequest rpc).1.fmt (parseChannels (readSetupRequest rpc).1.chans)
          (readSetupRequest rpc).1.args = st
        cases st with
        | some s =>
          simp only [Option.isNone_some, Bool.false_eq_true, if_false]
          rcases writeInteger_output (readSetupRequest rpc).2
              (readSetupRequest rpc).1.dataId with h | h
          · left
            apply emitted_of_output
            rw [h, hq, List.append_nil]
          · right; left
            refine ⟨_, hd, ?_⟩
            apply emitted_of_output
            rw [h, hq]
        | none =>
          simp only [Option.isNone_none, if_true]
          rcases writeInteger_output (readSetupRequest rpc).2 (-4) with h1 | h1 <;>
            rcases writeInteger_output (writeInteger (readSetupRequest rpc).2 (-4)).2
              (readSetupRequest rpc).1.dataId with h2 | h2
          · left
            apply emitted_of_output
            rw [h2, h1, hq, List.append_nil]
          · right; left
            refine ⟨_, hd, ?_⟩
            apply emitted_of_output
            rw [h2, h1, hq]
          · right; right
            refine ⟨[NL], ?_⟩
            apply emitted_of_output
            rw [h2, h1, hq, h4]
            rfl
          · right; right
            refine ⟨NL :: (fmtInt (readSetupRequest rpc).1.dataId ++ [NL]), ?_⟩
            apply emitted_of_output
            rw [h2, h1, hq, h4]
            simp

/-- C16 (as amended): a record of the table changes its binding (device,
direction, stream handle) only through a stream setup that names it and passed
validation. A stream setup whose reply is the single line `-1`, `-2` or `-3`
leaves the server state, and with it every record of the table, unchanged (the
keys of the table are sockets, so not negative). Every stream setup, whatever
its reply, leaves every record but the one its data id names exactly as it
was, adds no key and removes none. The dispatcher runs the stream setup
handler for the stream setup code; for every other call code `handleRPC` keeps
the keys of the table and the device, direction and stream handle of every
record, the one exception being the caller's own record, which the drop
removes. -/
theorem setupStream_binding_frame (Dv : Device) (F : FloatConv) (T : ThreadLayer)
    (revents : Revents) (fd : Int) (conn : ConnectionInfo) (rpc : SoapyRPC) (sv : Server) :
    (∀ c : Int, c = -1 ∨ c = -2 ∨ c = -3 →
      (∀ e ∈ sv.s_connections, 0 ≤ e.1) →
      emitted rpc (handleSetupStream Dv.toDeviceLayer conn rpc sv).2.1 = fmtInt c ++ [NL] →
      (handleSetupStream Dv.toDeviceLayer conn rpc sv).2.2 = sv) ∧
    (∀ k, k ≠ (readSetupRequest rpc).1.dataId →
      (handleSetupStream Dv.toDeviceLayer conn rpc sv).2.2.s_connections.find k
        = sv.s_connections.find k) ∧
    (∀ k, ((handleSetupStream Dv.toDeviceLayer conn rpc sv).2.2.s_connections.find k).isSome
        = (sv.s_connections.find k).isSome) ∧
    (∀ call, opOfCode call = some RpcOp.setupStream →
      (dispatch Dv F T fd conn call rpc sv).server
        = (handleSetupStream Dv.toDeviceLayer conn rpc sv).2.2) ∧
    (∀ out, handleRPC Dv F T revents fd rpc sv = some out →
      opOfCode (readInteger rpc).1 ≠ some RpcOp.setupStream →
      ∀ k, (opOfCode (readInteger rpc).1 = some RpcOp.drop → k ≠ fd) →
        (out.server.s_connections.find k).map bindingOf
          = (sv.s_connections.find k).map bindingOf) := by
  refine ⟨?_, ?_, ?_, ?_, ?_⟩
  · intro c hc hkeys hem
    have hneg : c < 0 := by omega
    obtain ⟨ds, hds⟩ := fmtInt_neg_head c hneg
    have h1 : fmtInt (-1) = ['-', '1'] := by decide
    have h2 : fmtInt (-2) = ['-', '2'] := by decide
    have h3 : fmtInt (-3) = ['-', '3'] := by decide
    rcases handleSetupStream_reply_cases Dv.toDeviceLayer conn rpc sv hkeys with
      h | h | ⟨d, hd, h⟩ | ⟨rest, h⟩
    · exact h
    · rw [h, hds] at hem
      simp at hem
    · exfalso
      rw [h, hds] at hem
      have hm : '-' ∈ fmtInt d ++ [NL] := by rw [hem]; simp
      rcases List.mem_append.mp hm with hm | hm
      · exact fmtInt_nonneg_no_minus d hd _ hm rfl
      · simp [NL] at hm
    · exfalso
      rw [h] at hem
      rcases hc with hc | hc | hc <;> subst hc
      · rw [h1] at hem; simp at hem
      · rw [h2] at hem; simp at hem
      · rw [h3] at hem; simp at hem
  · intro k hk
    exact handleSetupStream_others _ conn rpc sv k hk
  · intro k
    exact handleSetupStream_keys _ conn rpc sv k
  · intro call hcall
    unfold dispatch
    simp only [hcall]
    rfl
  · intro out h hop k hk
    unfold handleRPC at h
    split at h
    · cases h
      rfl
    · split at h
      · cases h
      · rename_i c hconn
        simp only at h
        split at h
        · cases h
          rfl
        · cases h
          by_cases hd : opOfCode (readInteger rpc).1 = some RpcOp.drop
          · rw [dispatch_drop_frame Dv F T fd c _ _ sv hd k (hk hd)]
          · exact dispatch_frame Dv F T fd c _ _ sv hconn hop hd k

/-- C16 (as amended) on four requests to the server with control socket 5 and
data socket 6: a stream setup for 6 from a caller whose rate is not set
replies `-3` and leaves the server as it was; a stream setup for 6 that
succeeds leaves record 5 as it was; an activate-stream for 6 leaves the
binding of record 6 as it was; a drop on 5 leaves the binding of record 6 as it
was. -/
theorem setupStream_binding_frame_witness :
    (handleSetupStream sampleDevice.toDeviceLayer (controlRecord (CDouble.fin 0))
        (rpcOn "6\n0\nCS16\n0 1\n=\n".toList) (sampleServer (CDouble.fin 0))).2.2
      = sampleServer (CDouble.fin 0) ∧
    (handleSetupStream sampleDevice.toDeviceLayer (controlRecord (CDouble.fin 1000000))
        (rpcOn "6\n0\nCS16\n0 1\n=\n".toList)
        (sampleServer (CDouble.fin 1000000))).2.2.s_connections.find 5
      = (sampleServer (CDouble.fin 1000000)).s_connections.find 5 ∧
    ((dispatch sampleDevice sampleConv sampleThreads 5 (controlRecord (CDouble.fin 0)) 23
        (readInteger (rpcOn "23\n6\n".toList)).2
        (sampleServer (CDouble.fin 0))).server.s_connections.find 6).map bindingOf
      = ((sampleServer (CDouble.fin 0)).s_connections.find 6).map bindingOf ∧
    ((dispatch sampleDevice sampleConv sampleThreads 5 (controlRecord (CDouble.fin 0)) 1000
        (readInteger (rpcOn "1000\n".toList)).2
        (sampleServer (CDouble.fin 0))).server.s_connections.find 6).map bindingOf
      = ((sampleServer (CDouble.fin 0)).s_connections.find 6).map bindingOf :=
  ⟨(setupStream_binding_frame sampleDevice sampleConv sampleThreads readable 5
      (controlRecord (CDouble.fin 0)) (rpcOn "6\n0\nCS16\n0 1\n=\n".toList)
      (sampleServer (CDouble.fin 0))).1 (-3) (Or.inr (Or.inr rfl)) (by decide) (by decide),
   (setupStream_binding_frame sampleDevice sampleConv sampleThreads readable 5
      (controlRecord (CDouble.fin 1000000)) (rpcOn "6\n0\nCS16\n0 1\n=\n".toList)
      (sampleServer (CDouble.fin 1000000))).2.1 5 (by decide),
   (setupStream_binding_frame sampleDevice sampleConv sampleThreads readable 5
      (controlRecord (CDouble.fin 0)) (rpcOn "23\n6\n".toList)
      (sampleServer (CDouble.fin 0))).2.2.2.2 _ (by decide) (by decide) 6 (by decide),
   (setupStream_binding_frame sampleDevice sampleConv sampleThreads readable 5
      (controlRecord (CDouble.fin 0)) (rpcOn "1000\n".toList)
      (sampleServer (CDouble.fin 0))).2.2.2.2 _ (by decide) (by decide) 6 (by decide)⟩

/-- C16 as stated fails: the device returns no stream for the stream setup of
data id 6 sent on control socket 5 (rate 1000000 set). The reply is `-4`
followed by `6`, and in the table record 6, which had no device and direction
0 before, now has the caller's device 1 and the requested direction 1. -/
theorem failed_setup_binds_record :
    (handleSetupStream sampleRefusingDevice.toDeviceLayer (controlRecord (CDouble.fin 1000000))
        (rpcOn "6\n1\nCS16\n0 1\n=\n".toList)
        (sampleServer (CDouble.fin 1000000))).2.1.handle.output = "-4\n6\n".toList ∧
    ((sampleServer (CDouble.fin 1000000)).s_connections.find 6).map
        (fun r => (r.dev, r.direction, r.stream)) = some (none, 0, none) ∧
    ((handleSetupStream sampleRefusingDevice.toDeviceLayer (controlRecord (CDouble.fin 1000000))
        (rpcOn "6\n1\nCS16\n0 1\n=\n".toList)
        (sampleServer (CDouble.fin 1000000))).2.2.s_connections.find 6).map
        (fun r => (r.dev, r.direction, r.stream)) = some (some 1, 1, none) := by
  decide

/-! ## Theorems: the channel list -/

theorem dropWhile_isspace_c_str (s : Str) :
    (c_str s).dropWhile isspace = c_str (s.dropWhile isspace) := by
  unfold c_str
  induction s with
  | nil => rfl
  | cons x xs ih =>
    by_cases hx : x = NUL
    · subst hx
      have h0 : isspace NUL = false := by decide
      simp [List.takeWhile, List.dropWhile, h0]
    · have hp : (x != NUL) = true := by simpa using hx
      by_cases hs : isspace x = true
      · simp only [List.takeWhile, hp, List.dropWhile, hs]
        exact ih
      · have hs0 : isspace x = false := by simpa using hs
        simp [List.takeWhile, hp, List.dropWhile, hs0]

theorem isdigit_ne_NUL (c : Char) (h : isdigit c = true) : c ≠ NUL := by
  intro e
  subst e
  revert h
  decide

theorem takeWhile_isdigit_c_str (s : Str) :
    (c_str s).takeWhile isdigit = s.takeWhile isdigit := by
  unfold c_str
  induction s with
  | nil => rfl
  | cons x xs ih =>
    by_cases hd : isdigit x = true
    · have hp : (x != NUL) = true := by simpa using isdigit_ne_NUL x hd
      simp only [List.takeWhile, hp, hd]
      rw [ih]
    · have hd0 : isdigit x = false := by simpa using hd
      by_cases hx : (x != NUL) = true
      · simp [List.takeWhile, hx, hd0]
      · have hx0 : (x != NUL) = false := by simpa using hx
        simp [List.takeWhile, hx0, hd0]

theorem head_c_str (s : Str) (c : Char) (hc : c ≠ NUL) :
    ((c_str s).head? == some c) = (s.head? == some c) := by
  unfold c_str
  cases s with
  | nil => rfl
  | cons x xs =>
    by_cases hx : x = NUL
    · subst hx
      have h1 : (NUL == c) = false := by simpa using fun e : NUL = c => hc e.symm
      simp [List.takeWhile, h1]
    · have hp : (x != NUL) = true := by simpa using hx
      simp [List.takeWhile, hp]

theorem drop_one_c_str (s : Str) (h : s.head? ≠ some NUL) :
    (c_str s).drop 1 = c_str (s.drop 1) := by
  unfold c_str
  cases s with
  | nil => rfl
  | cons x xs =>
    have hx : x ≠ NUL := fun e => h (by simp [e])
    have hp : (x != NUL) = true := by simpa using hx
    simp [List.takeWhile, hp]

/-- The conversion of `strtol` sees of a `std::string` what its C string shows. -/
theorem scanLong_c_str (s : Str) : scanLong (c_str s) = scanLong s := by
  have hm : '-' ≠ NUL := by decide
  have hpl : '+' ≠ NUL := by decide
  unfold scanLong
  simp only
  rw [dropWhile_isspace_c_str, head_c_str _ '-' hm, head_c_str _ '+' hpl]
  by_cases hsign : ((s.dropWhile isspace).head? == some '-'
      || (s.dropWhile isspace).head? == some '+') = true
  · have hh : (s.dropWhile isspace).head? ≠ some NUL := by
      intro e
      rw [e] at hsign
      revert hsign
      decide
    simp only [hsign, if_true]
    rw [drop_one_c_str _ hh, takeWhile_isdigit_c_str]
  · have hs0 : ((s.dropWhile isspace).head? == some '-'
        || (s.dropWhile isspace).head? == some '+') = false := by simpa using hsign
    simp only [hs0, Bool.false_eq_true, if_false]
    rw [takeWhile_isdigit_c_str]

theorem atoi_c_str (s : Str) : atoi (c_str s) = atoi s := by
  unfold atoi
  rw [scanLong_c_str]

theorem splitPair_count (c : Char) (s : Str) : (splitPair c s).2.length = s.count c := by
  induction s with
  | nil => rfl
  | cons x xs ih =>
    by_cases hx : x = c
    · subst hx
      simp [splitPair, ih]
    · have hb : (x == c) = false := by simpa using hx
      simp [splitPair, hx, ih, List.count_cons, hb]

theorem splitOn_length (c : Char) (s : Str) : (splitOn c s).length = 1 + s.count c := by
  unfold splitOn
  rw [List.length_cons, splitPair_count]
  omega

/-- The loop of `handleSetupStream` appends the elements of the tokens in order. -/
theorem parseChannelsLoop_eq (chans : Str) (hlen : chans.length < npos) (fuel : Nat) :
    ∀ (pre rest : Str) (nxt : Nat) (channels : List Nat),
      chans = pre ++ rest → sizeAdd nxt 1 = pre.length → rest.length < fuel →
      parseChannelsLoop chans fuel nxt channels
        = channels ++ (splitOn ' ' rest).map channelOfToken := by
  have hnpos : npos = 2 ^ 64 - 1 := rfl
  induction fuel with
  | zero => intro pre rest nxt channels _ _ h; omega
  | succ fuel ih =>
    intro pre rest nxt channels hchans hcur hfuel
    have hl : chans.length = pre.length + rest.length := by rw [hchans, List.length_append]
    have hdrop : chans.drop pre.length = rest := by rw [hchans, List.drop_left]
    rw [parseChannelsLoop]
    simp only [hcur]
    unfold find
    rw [hdrop]
    cases h : indexOf ' ' rest with
    | none =>
      have hs : substr chans pre.length (sizeSub npos pre.length) = rest := by
        unfold substr
        rw [hdrop, sizeSub_small _ _ (by omega) (by omega), List.take_of_length_le (by omega)]
      simp only [hs, bne_self_eq_false, Bool.false_eq_true, if_false]
      rw [atoi_c_str]
      simp [splitOn, indexOf_none ' ' rest h, channelOfToken]
    | some i =>
      have hi := indexOf_lt ' ' rest i h
      obtain ⟨h1, h2⟩ := indexOf_some ' ' rest i h
      have hs : substr chans pre.length (sizeSub (pre.length + i) pre.length) = rest.take i := by
        unfold substr
        rw [hdrop, sizeSub_small _ _ (by omega) (by omega)]
        congr 1
        omega
      have hne : (pre.length + i != npos) = true := by
        simp only [bne_iff_ne, ne_eq]
        omega
      simp only [hs, hne, if_true]
      rw [atoi_c_str]
      rw [ih (pre ++ rest.take i ++ [' ']) (rest.drop (i + 1)) (pre.length + i) _
        (by rw [hchans, List.append_assoc, List.append_assoc]; congr 1; simpa using h1.symm)
        (by rw [sizeAdd_small _ (by omega)]
            simp only [List.length_append, List.length_take, List.length_singleton]
            omega)
        (by simp only [List.length_drop]; omega)]
      simp [splitOn, h2, channelOfToken]

theorem parseChannels_eq (s : Str) (hlen : s.length < npos) :
    parseChannels s = channelsOfTokens s := by
  unfold parseChannels channelsOfTokens
  rw [parseChannelsLoop_eq s hlen _ [] s npos [] rfl (by decide) (by omega)]
  rfl

theorem digitChar_isdigit (n : Nat) (h : n < 10) : isdigit (Nat.digitChar n) = true := by
  interval_cases n <;> decide

theorem digitChar_value (n : Nat) (h : n < 10) : (Nat.digitChar n).toNat - 48 = n := by
  interval_cases n <;> decide

theorem toDigitsCore_isdigit (fuel : Nat) :
    ∀ (n : Nat) (acc : List Char), (∀ c ∈ acc, isdigit c = true) →
      ∀ c ∈ Nat.toDigitsCore 10 fuel n acc, isdigit c = true := by
  induction fuel with
  | zero => intro n acc hacc; simpa [Nat.toDigitsCore] using hacc
  | succ fuel ih =>
    intro n acc hacc
    have hd : isdigit (Nat.digitChar (n % 10)) = true :=
      digitChar_isdigit _ (Nat.mod_lt _ (by decide))
    have hacc1 : ∀ c ∈ Nat.digitChar (n % 10) :: acc, isdigit c = true := by
      intro c hc
      rcases List.mem_cons.mp hc with h | h
      · rw [h]; exact hd
      · exact hacc c h
    unfold Nat.toDigitsCore
    simp only
    split
    · exact hacc1
    · exact ih _ _ hacc1

theorem toDigitsCore_ne_nil (fuel : Nat) :
    ∀ (n : Nat) (acc : List Char), acc ≠ [] → Nat.toDigitsCore 10 fuel n acc ≠ [] := by
  induction fuel with
  | zero => intro n acc hacc; simpa [Nat.toDigitsCore] using hacc
  | succ fuel ih =>
    intro n acc _
    unfold Nat.toDigitsCore
    simp only
    split
    · simp
    · exact ih _ _ (by simp)

theorem toDigits_ne_nil (n : Nat) : Nat.toDigits 10 n ≠ [] := by
  unfold Nat.toDigits Nat.toDigitsCore
  simp only
  split
  · simp
  · exact toDigitsCore_ne_nil _ _ _ (by simp)

/-- Reading the digits that `toDigitsCore` puts before `acc` continues the
value `n` into `acc`. -/
theorem toDigitsCore_value (fuel : Nat) :
    ∀ (n : Nat) (acc : List Char), n < fuel →
      (Nat.toDigitsCore 10 fuel n acc).reverse.foldr (fun c a => 10 * a + (c.toNat - 48)) 0
        = acc.reverse.foldr (fun c a => 10 * a + (c.toNat - 48)) n := by
  induction fuel with
  | zero => intro n acc h; omega
  | succ fuel ih =>
    intro n acc hn
    have hv := digitChar_value (n % 10) (Nat.mod_lt _ (by decide))
    unfold Nat.toDigitsCore
    simp only
    split
    · rename_i h0
      have hn10 : n % 10 = n := by omega
      simp only [List.reverse_cons, List.foldr_append, List.foldr_cons, List.foldr_nil]
      rw [hv, hn10, Nat.mul_zero, Nat.zero_add]
    · rename_i h0
      rw [ih (n / 10) _ (by omega)]
      simp only [List.reverse_cons, List.foldr_append, List.foldr_cons, List.foldr_nil]
      rw [hv]
      congr 1
      omega

theorem digitsValue_toDigits (n : Nat) : digitsValue (Nat.toDigits 10 n) = n := by
  have h := toDigitsCore_value (n + 1) n [] (by omega)
  unfold digitsValue Nat.toDigits
  rw [List.foldr_reverse] at h
  simpa using h

theorem scanLong_digits (ds : Str) (hne : ds ≠ []) (hall : ∀ c ∈ ds, isdigit c = true) :
    scanLong ds = some (clampLong (digitsValue ds)) := by
  cases ds with
  | nil => exact absurd rfl hne
  | cons c cs =>
    have hc : isdigit c = true := hall c (List.mem_cons_self _ _)
    have hsp : isspace c = false := by
      unfold isdigit at hc
      unfold isspace
      simp only [Bool.and_eq_true, decide_eq_true_eq] at hc
      simp only [Bool.or_eq_false_iff, decide_eq_false_iff_not, Bool.and_eq_false_imp,
        decide_eq_true_eq]
      omega
    have hm : c ≠ '-' := by
      intro e; subst e; revert hc; decide
    have hp : c ≠ '+' := by
      intro e; subst e; revert hc; decide
    have htake : (c :: cs).takeWhile isdigit = c :: cs := by
      rw [List.takeWhile_eq_self_iff]
      exact hall
    have hdw : (c :: cs).dropWhile isspace = c :: cs := by simp [List.dropWhile, hsp]
    have h1 : (some c == some '-') = false := by simpa using hm
    have h2 : (some c == some '+') = false := by simpa using hp
    unfold scanLong
    simp only [hdw, List.head?_cons, h1, h2, Bool.or_self, Bool.false_eq_true, if_false, htake,
      List.isEmpty_cons]

theorem channelOfToken_toDigits (n : Nat) (h : n < 2 ^ 31) :
    channelOfToken (Nat.toDigits 10 n) = n := by
  unfold channelOfToken atoi
  rw [scanLong_digits _ (toDigits_ne_nil n) (toDigitsCore_isdigit _ _ _ (by simp)),
    digitsValue_toDigits]
  unfold clampLong wrapInt32 sizeOfInt
  simp only [Option.getD_some]
  omega

theorem splitPair_token (t rest : Str) (h : ' ' ∉ t) :
    splitPair ' ' t = (t, []) ∧ splitPair ' ' (t ++ ' ' :: rest) = (t, splitOn ' ' rest) := by
  induction t with
  | nil => simp [splitPair, splitOn]
  | cons x xs ih =>
    have hx : ¬ x = ' ' := fun e => h (by simp [e])
    have hxs : ' ' ∉ xs := fun e => h (List.mem_cons_of_mem _ e)
    obtain ⟨h1, h2⟩ := ih hxs
    simp [splitPair, hx, h1, h2]

theorem splitOn_joinSpaces (ts : List Str) (hne : ts ≠ []) (h : ∀ t ∈ ts, ' ' ∉ t) :
    splitOn ' ' (joinSpaces ts) = ts := by
  induction ts with
  | nil => exact absurd rfl hne
  | cons t ts ih =>
    cases ts with
    | nil =>
      simp [joinSpaces, splitOn, (splitPair_token t [] (h t (List.mem_cons_self _ _))).1]
    | cons u us =>
      have ih1 := ih (by simp) (fun t1 ht1 => h t1 (List.mem_cons_of_mem _ ht1))
      have hs := (splitPair_token t (joinSpaces (u :: us)) (h t (List.mem_cons_self _ _))).2
      unfold splitOn at ih1
      simp only [joinSpaces, splitOn, hs, ih1]

theorem toDigits_no_space (n : Nat) : ' ' ∉ Nat.toDigits 10 n := by
  intro h
  have hd := toDigitsCore_isdigit (n + 1) n [] (by simp) ' ' h
  revert hd
  decide

/-- C21 (as amended): for every channel string `s` (shorter than `npos`, as
every `std::string` is) the parsed list has exactly 1 + (number of space
characters in `s`) elements, and its k-th element is the `atoi` value (0 when
the token has no leading decimal) of the k-th space-delimited token, stored in
a `size_t`: unchanged when it is not negative, `2^64 + v` for a negative `v`.
Hence decimal numbers below `2^31` written with single spaces between them
yield these numbers in order, and the list is never empty. -/
theorem parseChannels_tokens (s : Str) (hlen : s.length < npos) :
    parseChannels s = (splitOn ' ' s).map (fun t => sizeOfInt (atoi t)) ∧
    (parseChannels s).length = 1 + s.count ' ' ∧
    parseChannels s ≠ [] ∧
    (∀ t ∈ splitOn ' ' s, 0 ≤ atoi t → ((sizeOfInt (atoi t) : Nat) : Int) = atoi t) ∧
    (∀ t ∈ splitOn ' ' s, atoi t < 0 → ((sizeOfInt (atoi t) : Nat) : Int) = 2 ^ 64 + atoi t) ∧
    (∀ ns : List Nat, ns ≠ [] → (∀ n ∈ ns, n < 2 ^ 31) →
      s = joinSpaces (ns.map (Nat.toDigits 10)) → parseChannels s = ns) := by
  have heq : parseChannels s = (splitOn ' ' s).map (fun t => sizeOfInt (atoi t)) :=
    parseChannels_eq s hlen
  have hlenEq : (parseChannels s).length = 1 + s.count ' ' := by
    rw [heq, List.length_map, splitOn_length]
  have hrange : ∀ t : Str, -(2 ^ 31) ≤ atoi t ∧ atoi t < 2 ^ 31 := by
    intro t
    unfold atoi wrapInt32
    omega
  refine ⟨heq, hlenEq, ?_, ?_, ?_, ?_⟩
  · intro h
    rw [h] at hlenEq
    simp at hlenEq
    omega
  · intro t _ h0
    unfold sizeOfInt
    have := hrange t
    omega
  · intro t _ h0
    unfold sizeOfInt
    have := hrange t
    omega
  · intro ns hne hns hs
    have hsplit : splitOn ' ' s = ns.map (Nat.toDigits 10) := by
      rw [hs]
      apply splitOn_joinSpaces
      · simpa using hne
      · intro t ht
        obtain ⟨n, -, rfl⟩ := List.mem_map.mp ht
        exact toDigits_no_space n
    rw [parseChannels_eq s hlen]
    unfold channelsOfTokens
    rw [hsplit, List.map_map]
    have hid : ns.map (channelOfToken ∘ Nat.toDigits 10) = ns.map id :=
      List.map_congr_left (fun n hn => channelOfToken_toDigits n (hns n hn))
    rw [hid, List.map_id]

/-- C21 (as amended) at the channel string `0 1` of the scenarios, which
yields the two channels 0 and 1, and at the empty string, which yields the
one channel 0. -/
theorem parseChannels_tokens_witness :
    parseChannels "0 1".toList = [0, 1] ∧
    (parseChannels "0 1".toList).length = 1 + "0 1".toList.count ' ' ∧
    parseChannels [] = [0] ∧
    parseChannels [] ≠ [] :=
  ⟨(parseChannels_tokens "0 1".toList (by decide)).2.2.2.2.2 [0, 1] (by decide) (by decide)
      (by decide),
   (parseChannels_tokens "0 1".toList (by decide)).2.1,
   (parseChannels_tokens [] (by decide)).1.trans (by decide),
   (parseChannels_tokens [] (by decide)).2.2.1⟩

/-- C21 as stated fails: the one token of the channel string `-1` has the
leading-decimal value -1, and the parsed list holds the one element
18446744073709551615; for `2 -3` the list is 2, 18446744073709551613. -/
theorem parseChannels_negative_token :
    atoi "-1".toList = -1 ∧
    parseChannels "-1".toList = [18446744073709551615] ∧
    (parseChannels "-1".toList).map (fun n : Nat => (n : Int))
      ≠ (splitOn ' ' "-1".toList).map atoi ∧
    parseChannels "2 -3".toList = [2, 18446744073709551613] := by
  decide

/-! ## Theorems: the read loops end -/

/-- With fuel beyond the unread input the loop of `readKwargs` reaches its
`break`, after at most one line read per unread byte and one more. -/
theorem readKwargsCount_ends (fuel : Nat) :
    ∀ (rpc : SoapyRPC) (args : Kwargs), rpc.handle.input.length < fuel →
      ∃ n, 1 ≤ n ∧ n ≤ rpc.handle.input.length + 1 ∧
        readKwargsCount fuel rpc args
          = some ((readKwargsLoop fuel rpc args).1, (readKwargsLoop fuel rpc args).2, n) := by
  induction fuel with
  | zero => intro rpc args h; omega
  | succ fuel ih =>
    intro rpc args h
    rw [readKwargsCount, readKwargsLoop]
    by_cases hs : (readString rpc).1.length < 2
    · simp only [hs, if_true]
      exact ⟨1, by omega, by omega, rfl⟩
    · simp only [hs, if_false]
      have hne : (readString rpc).1 ≠ [] := by
        intro e; rw [e] at hs; simp at hs
      have hlt := readString_consumes rpc hne
      have hf : (readString rpc).2.handle.input.length < fuel := by omega
      split
      · obtain ⟨n, h1, h2, h3⟩ := ih (readString rpc).2
          (args.assign (substr (readString rpc).1 0 (find (readString rpc).1 '=' 0))
            (substr (readString rpc).1 (sizeAdd (find (readString rpc).1 '=' 0) 1) npos)) hf
        exact ⟨n + 1, by omega, by omega, by rw [h3]; rfl⟩
      · obtain ⟨n, h1, h2, h3⟩ := ih (readString rpc).2 args hf
        exact ⟨n + 1, by omega, by omega, by rw [h3]; rfl⟩

/-- With fuel beyond the unread input the loop of `readStrVector` reaches its
`break`, after at most one line read per unread byte and one more. -/
theorem readStrVectorCount_ends (fuel : Nat) :
    ∀ (rpc : SoapyRPC) (list : List Str), rpc.handle.input.length < fuel →
      ∃ n, 1 ≤ n ∧ n ≤ rpc.handle.input.length + 1 ∧
        readStrVectorCount fuel rpc list
          = some ((readStrVectorLoop fuel rpc list).1, (readStrVectorLoop fuel rpc list).2, n) := by
  induction fuel with
  | zero => intro rpc list h; omega
  | succ fuel ih =>
    intro rpc list h
    rw [readStrVectorCount, readStrVectorLoop]
    by_cases hs : (readString rpc).1.length = 0
    · simp only [hs, if_true]
      exact ⟨1, by omega, by omega, rfl⟩
    · simp only [hs, if_false]
      have hne : (readString rpc).1 ≠ [] := by
        intro e; rw [e] at hs; simp at hs
      have hlt := readString_consumes rpc hne
      have hf : (readString rpc).2.handle.input.length < fuel := by omega
      obtain ⟨n, h1, h2, h3⟩ := ih (readString rpc).2 (list ++ [(readString rpc).1]) hf
      exact ⟨n + 1, by omega, by omega, by rw [h3]; rfl⟩

/-- At the end of the input `readString` raises the flag and returns the
empty string. -/
theorem readString_exhausted (rpc : SoapyRPC) (hr : rpc.hasError = false)
    (hin : rpc.handle.input = []) :
    readString rpc = ([], { rpc with hasError := true }) := by
  unfold readString fgets
  simp [hr, hin]

/-- A read under the raised flag returns the empty string and changes nothing. -/
theorem readString_flagged (rpc : SoapyRPC) (hr : rpc.hasError = true) :
    readString rpc = ([], rpc) := by
  unfold readString
  simp [hr]

/-- The lines of `m` followed by the end of the input: the loop of `readKwargs`
assigns the entries and ends on the failed read. -/
theorem readKwargsLoop_unterminated (m : Kwargs) :
    ∀ (fuel : Nat) (acc : Kwargs) (r : SoapyRPC),
      m.length < fuel → r.hasError = false →
      (∀ e ∈ m, e.1 ≠ [] ∧ '=' ∉ e.1 ∧ fitsLine (kwLine e)) →
      r.handle.input = wireLines (m.map kwLine) →
      readKwargsLoop fuel r acc
        = (m.foldl (fun a e => a.assign e.1 e.2) acc,
            { handle := { r.handle with input := [] }, hasError := true }) := by
  induction m with
  | nil =>
    intro fuel acc r hf hr _ hin
    cases fuel with
    | zero => simp at hf
    | succ fuel =>
      have hin0 : r.handle.input = [] := by simpa [wireLines] using hin
      have hrd := readString_exhausted r hr hin0
      unfold readKwargsLoop
      simp only [hrd, List.length_nil, Nat.lt_add_one, Nat.zero_lt_succ, if_true, List.foldl_nil,
        Nat.ofNat_pos]
      rw [← hin0]
  | cons e m ih =>
    intro fuel acc r hf hr hm hin
    cases fuel with
    | zero => simp at hf
    | succ fuel =>
      obtain ⟨k, v⟩ := e
      obtain ⟨hk, heq, hnl, hnul, hlen⟩ := hm (k, v) (List.mem_cons_self _ _)
      have hrd := readString_line r (kwLine (k, v)) (wireLines (m.map kwLine)) hr hnl hnul hlen
        (by simpa [wireLines] using hin)
      obtain ⟨s1, s2, s3, s4, s5⟩ := kwLine_split k v hk heq hlen
      unfold readKwargsLoop
      simp only [hrd, s1, if_false, s2, s3, if_true, s4, s5]
      exact ih fuel (acc.assign k v)
        { r with handle := { r.handle with input := wireLines (m.map kwLine) } }
        (by simpa using hf) hr (fun x hx => hm x (List.mem_cons_of_mem _ hx)) rfl

/-- The lines of `v` followed by the end of the input: the loop of
`readStrVector` collects them and ends on the failed read. -/
theorem readStrVectorLoop_unterminated (v : List Str) :
    ∀ (fuel : Nat) (acc : List Str) (r : SoapyRPC),
      v.length < fuel → r.hasError = false →
      (∀ s ∈ v, s ≠ [] ∧ fitsLine s) →
      r.handle.input = wireLines v →
      readStrVectorLoop fuel r acc
        = (acc ++ v, { handle := { r.handle with input := [] }, hasError := true }) := by
  induction v with
  | nil =>
    intro fuel acc r hf hr _ hin
    cases fuel with
    | zero => simp at hf
    | succ fuel =>
      have hin0 : r.handle.input = [] := by simpa [wireLines] using hin
      have hrd := readString_exhausted r hr hin0
      unfold readStrVectorLoop
      simp only [hrd, List.length_nil, if_true, List.append_nil]
      rw [← hin0]
  | cons s v ih =>
    intro fuel acc r hf hr hv hin
    cases fuel with
    | zero => simp at hf
    | succ fuel =>
      obtain ⟨hne, hnl, hnul, hlen⟩ := hv s (List.mem_cons_self _ _)
      have hrd := readString_line r s (wireLines v) hr hnl hnul hlen
        (by simpa [wireLines] using hin)
      have hlen0 : ¬ s.length = 0 := by
        intro h0; exact hne (List.length_eq_zero.mp h0)
      unfold readStrVectorLoop
      simp only [hrd, hlen0, if_false]
      refine (ih fuel (acc ++ [s]) { r with handle := { r.handle with input := wireLines v } }
        (by simpa using hf) hr (fun x hx => hv x (List.mem_cons_of_mem _ hx)) rfl).trans ?_
      simp

/-- C22: `readKwargs` and `readStrVector` return on every input. Under the
raised flag they return at once with no entries. Otherwise their loops reach
the `break` after `n` line reads, `1 ≤ n ≤` (number of unread bytes) `+ 1`,
and return what `readKwargs` (`readStrVector`) returns, also when the input
ends without a terminator line. When the input is exhausted `readString` raises
the flag and returns the empty string, and each loop ends there and returns
the entries collected so far; so entry lines followed by the end of the input
give exactly their entries, with the flag raised. -/
theorem read_loops_end (rpc : SoapyRPC) :
    (rpc.hasError = true → readKwargs rpc = ([], rpc) ∧ readStrVector rpc = ([], rpc)) ∧
    (rpc.hasError = false →
      (∃ n, 1 ≤ n ∧ n ≤ rpc.handle.input.length + 1 ∧
        readKwargsCount (rpc.handle.input.length + 1) rpc []
          = some ((readKwargs rpc).1, (readKwargs rpc).2, n)) ∧
      (∃ n, 1 ≤ n ∧ n ≤ rpc.handle.input.length + 1 ∧
        readStrVectorCount (rpc.handle.input.length + 1) rpc []
          = some ((readStrVector rpc).1, (readStrVector rpc).2, n))) ∧
    (rpc.hasError = false → rpc.handle.input = [] →
      readString rpc = ([], { rpc with hasError := true }) ∧
      (∀ fuel args, readKwargsLoop (fuel + 1) rpc args = (args, { rpc with hasError := true }) ∧
        readKwargsCount (fuel + 1) rpc args = some (args, { rpc with hasError := true }, 1)) ∧
      (∀ fuel list,
        readStrVectorLoop (fuel + 1) rpc list = (list, { rpc with hasError := true }) ∧
        readStrVectorCount (fuel + 1) rpc list
          = some (list, { rpc with hasError := true }, 1))) ∧
    (∀ m : Kwargs, rpc.hasError = false →
      (∀ e ∈ m, e.1 ≠ [] ∧ '=' ∉ e.1 ∧ fitsLine (kwLine e)) →
      rpc.handle.input = wireLines (m.map kwLine) →
      readKwargs rpc
        = (m.foldl (fun (a : Kwargs) (e : Str × Str) => a.assign e.1 e.2) [],
            { handle := { rpc.handle with input := [] }, hasError := true })) ∧
    (∀ v : List Str, rpc.hasError = false →
      (∀ s ∈ v, s ≠ [] ∧ fitsLine s) →
      rpc.handle.input = wireLines v →
      readStrVector rpc
        = (v, { handle := { rpc.handle with input := [] }, hasError := true })) := by
  refine ⟨?_, ?_, ?_, ?_, ?_⟩
  · intro h
    simp [readKwargs, readStrVector, h]
  · intro h
    have hk : readKwargs rpc = readKwargsLoop (rpc.handle.input.length + 1) rpc [] := by
      simp [readKwargs, h]
    have hv : readStrVector rpc = readStrVectorLoop (rpc.handle.input.length + 1) rpc [] := by
      simp [readStrVector, h]
    rw [hk, hv]
    exact ⟨readKwargsCount_ends _ rpc [] (by omega), readStrVectorCount_ends _ rpc [] (by omega)⟩
  · intro h hin
    have hrd := readString_exhausted rpc h hin
    refine ⟨hrd, ?_, ?_⟩
    · intro fuel args
      constructor
      · rw [readKwargsLoop]
        simp [hrd]
      · rw [readKwargsCount]
        simp [hrd]
    · intro fuel list
      constructor
      · rw [readStrVectorLoop]
        simp [hrd]
      · rw [readStrVectorCount]
        simp [hrd]
  · intro m h hm hin
    have hlen : m.length < rpc.handle.input.length + 1 := by
      have := wireLines_length (m.map kwLine)
      rw [hin]
      simp only [List.length_map] at this
      omega
    unfold readKwargs
    rw [if_neg (by simp [h])]
    exact readKwargsLoop_unterminated m _ [] rpc hlen h hm hin
  · intro v h hv hin
    have hlen : v.length < rpc.handle.input.length + 1 := by
      have := wireLines_length v
      rw [hin]
      omega
    unfold readStrVector
    rw [if_neg (by simp [h])]
    rw [readStrVectorLoop_unterminated v _ [] rpc hlen h hv hin]
    simp

/-- C22 on inputs that end without a terminator line: the two entry lines
`k1=v1`, `k2=v2` and the two element lines `RX`, `TX`, each followed by the
end of the input. -/
theorem read_loops_end_witness :
    readKwargs (rpcOn "k1=v1\nk2=v2\n".toList)
      = ([("k1".toList, "v1".toList), ("k2".toList, "v2".toList)],
          { handle := { input := [], output := [], credit := none }, hasError := true }) ∧
    readStrVector (rpcOn "RX\nTX\n".toList)
      = (["RX".toList, "TX".toList],
          { handle := { input := [], output := [], credit := none }, hasError := true }) ∧
    (∃ n, 1 ≤ n ∧ n ≤ 12 + 1 ∧
      readKwargsCount (12 + 1) (rpcOn "k1=v1\nk2=v2\n".toList) []
        = some ((readKwargs (rpcOn "k1=v1\nk2=v2\n".toList)).1,
            (readKwargs (rpcOn "k1=v1\nk2=v2\n".toList)).2, n)) :=
  ⟨(read_loops_end (rpcOn "k1=v1\nk2=v2\n".toList)).2.2.2.1
      [("k1".toList, "v1".toList), ("k2".toList, "v2".toList)] rfl (by decide) (by decide),
   (read_loops_end (rpcOn "RX\nTX\n".toList)).2.2.2.2 ["RX".toList, "TX".toList] rfl
      (by decide) (by decide),
   ((read_loops_end (rpcOn "k1=v1\nk2=v2\n".toList)).2.1 rfl).1⟩

end SoapyTCPRemote
